import Mathlib

/-! Address resolution of the Gradio client.

A shallow embedding of `GradioClient::parseSpaceAddress`
(`src/gradio/GradioClient.cpp`) together with the `juce::String` and
`juce::StringArray` operations it calls.

A `juce::String` is a NUL-terminated sequence of Unicode code points; it is
represented by the `List Char` of the code points before the terminator.
Character indices of `juce::String` are positions in that list; the result
`-1` of the search functions is `none`.
-/

namespace Juce

/-- The `CharPointer::compareUpTo (sub, sub.length()) == 0` test of
`CharacterFunctions::indexOf`: the text at the pointer starts with `sub`. -/
def startsWith : List Char → List Char → Bool
  | _, [] => true
  | [], _ :: _ => false
  | t :: ts, p :: ps => t == p && startsWith ts ps

/-- The loop of `CharacterFunctions::indexOf (textToSearch, substringToLookFor)`:
the index of the first position at which `sub` starts, counted from `index`. -/
def indexOfFrom (sub : List Char) : List Char → Nat → Option Nat
  | [], index => if startsWith [] sub then some index else none
  | t :: ts, index =>
    if startsWith (t :: ts) sub then some index else indexOfFrom sub ts (index + 1)

/-- The function `String::indexOf (StringRef other)`:
`other.isEmpty() ? 0 : text.indexOf (other.text)`. -/
def indexOf (text other : List Char) : Option Nat :=
  if other.isEmpty then some 0 else indexOfFrom other text 0

/-- The function `String::contains (StringRef other)`: `indexOf (other) >= 0`. -/
def contains (text other : List Char) : Bool :=
  (indexOf text other).isSome

/-- The loop of `CharPointer::indexOf (juce_wchar charToFind)`, counted from `index`. -/
def indexOfCharFrom (charToFind : Char) : List Char → Nat → Option Nat
  | [], _ => none
  | t :: ts, index =>
    if t = charToFind then some index else indexOfCharFrom charToFind ts (index + 1)

/-- The function `String::indexOfChar (juce_wchar c)`: the index of the first `c`. -/
def indexOfChar (text : List Char) (c : Char) : Option Nat :=
  indexOfCharFrom c text 0

/-- The function `String::substring (int start)` for `start >= 0`. -/
def substringFrom (text : List Char) (start : Nat) : List Char :=
  text.drop start

/-- The function `String::substring (int start, int end)` for `start >= 0`. -/
def substring (text : List Char) (start stop : Nat) : List Char :=
  (text.take stop).drop start

/-- The function `String::fromFirstOccurrenceOf (sub, false, false)`: the text
after the first occurrence of `sub`, and the empty string when there is none. -/
def fromFirstOccurrenceOf (text sub : List Char) : List Char :=
  match indexOf text sub with
  | none => []
  | some i => substringFrom text (i + sub.length)

/-- The function `String::upToFirstOccurrenceOf (sub, false, false)`: the text
before the first occurrence of `sub`, and the whole string when there is none. -/
def upToFirstOccurrenceOf (text sub : List Char) : List Char :=
  match indexOf text sub with
  | none => text
  | some i => substring text 0 i

/-- The loop of `String::replace (stringToReplace, stringToInsert)`: scan from
the left, `skip` counts the characters of a match still to be dropped. -/
def replaceGo (stringToReplace stringToInsert : List Char) :
    Nat → List Char → List Char
  | _, [] => []
  | skip + 1, _ :: ts => replaceGo stringToReplace stringToInsert skip ts
  | 0, t :: ts =>
    if startsWith (t :: ts) stringToReplace then
      stringToInsert
        ++ replaceGo stringToReplace stringToInsert (stringToReplace.length - 1) ts
    else
      t :: replaceGo stringToReplace stringToInsert 0 ts

/-- The function `String::replace (stringToReplace, stringToInsert)`: every
occurrence, found left to right without overlap and without rescanning
inserted text, is replaced; an empty `stringToReplace` is never found. -/
def replace (text stringToReplace stringToInsert : List Char) : List Char :=
  if stringToReplace.isEmpty then text
  else replaceGo stringToReplace stringToInsert 0 text

/-- The function `CharacterFunctions::findEndOfToken` with no quote characters,
returned as the token and what follows it (starting at the break character). -/
def findEndOfToken (breakCharacters : List Char) :
    List Char → List Char × List Char
  | [] => ([], [])
  | c :: cs =>
    if breakCharacters.contains c then ([], c :: cs)
    else
      let r := findEndOfToken breakCharacters cs
      (c :: r.1, r.2)

/-- The loop of `StringArray::addTokens`: `fuel` bounds the number of tokens,
which is at most the length of the text plus one. -/
def addTokensLoop (breakCharacters : List Char) : Nat → List Char → List (List Char)
  | 0, _ => []
  | fuel + 1, t =>
    let r := findEndOfToken breakCharacters t
    match r.2 with
    | [] => [r.1]
    | _ :: rest => r.1 :: addTokensLoop breakCharacters fuel rest

/-- The function `StringArray::fromTokens (text, breakCharacters, "")`: no
token for an empty text, otherwise the pieces between break characters,
empty pieces included. -/
def fromTokens (text breakCharacters : List Char) : List (List Char) :=
  if text.isEmpty then [] else addTokensLoop breakCharacters (text.length + 1) text

/-- The operator `StringArray::operator[]`: the string at `index`, and an
empty string when the index is out of range. -/
def stringAt (parts : List (List Char)) (index : Nat) : List Char :=
  parts.getD index []

/-- The function `WildCardMatcher::characterMatches` for a character `tc` of
the text (the case `tc == 0`, the end of the text, is handled by the caller).
`CharacterFunctions::toLowerCase` is `Char.toLower`; the pattern used by the
client has no cased character. -/
def characterMatches (wc tc : Char) (ignoreCase : Bool) : Bool :=
  wc == tc || wc == '?' || (ignoreCase && wc.toLower == tc.toLower)

/-- The function `WildCardMatcher::matchesAnywhere`, the match of the rest of
the pattern being `m`: some non-empty suffix of the text matches. -/
def matchesAnywhere (m : List Char → Bool) : List Char → Bool
  | [] => false
  | t :: ts => m (t :: ts) || matchesAnywhere m ts

/-- The function `WildCardMatcher::matches (wildcard, test, ignoreCase)`. -/
def wildcardMatches (ignoreCase : Bool) : List Char → List Char → Bool
  | [], test => test.isEmpty
  | wc :: wildcard, test =>
    if wc = '*' then
      wildcard.isEmpty || matchesAnywhere (wildcardMatches ignoreCase wildcard) test
    else
      match test with
      | [] => false
      | tc :: ts => characterMatches wc tc ignoreCase && wildcardMatches ignoreCase wildcard ts

/-- The function `String::matchesWildcard (wildcard, ignoreCase)`. -/
def matchesWildcard (text wildcard : List Char) (ignoreCase : Bool) : Bool :=
  wildcardMatches ignoreCase wildcard text

end Juce

namespace GradioClient

open Juce

/-- Modelled from the spec: the enumeration `SpaceInfo::Status` of `utils.h`,
which is not among the sources. It has the four values that
`parseSpaceAddress` assigns, and `EMPTY` for a record that was never parsed. -/
inductive Status where
  | GRADIO
  | HUGGINGFACE
  | LOCALHOST
  | ERROR
  | EMPTY
  deriving DecidableEq, Repr

/-- Modelled from the spec: the record `SpaceInfo` of `utils.h`, which is not
among the sources. Its fields are the ones `parseSpaceAddress` writes: the
display URL `huggingface`, the canonical URL `gradio`, the text the user
typed, the repo and owner names, the error message and the status. -/
structure SpaceInfo where
  huggingface : List Char
  gradio : List Char
  userInput : List Char
  modelName : List Char
  userName : List Char
  error : List Char
  status : Status
  deriving DecidableEq, Repr

/-- A `SpaceInfo` whose strings are all empty. -/
def emptySpaceInfo : SpaceInfo :=
  { huggingface := [], gradio := [], userInput := [], modelName := [], userName := [],
    error := [], status := Status.EMPTY }

/-- The constant `huggingFaceBaseUrl` of `parseSpaceAddress`. -/
def huggingFaceBaseUrl : List Char := "https://huggingface.co/spaces/".toList

/-- The condition of the first `if` of `parseSpaceAddress` (rule 1). -/
def isLocalAddress (spaceAddress : List Char) : Bool :=
  contains spaceAddress "localhost".toList || contains spaceAddress "gradio.live".toList
    || matchesWildcard spaceAddress "*.*.*.*:*".toList true

/-- The `if / else if / else` cascade of `parseSpaceAddress` after rule 1
(rules 2 to 5): either the error message of the branch that returns early, or
the values of `user` and `model` and the status the branch has set. -/
def extractUserAndModel (spaceAddress : List Char) :
    Except (List Char) (List Char × List Char × Status) :=
  if contains spaceAddress huggingFaceBaseUrl then
    let spacePath := fromFirstOccurrenceOf spaceAddress huggingFaceBaseUrl
    let parts := fromTokens spacePath "/".toList
    if parts.length ≥ 2 then
      .ok (stringAt parts 0, stringAt parts 1, Status.HUGGINGFACE)
    else
      .error ("Detected huggingface.co URL but could not parse user and model. Too few parts in ".toList
        ++ spaceAddress)
  else if contains spaceAddress "hf.space".toList then
    let withoutProtocol := fromFirstOccurrenceOf spaceAddress "://".toList
    let subdomain := upToFirstOccurrenceOf withoutProtocol ".hf.space".toList
    match indexOfChar subdomain '-' with
    | some firstHyphenIndex =>
      .ok (substring subdomain 0 firstHyphenIndex,
           substringFrom subdomain (firstHyphenIndex + 1), Status.GRADIO)
    | none =>
      .error ("Detected hf.space URL but could not parse user and model. No hyphen found in the subdomain: ".toList
        ++ subdomain)
  else if contains spaceAddress "/".toList && !contains spaceAddress "http".toList then
    let parts := fromTokens spaceAddress "/".toList
    if parts.length = 2 then
      .ok (stringAt parts 0, stringAt parts 1, Status.HUGGINGFACE)
    else
      .error ("Detected user/model URL but could not parse user and model. Too many/few slashes in ".toList
        ++ spaceAddress)
  else
    .error ("Invalid URL: ".toList ++ spaceAddress
      ++ ". URL does not match any of the expected patterns.".toList)

/-- The function `GradioClient::parseSpaceAddress (spaceAddress, spaceInfo)`:
the record after the call, from the record before it. -/
def parseSpaceAddress (spaceAddress : List Char) (spaceInfo : SpaceInfo) : SpaceInfo :=
  let spaceInfo := { spaceInfo with userInput := spaceAddress }
  if isLocalAddress spaceAddress then
    { spaceInfo with
      gradio := spaceAddress, huggingface := spaceAddress, status := Status.LOCALHOST }
  else
    match extractUserAndModel spaceAddress with
    | .error message => { spaceInfo with error := message, status := Status.ERROR }
    | .ok (user, model, status) =>
      let spaceInfo := { spaceInfo with status := status }
      if !user.isEmpty && !model.isEmpty then
        let model := replace model "-".toList "_".toList
        let spaceInfo :=
          { spaceInfo with
            huggingface := "https://huggingface.co/spaces/".toList ++ user ++ "/".toList ++ model }
        let model := replace model "_".toList "-".toList
        { spaceInfo with
          gradio := "https://".toList ++ user ++ "-".toList ++ model ++ ".hf.space".toList,
          userName := user, modelName := model }
      else
        { spaceInfo with
          error := "Unkown error while parsing the space address: ".toList ++ spaceAddress,
          status := Status.ERROR }

/-- The text after the first occurrence of the base URL (rule 2). -/
def spacePathOf (input : List Char) : List Char :=
  fromFirstOccurrenceOf input huggingFaceBaseUrl

/-- The subdomain that rule 3 takes from an `hf.space` address: the text after
the first `://`, up to the first `.hf.space`. -/
def subdomainOf (input : List Char) : List Char :=
  upToFirstOccurrenceOf (fromFirstOccurrenceOf input "://".toList) ".hf.space".toList

end GradioClient

namespace Spec

/-- The text `s` with every character `a` replaced by the character `b`. -/
def replaceChar (a b : Char) (s : List Char) : List Char :=
  s.map (fun c => if c = a then b else c)

/-- One or more decimal digits followed by the character `c`: what follows `c`. -/
def digitsThen (c : Char) : List Char → Option (List Char)
  | [] => none
  | d :: rest =>
    if d.isDigit then
      match rest with
      | [] => none
      | e :: rest2 => if e = c then some rest2 else digitsThen c (e :: rest2)
    else none

/-- The text starts with an IPv4 literal (four dot-separated decimal numbers)
followed by `:` and a port (at least one decimal digit). -/
def startsWithIPv4AndPort (s : List Char) : Bool :=
  match digitsThen '.' s with
  | none => false
  | some s1 =>
    match digitsThen '.' s1 with
    | none => false
    | some s2 =>
      match digitsThen '.' s2 with
      | none => false
      | some s3 =>
        match digitsThen ':' s3 with
        | none => false
        | some s4 =>
          match s4 with
          | [] => false
          | p :: _ => p.isDigit

/-- The text contains, at some position, an IPv4 literal followed by `:` and a
port; a scheme such as `http://` may precede it. -/
def containsIPv4AndPort : List Char → Bool
  | [] => false
  | c :: cs => startsWithIPv4AndPort (c :: cs) || containsIPv4AndPort cs

/-- The shorthand form `o/r` of the address of a space. -/
def shorthandForm (o r : List Char) : List Char :=
  o ++ "/".toList ++ r

/-- The form `https://huggingface.co/spaces/o/r` of the address of a space. -/
def huggingFaceForm (o r : List Char) : List Char :=
  "https://huggingface.co/spaces/".toList ++ o ++ "/".toList ++ r

/-- The form `https://o-r2.hf.space/` of the address of a space, where `r2` is
`r` with every `_` replaced by `-`. -/
def gradioForm (o r : List Char) : List Char :=
  "https://".toList ++ o ++ "-".toList ++ replaceChar '_' '-' r ++ ".hf.space/".toList

end Spec

namespace Juce

/-- The function `CharPointer_UTF8::isWhitespace`: a space, or one of the
characters 9 to 13 (tab, line feed, vertical tab, form feed, carriage return). -/
def isWhitespace (c : Char) : Bool :=
  c == ' ' || (decide (c.toNat ≤ 13) && decide (9 ≤ c.toNat))

/-- The function `CharPointer::findEndOfWhitespace`: the text from its first
character that is not whitespace. -/
def findEndOfWhitespace : List Char → List Char
  | [] => []
  | c :: cs => if isWhitespace c then findEndOfWhitespace cs else c :: cs

/-- The function `findTrimmedEnd (start, end)` of `juce_String.cpp`: the text
up to its last character that is not whitespace; the pointer walks back from
the end, which is a walk forward on the reversed text. -/
def findTrimmedEnd (text : List Char) : List Char :=
  (findEndOfWhitespace text.reverse).reverse

/-- The function `String::trim`: the text without its leading and trailing
whitespace. -/
def trim (text : List Char) : List Char :=
  if text.isEmpty then text else findTrimmedEnd (findEndOfWhitespace text)

/-- The values of a `juce::var` that `juce::JSON` produces and that the client
builds: void (JSON `null`), integer, boolean, double, string, a
`DynamicObject` with its named properties in order, and an array. The type
`D` stands for `double`. -/
inductive Var (D : Type) where
  | void
  | int (n : Int)
  | bool (b : Bool)
  | double (d : D)
  | string (s : List Char)
  | object (properties : List (List Char × Var D))
  | array (elements : List (Var D))

instance (priority := 2000) {D : Type} : Inhabited (Var D) := ⟨Var.void⟩

instance (priority := 2000) {D : Type} : Nonempty (Var D) := ⟨Var.void⟩

instance (priority := 2000) {D : Type} : Nonempty (List (Var D)) := ⟨[]⟩

instance (priority := 2000) {D : Type} : Nonempty (List (List Char × Var D)) := ⟨[]⟩

/-- What the code takes from the platform and from JUCE without the embedding
looking inside: the conversion of a text to a floating-point number
(`String::getFloatValue`, widened to `double`), the text of a `double`
(`String (double)`), the text of an object `var` (`Object 0x...`, made from
its address), and the two JSON readers `JSON::parse (text)` (void when the
text is not JSON) and `JSON::parse (text, result)` (an object or an array, or
a failure that leaves `result` as it was). -/
structure Platform (D : Type) where
  getFloatValue : List Char → D
  doubleToString : D → List Char
  objectToString : List (List Char × Var D) → List Char
  parseJson : List Char → Var D
  parseObjectOrArray : List Char → Option (Var D)

/-- The constructor `String (int)`: the decimal text of an integer. -/
def intToString (n : Int) : List Char :=
  (toString n).toList

/-- The function `var::isObject`: true for a `DynamicObject` and, as the
array type inherits the flag of the object type, also for an array. -/
def Var.isObject {D : Type} : Var D → Bool
  | .object _ => true
  | .array _ => true
  | _ => false

/-- The function `var::isArray`. -/
def Var.isArray {D : Type} : Var D → Bool
  | .array _ => true
  | _ => false

/-- The function `var::isVoid`. -/
def Var.isVoid {D : Type} : Var D → Bool
  | .void => true
  | _ => false

/-- The function `var::getDynamicObject`: the properties of a `DynamicObject`,
and `none` (the null pointer) for every other value, an array included. -/
def Var.getDynamicObject {D : Type} : Var D → Option (List (List Char × Var D))
  | .object properties => some properties
  | _ => none

/-- The function `var::getArray`: the elements of an array, and `none` (the
null pointer) for every other value. -/
def Var.getArray {D : Type} : Var D → Option (List (Var D))
  | .array elements => some elements
  | _ => none

/-- The function `var::toString`. -/
def Var.toString {D : Type} (P : Platform D) : Var D → List Char
  | .void => []
  | .int n => intToString n
  | .bool b => if b then ['1'] else ['0']
  | .double d => P.doubleToString d
  | .string s => s
  | .object properties => P.objectToString properties
  | .array _ => "[Array]".toList

/-- The function `NamedValueSet::operator[]` behind `DynamicObject::getProperty`:
the value of the first property of that name, and a void `var` when there is
none. -/
def getProperty {D : Type} : List (List Char × Var D) → List Char → Var D
  | [], _ => Var.void
  | (k, v) :: rest, name => if k = name then v else getProperty rest name

/-- The function `NamedValueSet::set` behind `DynamicObject::setProperty`:
the value of an existing property is replaced in place, a new property is
added at the end. -/
def setProperty {D : Type} : List (List Char × Var D) → List Char → Var D →
    List (List Char × Var D)
  | [], name, value => [(name, value)]
  | (k, v) :: rest, name, value =>
    if k = name then (k, value) :: rest else (k, v) :: setProperty rest name value

/-- The operator `var::operator[] (const char*)`: the property of a
`DynamicObject`, and a void `var` for every other value. -/
def Var.get {D : Type} (v : Var D) (name : List Char) : Var D :=
  match v.getDynamicObject with
  | some properties => getProperty properties name
  | none => Var.void

/-- The function `Array::getFirst`: the first element, and a default (void)
`var` for an empty array. -/
def getFirst {D : Type} : List (Var D) → Var D
  | [] => Var.void
  | v :: _ => v

end Juce

namespace GradioClient

open Juce

/-- The function `GradioClient::extractKeyFromResponse (response, responseKey,
key, error)`: the values of `responseKey` and `error` after the call. -/
def extractKeyFromResponse (response responseKey key error : List Char) :
    List Char × List Char :=
  match indexOf response key with
  | none => (responseKey, "Key ".toList ++ key ++ " not found in response".toList)
  | some dataIndex => (trim (substringFrom response (dataIndex + key.length)), error)

/-- The function `GradioClient::makePostRequestForEventID (endpoint, eventID,
error, jsonBody)`: the values of `eventID` and `error` after the call. The
argument `stream` is what the POST request gave: `none` when
`createInputStream` returned a null stream, otherwise the status code and the
body read from the stream. -/
def makePostRequestForEventID {D : Type} (P : Platform D) (endpoint eventID error : List Char)
    (stream : Option (Int × List Char)) : List Char × List Char :=
  match stream with
  | none => (eventID, "Failed to create input stream for POST request to ".toList ++ endpoint)
  | some (statusCode, response) =>
    if statusCode ≠ 200 then
      (eventID, "Request to ".toList ++ endpoint ++ " failed with status code: ".toList
        ++ intToString statusCode)
    else
      let parsedResponse := P.parseJson response
      if !parsedResponse.isObject then
        (eventID, "Failed to parse JSON response from ".toList ++ endpoint)
      else
        match parsedResponse.getDynamicObject with
        | none => (eventID, "Parsed JSON is not an object from ".toList ++ endpoint)
        | some obj =>
          let eventID := (getProperty obj "event_id".toList).toString P
          if eventID.isEmpty then
            (eventID, "event_id not found in the response from ".toList ++ endpoint)
          else
            (eventID, error)

/-- The function `GradioClient::getResponseFromEventID (callID, eventID,
response, error)`: the values of `response` and `error` after the call. The
argument `stream` is what the GET request gave: `none` for a null stream,
otherwise the body read from the stream. -/
def getResponseFromEventID (response error : List Char) (stream : Option (List Char)) :
    List Char × List Char :=
  match stream with
  | none => (response, "Failed to create input stream for GET request.".toList)
  | some body => (body, error)

/-- The three references that `GradioClient::getControls` writes through. -/
structure ControlsOut (D : Type) where
  ctrlList : List (Var D)
  cardDict : List (List Char × Var D)
  error : List Char

/-- The function `GradioClient::getControls (ctrlList, cardDict, error)`: the
three references after the call. The argument `post` is what the POST request
gave and `get eventID` what the GET request for that event id gave. -/
def getControls {D : Type} (P : Platform D) (out : ControlsOut D)
    (post : Option (Int × List Char)) (get : List Char → Option (List Char)) :
    ControlsOut D :=
  let callID := "controls".toList
  let r1 := makePostRequestForEventID P callID [] out.error post
  let eventID := r1.1
  let error := r1.2
  if !error.isEmpty then { out with error := error }
  else
    let r2 := getResponseFromEventID [] error (get eventID)
    let response := r2.1
    let error := r2.2
    if !error.isEmpty then { out with error := error }
    else
      let r3 := extractKeyFromResponse response [] "data: ".toList error
      let responseData := r3.1
      let error := r3.2
      if !error.isEmpty then { out with error := error }
      else
        let parsedData := (P.parseObjectOrArray responseData).getD Var.void
        if !parsedData.isObject then
          { out with
            error := "Failed to parse the data portion of the received controls JSON.".toList }
        else if !parsedData.isArray then
          { out with error := "Parsed JSON is not an array.".toList }
        else
          match parsedData.getArray with
          | none => { out with error := "Parsed JSON is not an array 2.".toList }
          | some dataArray =>
            match (getFirst dataArray).getDynamicObject with
            | none => { out with error := "First element in the array is not a dict.".toList }
            | some obj =>
              match (getProperty obj "card".toList).getDynamicObject with
              | none =>
                { out with
                  error := "Couldn't load the modelCard dict from the controls response.".toList }
              | some cardObj =>
                let cardDict := cardObj.foldl (fun d kv => setProperty d kv.1 kv.2) []
                match (getProperty obj "ctrls".toList).getArray with
                | none =>
                  { out with
                    cardDict := cardDict,
                    error := "Couldn't load the controls array/list from the controls response.".toList }
                | some ctrlArray =>
                  { ctrlList := ctrlArray, cardDict := cardDict, error := error }

end GradioClient

namespace WebModel

open Juce

/-- A `juce::Uuid`, as the number its 128 bits denote; the null `Uuid` is 0. -/
abbrev Uuid := Nat

/-- The value of `juce::Uuid id {""}`, the default member initialiser of
`Ctrl::id`: the null `Uuid`. -/
def nullUuid : Uuid := 0

/-- The struct `Ctrl` and the seven structs that derive from it, by dynamic
type: `base` is an object whose dynamic type is none of the seven (a plain
`Ctrl`, or another subclass). Every variant carries the `id` and `label` of
`Ctrl`; a `std::string` is the list of its characters. -/
inductive Ctrl (D : Type) where
  | base (id : Uuid) (label : List Char)
  | slider (id : Uuid) (label : List Char) (minimum maximum step value : D)
  | textBox (id : Uuid) (label : List Char) (value : List Char)
  | audioIn (id : Uuid) (label : List Char) (value : List Char)
  | midiIn (id : Uuid) (label : List Char) (value : List Char)
  | numberBox (id : Uuid) (label : List Char) (min max value : D)
  | toggle (id : Uuid) (label : List Char) (value : Bool)
  | comboBox (id : Uuid) (label : List Char) (options : List (List Char)) (value : List Char)
  deriving DecidableEq

/-- The member `Ctrl::id`. -/
def Ctrl.id {D : Type} : Ctrl D → Uuid
  | .base id _ => id
  | .slider id _ _ _ _ _ => id
  | .textBox id _ _ => id
  | .audioIn id _ _ => id
  | .midiIn id _ _ => id
  | .numberBox id _ _ _ _ => id
  | .toggle id _ _ => id
  | .comboBox id _ _ _ => id

/-- The member `Ctrl::label`. -/
def Ctrl.label {D : Type} : Ctrl D → List Char
  | .base _ label => label
  | .slider _ label _ _ _ _ => label
  | .textBox _ label _ => label
  | .audioIn _ label _ => label
  | .midiIn _ label _ => label
  | .numberBox _ label _ _ _ => label
  | .toggle _ label _ => label
  | .comboBox _ label _ _ => label

/-- The type `CtrlList`: a vector of pairs of an id and (a pointer to) a control. -/
abbrev CtrlList (D : Type) := List (Uuid × Ctrl D)

/-- The state of the control loop of `WebWave2Wave::load`: the exception
thrown, if any, the vector `m_ctrls`, and the number of random `Uuid`s drawn
so far. -/
structure LoadState (D : Type) where
  thrown : Option (List Char)
  m_ctrls : CtrlList D
  drawn : Nat

/-- The control loop of `WebWave2Wave::load` (the `for` over `ctrlList`), from
the records still to read. The `n`-th call of the constructor `juce::Uuid()`
gives `rand n`. -/
def loadCtrls {D : Type} (P : Platform D) (rand : Nat → Uuid) :
    List (Var D) → LoadState D → LoadState D
  | [], st => st
  | ctrl :: rest, st =>
    if !ctrl.isObject then
      { st with thrown := some "Failed to load controls from JSON. ctrl is not an object.".toList }
    else
      let ctrl_type := (ctrl.get "ctrl_type".toList).toString P
      if ctrl_type = "audio_in".toList then
        let audio_in : Ctrl D :=
          Ctrl.audioIn nullUuid ((ctrl.get "label".toList).toString P) []
        loadCtrls P rand rest { st with m_ctrls := st.m_ctrls ++ [(audio_in.id, audio_in)] }
      else if ctrl_type = "midi_in".toList then
        let midi_in : Ctrl D :=
          Ctrl.midiIn nullUuid ((ctrl.get "label".toList).toString P) []
        loadCtrls P rand rest { st with m_ctrls := st.m_ctrls ++ [(midi_in.id, midi_in)] }
      else if ctrl_type = "slider".toList then
        let slider : Ctrl D :=
          Ctrl.slider (rand st.drawn) ((ctrl.get "label".toList).toString P)
            (P.getFloatValue ((ctrl.get "minimum".toList).toString P))
            (P.getFloatValue ((ctrl.get "maximum".toList).toString P))
            (P.getFloatValue ((ctrl.get "step".toList).toString P))
            (P.getFloatValue ((ctrl.get "value".toList).toString P))
        loadCtrls P rand rest
          { st with m_ctrls := st.m_ctrls ++ [(slider.id, slider)], drawn := st.drawn + 1 }
      else if ctrl_type = "text".toList then
        let text : Ctrl D :=
          Ctrl.textBox (rand st.drawn) ((ctrl.get "label".toList).toString P)
            ((ctrl.get "value".toList).toString P)
        loadCtrls P rand rest
          { st with m_ctrls := st.m_ctrls ++ [(text.id, text)], drawn := st.drawn + 1 }
      else if ctrl_type = "number_box".toList then
        let number_box : Ctrl D :=
          Ctrl.numberBox nullUuid ((ctrl.get "label".toList).toString P)
            (P.getFloatValue ((ctrl.get "min".toList).toString P))
            (P.getFloatValue ((ctrl.get "max".toList).toString P))
            (P.getFloatValue ((ctrl.get "value".toList).toString P))
        loadCtrls P rand rest { st with m_ctrls := st.m_ctrls ++ [(number_box.id, number_box)] }
      else
        loadCtrls P rand rest st

/-- The control list that `WebWave2Wave::load` builds from the array `ctrls`:
`m_ctrls.clear()` and then the control loop. -/
def loadCtrlList {D : Type} (P : Platform D) (rand : Nat → Uuid) (ctrlList : List (Var D)) :
    LoadState D :=
  loadCtrls P rand ctrlList { thrown := none, m_ctrls := [], drawn := 0 }

/-- The function `WebWave2Wave::findCtrlByUuid`: `std::find_if` on the first
components, `none` being the end iterator. -/
def findCtrlByUuid {D : Type} (m_ctrls : CtrlList D) (uuid : Uuid) : Option (Uuid × Ctrl D) :=
  m_ctrls.find? (fun pair => pair.1 == uuid)

/-- The files of the machine: the text of the file at a path, `none` when
there is no file. -/
abbrev Files := List Char → Option (List Char)

/-- The function `File::deleteFile`. -/
def deleteFile (path : List Char) (files : Files) : Files :=
  fun p => if p = path then none else files p

/-- The function `File::create`: an empty file, unless the file exists. -/
def createFile (path : List Char) (files : Files) : Files :=
  fun p => if p = path then (match files p with | none => some [] | some t => some t) else files p

/-- The function `File::replaceWithText`, when the write succeeds. -/
def replaceWithText (path text : List Char) (files : Files) : Files :=
  fun p => if p = path then some text else files p

/-- The function `File::copyFileTo`: nothing is copied when the source is missing. -/
def copyFileTo (source target : List Char) (files : Files) : Files :=
  match files source with
  | none => files
  | some text => replaceWithText target text files

/-- The function `File::moveFileTo`: nothing is moved when the source is missing. -/
def moveFileTo (source target : List Char) (files : Files) : Files :=
  match files source with
  | none => files
  | some text => deleteFile source (replaceWithText target text files)

/-- The function `File::loadFileAsString`: empty for a missing file. -/
def loadFileAsString (path : List Char) (files : Files) : List Char :=
  (files path).getD []

/-- The function `File::getChildFile` on a directory path. -/
def getChildFile (directory name : List Char) : List Char :=
  directory ++ "/".toList ++ name

/-- What `WebWave2Wave` takes from the machine: the temporary directory, the
function `JSON::toString (value, true)`, whether `replaceWithText` on the
controls file succeeds, the text of the `juce::Uuid()` drawn by `process`, and
`std::system`, which runs the helper: its exit code and the files it leaves. -/
structure Machine (D : Type) where
  tempDirectory : List Char
  jsonToString : Var D → List Char
  writeSucceeds : Bool
  randomString : List Char
  system : List Char → Files → Int × Files

/-- The members of a `WebWave2Wave` that the embedded functions use. -/
structure WebWave2Wave (D : Type) where
  m_loaded : Bool
  m_ctrls : CtrlList D
  m_url : List Char
  prefix_cmd : List Char
  scriptPath : List Char

/-- The member `m_cancel_flag_file`: the file `webwave2wave_CANCEL` of the
temporary directory. -/
def m_cancel_flag_file {D : Type} (M : Machine D) : List Char :=
  getChildFile M.tempDirectory "webwave2wave_CANCEL".toList

/-- The member `m_status_flag_file`: the file `webwave2wave_STATUS` of the
temporary directory. -/
def m_status_flag_file {D : Type} (M : Machine D) : List Char :=
  getChildFile M.tempDirectory "webwave2wave_STATUS".toList

/-- The function `WebWave2Wave::cancel`: the session and the files after the
call. -/
def cancel {D : Type} (M : Machine D) (model : WebWave2Wave D) (files : Files) :
    WebWave2Wave D × Files :=
  let files := deleteFile (m_cancel_flag_file M) files
  let files := createFile (m_cancel_flag_file M) files
  (model, files)

/-- The function `WebWave2Wave::getStatus`. -/
def getStatus {D : Type} (M : Machine D) (files : Files) : List Char :=
  match files (m_status_flag_file M) with
  | none => "Status.INACTIVE".toList
  | some status => status

/-- What the loop of `WebWave2Wave::saveCtrls` leaves: whether it came to its
end, the controls, and the array `jsonCtrlsArray`. -/
structure SaveLoop (D : Type) where
  completed : Bool
  m_ctrls : CtrlList D
  jsonCtrlsArray : List (Var D)

/-- The loop of `WebWave2Wave::saveCtrls`: the chain of `dynamic_cast`s on one
control after the other. A control that is none of the seven variants stops
the loop (`return false`); the value of every audio and midi input met before
is set to `audioInputPath`. -/
def saveCtrlsLoop {D : Type} (audioInputPath : List Char) : CtrlList D → SaveLoop D
  | [] => { completed := true, m_ctrls := [], jsonCtrlsArray := [] }
  | (id, ctrl) :: rest =>
    match ctrl with
    | .slider _ _ _ _ _ value =>
      let r := saveCtrlsLoop audioInputPath rest
      { r with m_ctrls := (id, ctrl) :: r.m_ctrls,
               jsonCtrlsArray := Var.double value :: r.jsonCtrlsArray }
    | .textBox _ _ value =>
      let r := saveCtrlsLoop audioInputPath rest
      { r with m_ctrls := (id, ctrl) :: r.m_ctrls,
               jsonCtrlsArray := Var.string value :: r.jsonCtrlsArray }
    | .numberBox _ _ _ _ value =>
      let r := saveCtrlsLoop audioInputPath rest
      { r with m_ctrls := (id, ctrl) :: r.m_ctrls,
               jsonCtrlsArray := Var.double value :: r.jsonCtrlsArray }
    | .toggle _ _ value =>
      let r := saveCtrlsLoop audioInputPath rest
      { r with m_ctrls := (id, ctrl) :: r.m_ctrls,
               jsonCtrlsArray := Var.bool value :: r.jsonCtrlsArray }
    | .comboBox _ _ _ value =>
      let r := saveCtrlsLoop audioInputPath rest
      { r with m_ctrls := (id, ctrl) :: r.m_ctrls,
               jsonCtrlsArray := Var.string value :: r.jsonCtrlsArray }
    | .audioIn cid label _ =>
      let r := saveCtrlsLoop audioInputPath rest
      { r with m_ctrls := (id, Ctrl.audioIn cid label audioInputPath) :: r.m_ctrls,
               jsonCtrlsArray := Var.string audioInputPath :: r.jsonCtrlsArray }
    | .midiIn cid label _ =>
      let r := saveCtrlsLoop audioInputPath rest
      { r with m_ctrls := (id, Ctrl.midiIn cid label audioInputPath) :: r.m_ctrls,
               jsonCtrlsArray := Var.string audioInputPath :: r.jsonCtrlsArray }
    | .base _ _ =>
      { completed := false, m_ctrls := (id, ctrl) :: rest, jsonCtrlsArray := [] }

/-- What `WebWave2Wave::saveCtrls` leaves: its result, the controls, the
files, and the text handed to `replaceWithText`, if the function came to that
call. -/
structure SaveOut (D : Type) where
  result : Bool
  m_ctrls : CtrlList D
  files : Files
  written : Option (List Char)

/-- The function `WebWave2Wave::saveCtrls (savePath, audioInputPath)`. -/
def saveCtrls {D : Type} (M : Machine D) (m_ctrls : CtrlList D)
    (savePath audioInputPath : List Char) (files : Files) : SaveOut D :=
  let r := saveCtrlsLoop audioInputPath m_ctrls
  if !r.completed then
    { result := false, m_ctrls := r.m_ctrls, files := files, written := none }
  else
    let jsonText := M.jsonToString (Var.array r.jsonCtrlsArray)
    if !M.writeSucceeds then
      { result := false, m_ctrls := r.m_ctrls, files := files, written := none }
    else
      { result := true, m_ctrls := r.m_ctrls,
        files := replaceWithText savePath jsonText files, written := some jsonText }

/-- What `WebWave2Wave::process` leaves: the message of the exception thrown,
if any, the controls, the files, and the commands given to `std::system`, in
order. -/
structure ProcessOut (D : Type) where
  thrown : Option (List Char)
  m_ctrls : CtrlList D
  files : Files
  commands : List (List Char)

/-- The function `WebWave2Wave::process (filetoProcess)`; the log file
`HARP.log` is left out. -/
def process {D : Type} (M : Machine D) (model : WebWave2Wave D) (filetoProcess : List Char)
    (files : Files) : ProcessOut D :=
  let files := deleteFile (m_cancel_flag_file M) files
  if !model.m_loaded then
    { thrown := some "Model not loaded".toList, m_ctrls := model.m_ctrls, files := files,
      commands := [] }
  else
    let randomString := M.randomString
    let tempFile :=
      getChildFile M.tempDirectory ("input_".toList ++ randomString ++ ".mid".toList)
    let files := deleteFile tempFile files
    let files := copyFileTo filetoProcess tempFile files
    let tempOutputFile :=
      getChildFile M.tempDirectory ("output_".toList ++ randomString ++ ".mid".toList)
    let files := deleteFile tempOutputFile files
    let tempCtrlsFile :=
      getChildFile M.tempDirectory ("ctrls_".toList ++ randomString ++ ".json".toList)
    let files := deleteFile tempCtrlsFile files
    let saved := saveCtrls M model.m_ctrls tempCtrlsFile tempFile files
    if !saved.result then
      { thrown := some "Failed to save controls to file.".toList, m_ctrls := saved.m_ctrls,
        files := saved.files, commands := [] }
    else
      let files := saved.files
      let tempLogFile :=
        getChildFile M.tempDirectory ("system_log".toList ++ randomString ++ ".txt".toList)
      let files := deleteFile tempLogFile files
      let command :=
        model.prefix_cmd ++ model.scriptPath ++ " --mode predict".toList
          ++ " --url ".toList ++ model.m_url
          ++ " --output_path ".toList ++ tempOutputFile
          ++ " --ctrls_path ".toList ++ tempCtrlsFile
          ++ " --cancel_flag_path ".toList ++ m_cancel_flag_file M
          ++ " --status_flag_path ".toList ++ m_status_flag_file M
          ++ " >> ".toList ++ tempLogFile
          ++ " 2>&1".toList
      let ran := M.system command files
      let result := ran.1
      let files := ran.2
      let logContent := loadFileAsString tempLogFile files
      if result ≠ 0 then
        { thrown := some ("An error occurred while calling the gradiojuce helper with mode predict. Check the logs (~/Documents/HARP.log) for more details.\nLog content: ".toList
            ++ logContent),
          m_ctrls := saved.m_ctrls, files := files, commands := [command] }
      else
        let files := deleteFile tempLogFile files
        let files := moveFileTo tempOutputFile filetoProcess files
        let files := deleteFile tempFile files
        let files := deleteFile tempOutputFile files
        let files := deleteFile tempCtrlsFile files
        let files := deleteFile (m_cancel_flag_file M) files
        { thrown := none, m_ctrls := saved.m_ctrls, files := files, commands := [command] }

end WebModel

namespace Spec

open Juce WebModel

/-- The `ctrl_type` of a record, as the control loop reads it. -/
def ctrlTypeOf {D : Type} (P : Platform D) (record : Var D) : List Char :=
  (record.get "ctrl_type".toList).toString P

/-- The text of a field of a record, as the control loop reads it. -/
def fieldText {D : Type} (P : Platform D) (record : Var D) (field : String) : List Char :=
  (record.get field.toList).toString P

/-- The `ctrl_type` values that the control loop of `WebWave2Wave::load` has a
branch for. -/
def recognisedType (t : List Char) : Bool :=
  t = "audio_in".toList || t = "midi_in".toList || t = "slider".toList
    || t = "text".toList || t = "number_box".toList

/-- The control `ctrl` is of the variant that matches the `ctrl_type` of the
record and carries the label and the type-specific fields of the record: the
numbers are the fields converted to floating point, and the value of an audio
or midi input is empty. -/
def describes {D : Type} (P : Platform D) (record : Var D) (ctrl : Ctrl D) : Prop :=
  match ctrl with
  | .slider _ label minimum maximum step value =>
    ctrlTypeOf P record = "slider".toList ∧ label = fieldText P record "label"
      ∧ minimum = P.getFloatValue (fieldText P record "minimum")
      ∧ maximum = P.getFloatValue (fieldText P record "maximum")
      ∧ step = P.getFloatValue (fieldText P record "step")
      ∧ value = P.getFloatValue (fieldText P record "value")
  | .textBox _ label value =>
    ctrlTypeOf P record = "text".toList ∧ label = fieldText P record "label"
      ∧ value = fieldText P record "value"
  | .audioIn _ label value =>
    ctrlTypeOf P record = "audio_in".toList ∧ label = fieldText P record "label" ∧ value = []
  | .midiIn _ label value =>
    ctrlTypeOf P record = "midi_in".toList ∧ label = fieldText P record "label" ∧ value = []
  | .numberBox _ label min max value =>
    ctrlTypeOf P record = "number_box".toList ∧ label = fieldText P record "label"
      ∧ min = P.getFloatValue (fieldText P record "min")
      ∧ max = P.getFloatValue (fieldText P record "max")
      ∧ value = P.getFloatValue (fieldText P record "value")
  | .toggle _ _ _ => False
  | .comboBox _ _ _ _ => False
  | .base _ _ => False

/-- The control is of one of the seven known variants. -/
def isKnownVariant {D : Type} : Ctrl D → Bool
  | .base _ _ => false
  | _ => true

/-- The JSON value that stands for a control in the serialised array: the
current value of a slider, number box, text box, toggle or combo box, and
`inputFilePath` for an audio or midi input. -/
def serialisedValue {D : Type} (inputFilePath : List Char) : Ctrl D → Var D
  | .slider _ _ _ _ _ value => Var.double value
  | .numberBox _ _ _ _ value => Var.double value
  | .textBox _ _ value => Var.string value
  | .toggle _ _ value => Var.bool value
  | .comboBox _ _ _ value => Var.string value
  | .audioIn _ _ _ => Var.string inputFilePath
  | .midiIn _ _ _ => Var.string inputFilePath
  | .base _ _ => Var.void

/-- The value that `getControls` examines when the calls before succeed: the
event id of the POST response, the body of the GET response for it, the text
after `data: ` in that body, read as a JSON object or array (void when it is
neither). -/
def controlsPayload {D : Type} (P : Platform D) (post : Option (Int × List Char))
    (get : List Char → Option (List Char)) : Var D :=
  let eventID := (GradioClient.makePostRequestForEventID P "controls".toList [] [] post).1
  let response := (GradioClient.getResponseFromEventID [] [] (get eventID)).1
  let responseData :=
    (GradioClient.extractKeyFromResponse response [] "data: ".toList []).1
  (P.parseObjectOrArray responseData).getD Var.void

/-- An exact decimal number `mantissa / 10 ^ scale`, with a sign. -/
structure Decimal where
  negative : Bool
  mantissa : Nat
  scale : Nat
  deriving DecidableEq

/-- The digits of a decimal text: the number read so far, the number of
digits after the point, and whether the point was met. Reading stops at the
first character that is neither a digit nor the first point. -/
def readDigits : List Char → Nat → Nat → Bool → Nat × Nat
  | [], mantissa, scale, _ => (mantissa, scale)
  | c :: cs, mantissa, scale, afterPoint =>
    if c.isDigit then
      readDigits cs (mantissa * 10 + (c.toNat - '0'.toNat))
        (if afterPoint then scale + 1 else scale) afterPoint
    else if c = '.' && !afterPoint then readDigits cs mantissa scale true
    else (mantissa, scale)

/-- An exact reading of a decimal text such as `0.5` or `-12`; the empty text
reads as 0. -/
def readDecimal (text : List Char) : Decimal :=
  match text with
  | '-' :: rest =>
    let r := readDigits rest 0 0 false
    { negative := true, mantissa := r.1, scale := r.2 }
  | _ =>
    let r := readDigits text 0 0 false
    { negative := false, mantissa := r.1, scale := r.2 }

/-- The decimal text of an exact decimal number. -/
def showDecimal (d : Decimal) : List Char :=
  let digits := (toString d.mantissa).toList
  let padded := List.replicate (d.scale + 1 - digits.length) '0' ++ digits
  let whole := padded.take (padded.length - d.scale)
  let fraction := padded.drop (padded.length - d.scale)
  (if d.negative then ['-'] else []) ++ whole
    ++ (if d.scale = 0 then [] else '.' :: fraction)

/-- The body of a response to a POST request that carries an event id. -/
def exampleEventBody : List Char := "\x7b\"event_id\": \"abc123\"\x7d".toList

/-- A slider record with minimum 0, maximum 1, step 0.1 and value 0.5. -/
def exampleSliderRecord : Var Decimal :=
  Var.object [("ctrl_type".toList, Var.string "slider".toList),
    ("label".toList, Var.string "gain".toList),
    ("minimum".toList, Var.int 0), ("maximum".toList, Var.int 1),
    ("step".toList, Var.string "0.1".toList), ("value".toList, Var.string "0.5".toList)]

/-- A record of a type that the control loop does not know. -/
def exampleUnknownRecord : Var Decimal :=
  Var.object [("ctrl_type".toList, Var.string "dial".toList),
    ("label".toList, Var.string "depth".toList)]

/-- The data payload of a response to the `controls` call: an array whose
first element has a `card` and a `ctrls`. -/
def exampleControlsPayload : List Char :=
  "[\x7b\"card\": \x7b\"name\": \"demo\"\x7d, \"ctrls\": [\x7b\"ctrl_type\": \"slider\", \"label\": \"gain\", \"minimum\": 0, \"maximum\": 1, \"step\": \"0.1\", \"value\": \"0.5\"\x7d, \x7b\"ctrl_type\": \"dial\", \"label\": \"depth\"\x7d]\x7d]".toList

/-- A JSON reader that knows the two example texts and takes every other text
for malformed. -/
def exampleJson (text : List Char) : Var Decimal :=
  if text = exampleEventBody then
    Var.object [("event_id".toList, Var.string "abc123".toList)]
  else if text = exampleControlsPayload then
    Var.array [Var.object [("card".toList, Var.object [("name".toList, Var.string "demo".toList)]),
      ("ctrls".toList, Var.array [exampleSliderRecord, exampleUnknownRecord])]]
  else Var.void

/-- A platform on which the embedding runs on examples: a `double` is an exact
decimal number and the JSON readers know the two example texts. -/
def examplePlatform : Platform Decimal where
  getFloatValue := readDecimal
  doubleToString := showDecimal
  objectToString := fun _ => "Object 0x0".toList
  parseJson := exampleJson
  parseObjectOrArray := fun text =>
    match exampleJson text with
    | .object properties => some (.object properties)
    | .array elements => some (.array elements)
    | _ => none

/-- The GET request of the examples: the event id `abc123` gives an event
stream whose data line is the example payload, any other event id gives a
null stream. -/
def exampleGet (eventID : List Char) : Option (List Char) :=
  if eventID = "abc123".toList then
    some ("event: complete\ndata: ".toList ++ exampleControlsPayload ++ "\n".toList)
  else none

/-- The JSON text of a number, a string without special characters, or a boolean. -/
def showScalar : Var Decimal → List Char
  | .double d => showDecimal d
  | .int n => intToString n
  | .string s => '"' :: s ++ ['"']
  | .bool b => if b then "true".toList else "false".toList
  | _ => "null".toList

/-- A machine on which the embedding runs on examples: it writes an array of
scalars on one line, every write succeeds, and the helper does nothing and
exits with 0. -/
def exampleMachine : Machine Decimal where
  tempDirectory := "/tmp".toList
  jsonToString := fun value =>
    match value with
    | .array elements => '[' :: ", ".toList.intercalate (elements.map showScalar) ++ [']']
    | other => showScalar other
  writeSucceeds := true
  randomString := "0f1e".toList
  system := fun _ files => (0, files)

/-- An example session: loaded, with the given controls. -/
def exampleModel (m_ctrls : CtrlList Decimal) : WebWave2Wave Decimal where
  m_loaded := true
  m_ctrls := m_ctrls
  m_url := "owner/repo".toList
  prefix_cmd := []
  scriptPath := "/opt/gradiojuce_client".toList

/-- The machine with no file at all. -/
def noFiles : Files := fun _ => none

/-- The example slider record without its `step`. -/
def exampleSliderWithoutStep : Var Decimal :=
  Var.object [("ctrl_type".toList, Var.string "slider".toList),
    ("label".toList, Var.string "gain".toList),
    ("minimum".toList, Var.int 0), ("maximum".toList, Var.int 1),
    ("value".toList, Var.string "0.5".toList)]

/-- A toggle record. -/
def exampleToggleRecord {D : Type} : Var D :=
  Var.object [("ctrl_type".toList, Var.string "toggle".toList),
    ("label".toList, Var.string "bypass".toList), ("value".toList, Var.bool true)]

/-- A combo box record. -/
def exampleComboBoxRecord {D : Type} : Var D :=
  Var.object [("ctrl_type".toList, Var.string "combo_box".toList),
    ("label".toList, Var.string "mode".toList),
    ("options".toList, Var.array [Var.string "fast".toList, Var.string "slow".toList]),
    ("value".toList, Var.string "fast".toList)]

/-- A number box record with the given label and value, between 0 and 12. -/
def exampleNumberBoxRecord {D : Type} (label : String) (value : Int) : Var D :=
  Var.object [("ctrl_type".toList, Var.string "number_box".toList),
    ("label".toList, Var.string label.toList),
    ("min".toList, Var.int 0), ("max".toList, Var.int 12), ("value".toList, Var.int value)]

/-- The number that an exact decimal denotes, times `10 ^ scale`, as an integer. -/
def Decimal.signed (d : Decimal) : Int :=
  if d.negative then -(d.mantissa : Int) else (d.mantissa : Int)

/-- The order `a ≤ b` of exact decimal numbers, by cross multiplication. -/
def Decimal.le (a b : Decimal) : Bool :=
  decide (a.signed * 10 ^ b.scale ≤ b.signed * 10 ^ a.scale)

/-- The order `a < b` of exact decimal numbers, by cross multiplication. -/
def Decimal.lt (a b : Decimal) : Bool :=
  decide (a.signed * 10 ^ b.scale < b.signed * 10 ^ a.scale)

/-- The bound invariant of a control, for an order `le`, a strict order `lt`
and a zero on the numbers: a slider has `minimum ≤ value ≤ maximum` and
`0 < step`, a number box has `min ≤ value ≤ max`; the other variants have no
bounds. -/
def withinBounds {D : Type} (le lt : D → D → Prop) (zero : D) : Ctrl D → Prop
  | .slider _ _ minimum maximum step value => le minimum value ∧ le value maximum ∧ lt zero step
  | .numberBox _ _ min max value => le min value ∧ le value max
  | _ => True

/-- A slider record whose value 5 is above its maximum 1 and whose step is 0. -/
def exampleSliderOutOfRange : Var Decimal :=
  Var.object [("ctrl_type".toList, Var.string "slider".toList),
    ("label".toList, Var.string "gain".toList),
    ("minimum".toList, Var.int 0), ("maximum".toList, Var.int 1),
    ("step".toList, Var.int 0), ("value".toList, Var.int 5)]

/-- A data payload whose first element has a `card` and no `ctrls`. -/
def exampleCardOnlyPayload : List Char :=
  "[\x7b\"card\": \x7b\"name\": \"demo\"\x7d\x7d]".toList

/-- The example platform with a JSON reader that also knows the payload
without `ctrls`. -/
def exampleCardOnlyPlatform : Platform Decimal :=
  { examplePlatform with
    parseObjectOrArray := fun text =>
      if text = exampleCardOnlyPayload then
        some (Var.array [Var.object
          [("card".toList, Var.object [("name".toList, Var.string "demo".toList)])]])
      else examplePlatform.parseObjectOrArray text }

/-- The GET request that gives, for the event id `abc123`, an event stream
whose data line is the payload without `ctrls`. -/
def exampleCardOnlyGet (eventID : List Char) : Option (List Char) :=
  if eventID = "abc123".toList then
    some ("event: complete\ndata: ".toList ++ exampleCardOnlyPayload ++ "\n".toList)
  else none

end Spec

namespace GradioClient

/-- The function `GradioClient::setSpaceInfo (userProvidedSpaceAddress)`: the
member `spaceInfo`, the one data member of the class, after the call. -/
def setSpaceInfo (userProvidedSpaceAddress : List Char) (spaceInfo : SpaceInfo) : SpaceInfo :=
  parseSpaceAddress userProvidedSpaceAddress spaceInfo

/-- The function `GradioClient::getSpaceInfo`: a copy of the member `spaceInfo`. -/
def getSpaceInfo (spaceInfo : SpaceInfo) : SpaceInfo :=
  spaceInfo

end GradioClient

namespace Juce

/-- The function `DynamicObject::hasProperty`: whether the object has a
property of that name (a property read from JSON is never a method). -/
def hasProperty {D : Type} (properties : List (List Char × Var D)) (name : List Char) : Bool :=
  properties.any (fun kv => kv.1 = name)

end Juce

namespace WebModel

open Juce

/-- Modelled from the spec: the struct `ModelCard` of `Model.h`, which is not
among the sources, with the members that `load` assigns: the name, the
description, the author, the two midi hints and the list of tags. -/
structure ModelCard where
  name : List Char
  description : List Char
  author : List Char
  midi_in : List Char
  midi_out : List Char
  tags : List (List Char)
  deriving DecidableEq

/-- The function `WebWave2Wave::loadJsonFromFile`: a void `var` when there is
no file or when its text does not parse. -/
def loadJsonFromFile {D : Type} (P : Platform D) (file : List Char) (files : Files) : Var D :=
  match files file with
  | none => Var.void
  | some fileContent =>
    match P.parseObjectOrArray fileContent with
    | none => Var.void
    | some result => result

/-- What `WebWave2Wave::load` leaves: the message of the exception thrown, if
any, the session, the member `m_card`, the files, and the commands given to
`std::system`, in order. -/
structure LoadOut (D : Type) where
  thrown : Option (List Char)
  model : WebWave2Wave D
  m_card : ModelCard
  files : Files
  commands : List (List Char)

/-- The function `WebWave2Wave::load (params)`. The argument `url` is the
string that `params` has for the key `url`, `none` when it has none; the log
file `HARP.log` is left out, and the write of the status file is taken to
succeed. -/
def load {D : Type} (P : Platform D) (M : Machine D) (rand : Nat → Uuid)
    (model : WebWave2Wave D) (m_card : ModelCard) (url : Option (List Char)) (files : Files) :
    LoadOut D :=
  let model := { model with m_ctrls := [], m_loaded := false }
  match url with
  | none =>
    { thrown := some "url not found in params".toList, model := model, m_card := m_card,
      files := files, commands := [] }
  | some url =>
    let model := { model with m_url := url }
    let outputPath := getChildFile M.tempDirectory "control_spec.json".toList
    let files := deleteFile outputPath files
    let tempLogFile := getChildFile M.tempDirectory "system_get_ctrls_log.txt".toList
    let files := deleteFile tempLogFile files
    let command :=
      model.prefix_cmd ++ model.scriptPath ++ " --mode get_ctrls".toList
        ++ " --url ".toList ++ model.m_url
        ++ " --output_path ".toList ++ outputPath
        ++ " >> ".toList ++ tempLogFile
        ++ " 2>&1".toList
    let ran := M.system command files
    let result := ran.1
    let files := ran.2
    let logContent := loadFileAsString tempLogFile files
    let files := deleteFile tempLogFile files
    if result ≠ 0 then
      { thrown := some ("An error occurred while calling the gradiojuce helper with mode get_ctrls. Check the logs (~/Documents/HARP.log) for more details.\nLog content: ".toList
          ++ logContent),
        model := model, m_card := m_card, files := files, commands := [command] }
    else
      let controls := loadJsonFromFile P outputPath files
      if controls.isVoid then
        { thrown := some "Failed to load controls from JSON. juce::var was void.".toList,
          model := model, m_card := m_card, files := files, commands := [command] }
      else
        match controls.getDynamicObject with
        | none =>
          { thrown := some "Failed to load control dict from JSON. ctrlDict is null.".toList,
            model := model, m_card := m_card, files := files, commands := [command] }
        | some ctrlDict =>
          if !hasProperty ctrlDict "card".toList then
            { thrown := some "Failed to load model card from JSON. card key not found.".toList,
              model := model, m_card := m_card, files := files, commands := [command] }
          else
            match (getProperty ctrlDict "card".toList).getDynamicObject with
            | none =>
              { thrown := some "Failed to load model card from JSON.".toList,
                model := model, m_card := m_card, files := files, commands := [command] }
            | some jsonCard =>
              let m_card : ModelCard :=
                { name := (getProperty jsonCard "name".toList).toString P,
                  description := (getProperty jsonCard "description".toList).toString P,
                  author := (getProperty jsonCard "author".toList).toString P,
                  midi_in := (getProperty jsonCard "midi_in".toList).toString P,
                  midi_out := (getProperty jsonCard "midi_out".toList).toString P,
                  tags := [] }
              match (getProperty jsonCard "tags".toList).getArray with
              | none =>
                { thrown := some "Failed to load tags from JSON. tags is null.".toList,
                  model := model, m_card := m_card, files := files, commands := [command] }
              | some tags =>
                let m_card := { m_card with tags := tags.map (fun tag => tag.toString P) }
                if !hasProperty ctrlDict "ctrls".toList then
                  { thrown := some "Failed to load controls from JSON. ctrls key not found.".toList,
                    model := model, m_card := m_card, files := files, commands := [command] }
                else
                  match (getProperty ctrlDict "ctrls".toList).getArray with
                  | none =>
                    { thrown := some "Failed to load controls from JSON. ctrlList is null.".toList,
                      model := model, m_card := m_card, files := files, commands := [command] }
                  | some ctrlList =>
                    let st := loadCtrlList P rand ctrlList
                    match st.thrown with
                    | some message =>
                      { thrown := some message, model := { model with m_ctrls := st.m_ctrls },
                        m_card := m_card, files := files, commands := [command] }
                    | none =>
                      let files := deleteFile outputPath files
                      let model := { model with m_ctrls := st.m_ctrls, m_loaded := true }
                      let files :=
                        replaceWithText (m_status_flag_file M) "Status.LOADED".toList files
                      { thrown := none, model := model, m_card := m_card, files := files,
                        commands := [command] }

/-- The constructor `WebWave2Wave ()`: the files after it. The status file
gets the text `Status.INITIALIZED`; the write is taken to succeed. The log
file `HARP.log` is left out, and the members `scriptPath` and `prefix_cmd`
that the constructor sets are the fields of the same names. -/
def construct {D : Type} (M : Machine D) (files : Files) : Files :=
  replaceWithText (m_status_flag_file M) "Status.INITIALIZED".toList files

/-- The destructor `~WebWave2Wave ()`: the files after it. -/
def destruct {D : Type} (M : Machine D) (files : Files) : Files :=
  let files := deleteFile (m_cancel_flag_file M) files
  deleteFile (m_status_flag_file M) files

/-- The function `WebWave2Wave::getCancelFlagFile`. -/
def getCancelFlagFile {D : Type} (M : Machine D) (_model : WebWave2Wave D) : List Char :=
  m_cancel_flag_file M

/-- The local `tempFile` of `process`. -/
def tempFile {D : Type} (M : Machine D) : List Char :=
  getChildFile M.tempDirectory ("input_".toList ++ M.randomString ++ ".mid".toList)

/-- The local `tempOutputFile` of `process`. -/
def tempOutputFile {D : Type} (M : Machine D) : List Char :=
  getChildFile M.tempDirectory ("output_".toList ++ M.randomString ++ ".mid".toList)

/-- The local `tempCtrlsFile` of `process`. -/
def tempCtrlsFile {D : Type} (M : Machine D) : List Char :=
  getChildFile M.tempDirectory ("ctrls_".toList ++ M.randomString ++ ".json".toList)

/-- The local `tempLogFile` of `process`. -/
def tempLogFile {D : Type} (M : Machine D) : List Char :=
  getChildFile M.tempDirectory ("system_log".toList ++ M.randomString ++ ".txt".toList)

/-- The local `command` of `process`: the text given to `std::system`. -/
def processCommand {D : Type} (M : Machine D) (model : WebWave2Wave D) : List Char :=
  model.prefix_cmd ++ model.scriptPath ++ " --mode predict".toList
    ++ " --url ".toList ++ model.m_url
    ++ " --output_path ".toList ++ tempOutputFile M
    ++ " --ctrls_path ".toList ++ tempCtrlsFile M
    ++ " --cancel_flag_path ".toList ++ m_cancel_flag_file M
    ++ " --status_flag_path ".toList ++ m_status_flag_file M
    ++ " >> ".toList ++ tempLogFile M
    ++ " 2>&1".toList

/-- The files at the moment `process` calls `std::system`, on a loaded session
whose controls are saved: the statements of `process` from the first one, which
deletes the cancel flag, to the deletion of the log file. -/
def filesAtLaunch {D : Type} (M : Machine D) (model : WebWave2Wave D)
    (filetoProcess : List Char) (files : Files) : Files :=
  let files := deleteFile (m_cancel_flag_file M) files
  let files := deleteFile (tempFile M) files
  let files := copyFileTo filetoProcess (tempFile M) files
  let files := deleteFile (tempOutputFile M) files
  let files := deleteFile (tempCtrlsFile M) files
  let saved := saveCtrls M model.m_ctrls (tempCtrlsFile M) (tempFile M) files
  deleteFile (tempLogFile M) saved.files

/-- The files after the statements of `process` that follow a helper run with
result 0: the log file is deleted, the output file is moved to
`filetoProcess`, and the temporary files and the cancel flag are deleted. -/
def filesAfterRun {D : Type} (M : Machine D) (filetoProcess : List Char) (files : Files) :
    Files :=
  let files := deleteFile (tempLogFile M) files
  let files := moveFileTo (tempOutputFile M) filetoProcess files
  let files := deleteFile (tempFile M) files
  let files := deleteFile (tempOutputFile M) files
  let files := deleteFile (tempCtrlsFile M) files
  deleteFile (m_cancel_flag_file M) files

/-- Modelled from the spec: the helper `gradiojuce_client` in mode `predict`,
which is not among the sources, from its start to the moment it waits in the
poll for the result: the job is running, so it writes the status
`Status.RUNNING`. -/
def helperBeforePoll {D : Type} (M : Machine D) (files : Files) : Files :=
  replaceWithText (m_status_flag_file M) "Status.RUNNING".toList files

/-- Modelled from the spec: the helper `gradiojuce_client` in mode `predict`,
which is not among the sources, from the moment its poll returns with
`result`. It observes the cancel flag: when the flag file is there it discards
the result and writes the status `Status.CANCELLED`; otherwise it writes the
result to the output path and the status `Status.DONE`. A cancellation is not
an error: the exit code is 0 in both cases. -/
def helperAfterPoll {D : Type} (M : Machine D) (result : List Char) (files : Files) :
    Int × Files :=
  match files (m_cancel_flag_file M) with
  | some _ => (0, replaceWithText (m_status_flag_file M) "Status.CANCELLED".toList files)
  | none =>
    (0, replaceWithText (m_status_flag_file M) "Status.DONE".toList
      (replaceWithText (tempOutputFile M) result files))

/-- The machine `M` with the modelled helper for `std::system`. While the
helper waits in its poll, `cancel` is called on the session from another
thread when `cancelled` is true, and nothing happens otherwise. -/
def withHelper {D : Type} (M : Machine D) (model : WebWave2Wave D) (cancelled : Bool)
    (result : List Char) : Machine D :=
  { M with
    system := fun _ files =>
      let files := helperBeforePoll M files
      let files := if cancelled then (cancel M model files).2 else files
      helperAfterPoll M result files }

/-- The class `ModelStatusTimer`: the member `m_last_status`, and the number
of calls of `sendChangeMessage` made so far. -/
structure ModelStatusTimer where
  m_last_status : List Char
  sent : Nat
  deriving DecidableEq

/-- A `ModelStatusTimer` after its constructor: `m_last_status` is the empty
`std::string`, and no message was sent. -/
def newModelStatusTimer : ModelStatusTimer :=
  { m_last_status := [], sent := 0 }

/-- The function `ModelStatusTimer::timerCallback`: the timer and the files
after the call. -/
def timerCallback {D : Type} (M : Machine D) (timer : ModelStatusTimer) (files : Files) :
    ModelStatusTimer × Files :=
  let status := getStatus M files
  if status ≠ timer.m_last_status then
    ({ m_last_status := status, sent := timer.sent + 1 }, files)
  else
    (timer, files)

/-- One call of `timerCallback` at each of the given states of the files, in
order. -/
def timerCallbacks {D : Type} (M : Machine D) (timer : ModelStatusTimer) :
    List Files → ModelStatusTimer
  | [] => timer
  | files :: later => timerCallbacks M (timerCallback M timer files).1 later

end WebModel

namespace Spec

open Juce WebModel

/-- The example machine on which no write of a controls file succeeds. -/
def exampleReadOnlyMachine : Machine Decimal :=
  { exampleMachine with writeSucceeds := false }

/-- The example machine whose helper ends with result 1 and leaves the status
`Status.ERROR` and a line in the log file. -/
def exampleFailingMachine : Machine Decimal :=
  { exampleMachine with
    system := fun _ files =>
      (1, replaceWithText (m_status_flag_file exampleMachine) "Status.ERROR".toList
        (replaceWithText (tempLogFile exampleMachine) "no route to host".toList files)) }

/-- The files of a machine on which a session was loaded: the status file
holds `Status.LOADED`. -/
def loadedFiles : Files :=
  replaceWithText (m_status_flag_file exampleMachine) "Status.LOADED".toList noFiles

/-- A loaded example session with one slider. -/
def exampleSession : WebWave2Wave Decimal :=
  exampleModel [(1, Ctrl.slider 1 "gain".toList ⟨false, 0, 0⟩ ⟨false, 1, 0⟩ ⟨false, 1, 1⟩
    ⟨false, 5, 1⟩)]

/-- The cancel signal of a session: whether its cancel flag file is there. -/
def cancelSignal {D : Type} (M : Machine D) (session : WebWave2Wave D) (files : Files) : Bool :=
  (files (getCancelFlagFile M session)).isSome

/-- The number of statuses of a sequence that differ from the status before
them, the first being compared with `last`. -/
def changes (last : List Char) : List (List Char) → Nat
  | [] => 0
  | status :: later => (if status ≠ last then 1 else 0) + changes status later

end Spec

open Juce GradioClient WebModel

/-! ## Replacement of one character -/

theorem Juce.startsWith_singleton (t : Char) (ts : List Char) (a : Char) :
    startsWith (t :: ts) [a] = (t == a) := by
  simp [startsWith]

theorem Juce.replaceGo_singleton (a b : Char) (s : List Char) :
    replaceGo [a] [b] 0 s = Spec.replaceChar a b s := by
  induction s with
  | nil => simp [replaceGo, Spec.replaceChar]
  | cons t ts ih =>
    simp only [replaceGo, Juce.startsWith_singleton, List.length_singleton, Nat.sub_self, ih,
      Spec.replaceChar, List.map_cons]
    by_cases h : t = a <;> simp [h]

theorem Juce.replace_singleton (a b : Char) (s : List Char) :
    replace s [a] [b] = Spec.replaceChar a b s := by
  simp [replace, Juce.replaceGo_singleton]

theorem Spec.replaceChar_replaceChar_swap (a b : Char) (s : List Char) :
    Spec.replaceChar b a (Spec.replaceChar a b s) = Spec.replaceChar b a s := by
  simp only [Spec.replaceChar, List.map_map]
  apply List.map_congr_left
  intro c _
  by_cases h : c = a <;> by_cases h2 : c = b <;> simp [h, h2]

/-! ## The outcome of `parseSpaceAddress` by cases -/

theorem GradioClient.parse_local (input : List Char) (info : SpaceInfo)
    (h : isLocalAddress input = true) :
    parseSpaceAddress input info =
      { info with userInput := input, gradio := input, huggingface := input,
                  status := Status.LOCALHOST } := by
  simp [parseSpaceAddress, h]

theorem GradioClient.parse_error (input : List Char) (info : SpaceInfo) (message : List Char)
    (h : isLocalAddress input = false) (he : extractUserAndModel input = .error message) :
    parseSpaceAddress input info =
      { info with userInput := input, error := message, status := Status.ERROR } := by
  simp [parseSpaceAddress, h, he]

theorem GradioClient.parse_ok (input : List Char) (info : SpaceInfo) (o r : List Char)
    (st : Status) (h : isLocalAddress input = false)
    (he : extractUserAndModel input = .ok (o, r, st)) (ho : o ≠ []) (hr : r ≠ []) :
    parseSpaceAddress input info =
      { info with
        userInput := input, status := st,
        huggingface := "https://huggingface.co/spaces/".toList ++ o ++ "/".toList
          ++ Spec.replaceChar '-' '_' r,
        gradio := "https://".toList ++ o ++ "-".toList ++ Spec.replaceChar '_' '-' r
          ++ ".hf.space".toList,
        userName := o, modelName := Spec.replaceChar '_' '-' r } := by
  have e1 : "-".toList = ['-'] := rfl
  have e2 : "_".toList = ['_'] := rfl
  simp [parseSpaceAddress, h, he, ho, hr, e1, e2, Juce.replace_singleton,
    Spec.replaceChar_replaceChar_swap]

theorem GradioClient.parse_empty (input : List Char) (info : SpaceInfo) (o r : List Char)
    (st : Status) (h : isLocalAddress input = false)
    (he : extractUserAndModel input = .ok (o, r, st)) (hor : o = [] ∨ r = []) :
    parseSpaceAddress input info =
      { info with
        userInput := input,
        error := "Unkown error while parsing the space address: ".toList ++ input,
        status := Status.ERROR } := by
  rcases hor with h1 | h1 <;> simp [parseSpaceAddress, h, he, h1]

theorem GradioClient.extract_rule2 (input : List Char)
    (h2 : contains input huggingFaceBaseUrl = true) :
    extractUserAndModel input =
      if (fromTokens (spacePathOf input) "/".toList).length ≥ 2 then
        .ok (stringAt (fromTokens (spacePathOf input) "/".toList) 0,
             stringAt (fromTokens (spacePathOf input) "/".toList) 1, Status.HUGGINGFACE)
      else
        .error ("Detected huggingface.co URL but could not parse user and model. Too few parts in ".toList
          ++ input) := by
  unfold extractUserAndModel
  rw [if_pos h2]
  rfl

theorem GradioClient.extract_rule3 (input : List Char)
    (h2 : contains input huggingFaceBaseUrl = false)
    (h3 : contains input "hf.space".toList = true) :
    extractUserAndModel input =
      match indexOfChar (subdomainOf input) '-' with
      | some firstHyphenIndex =>
        .ok (substring (subdomainOf input) 0 firstHyphenIndex,
             substringFrom (subdomainOf input) (firstHyphenIndex + 1), Status.GRADIO)
      | none =>
        .error ("Detected hf.space URL but could not parse user and model. No hyphen found in the subdomain: ".toList
          ++ subdomainOf input) := by
  unfold extractUserAndModel
  rw [if_neg (by rw [h2]; decide), if_pos h3]
  rfl

theorem GradioClient.extract_rule4 (input : List Char)
    (h2 : contains input huggingFaceBaseUrl = false)
    (h3 : contains input "hf.space".toList = false)
    (h4 : contains input "/".toList = true) (h4b : contains input "http".toList = false) :
    extractUserAndModel input =
      if (fromTokens input "/".toList).length = 2 then
        .ok (stringAt (fromTokens input "/".toList) 0,
             stringAt (fromTokens input "/".toList) 1, Status.HUGGINGFACE)
      else
        .error ("Detected user/model URL but could not parse user and model. Too many/few slashes in ".toList
          ++ input) := by
  unfold extractUserAndModel
  rw [if_neg (by rw [h2]; decide), if_neg (by rw [h3]; decide), if_pos (by rw [h4, h4b]; decide)]

theorem GradioClient.extract_rule5 (input : List Char)
    (h2 : contains input huggingFaceBaseUrl = false)
    (h3 : contains input "hf.space".toList = false)
    (h4 : contains input "/".toList = false ∨ contains input "http".toList = true) :
    extractUserAndModel input =
      .error ("Invalid URL: ".toList ++ input
        ++ ". URL does not match any of the expected patterns.".toList) := by
  unfold extractUserAndModel
  rw [if_neg (by rw [h2]; decide), if_neg (by rw [h3]; decide), if_neg]
  rcases h4 with h | h <;> rw [h] <;> simp

theorem GradioClient.extract_status (input : List Char) (o r : List Char) (st : Status)
    (he : extractUserAndModel input = .ok (o, r, st)) :
    st = Status.HUGGINGFACE ∨ st = Status.GRADIO := by
  cases h2 : contains input huggingFaceBaseUrl with
  | true =>
    rw [GradioClient.extract_rule2 input h2] at he
    split_ifs at he
    simp only [Except.ok.injEq, Prod.mk.injEq] at he
    exact Or.inl he.2.2.symm
  | false =>
    cases h3 : contains input "hf.space".toList with
    | true =>
      rw [GradioClient.extract_rule3 input h2 h3] at he
      split at he
      · simp only [Except.ok.injEq, Prod.mk.injEq] at he
        exact Or.inr he.2.2.symm
      · cases he
    | false =>
      cases h4 : contains input "/".toList with
      | false => rw [GradioClient.extract_rule5 input h2 h3 (Or.inl h4)] at he; cases he
      | true =>
        cases h4b : contains input "http".toList with
        | true => rw [GradioClient.extract_rule5 input h2 h3 (Or.inr h4b)] at he; cases he
        | false =>
          rw [GradioClient.extract_rule4 input h2 h3 h4 h4b] at he
          split_ifs at he
          simp only [Except.ok.injEq, Prod.mk.injEq] at he
          exact Or.inl he.2.2.symm

/-- The status after `parseSpaceAddress` is `HUGGINGFACE` or `GRADIO` exactly
when rule 1 did not apply and rules 2 to 4 gave a non-empty user and model. -/
theorem GradioClient.parse_accepted (input : List Char) (info : SpaceInfo)
    (h : (parseSpaceAddress input info).status = Status.HUGGINGFACE
      ∨ (parseSpaceAddress input info).status = Status.GRADIO) :
    isLocalAddress input = false ∧
      ∃ o r st, extractUserAndModel input = .ok (o, r, st) ∧ o ≠ [] ∧ r ≠ [] := by
  cases hl : isLocalAddress input with
  | true => rw [GradioClient.parse_local input info hl] at h; simp at h
  | false =>
    refine ⟨rfl, ?_⟩
    cases he : extractUserAndModel input with
    | error m => rw [GradioClient.parse_error input info m hl he] at h; simp at h
    | ok v =>
      obtain ⟨o, r, st⟩ := v
      by_cases ho : o = []
      · rw [GradioClient.parse_empty input info o r st hl he (Or.inl ho)] at h; simp at h
      · by_cases hr : r = []
        · rw [GradioClient.parse_empty input info o r st hl he (Or.inr hr)] at h; simp at h
        · exact ⟨o, r, st, rfl, ho, hr⟩

/-! ## Positions of a character -/

theorem Juce.indexOfCharFrom_append (c : Char) (before after : List Char) (n : Nat)
    (h : c ∉ before) :
    indexOfCharFrom c (before ++ c :: after) n = some (n + before.length) := by
  induction before generalizing n with
  | nil => simp [indexOfCharFrom]
  | cons b bs ih =>
    have hb : b ≠ c := fun e => h (e ▸ List.mem_cons_self _ _)
    have hbs : c ∉ bs := fun m => h (List.mem_cons_of_mem _ m)
    rw [List.cons_append, indexOfCharFrom, if_neg hb, ih (n + 1) hbs, List.length_cons]
    congr 1
    omega

theorem Juce.indexOfChar_append (c : Char) (before after : List Char) (h : c ∉ before) :
    indexOfChar (before ++ c :: after) c = some before.length := by
  simp [indexOfChar, Juce.indexOfCharFrom_append c before after 0 h]

theorem Juce.indexOfCharFrom_none (c : Char) (text : List Char) (n : Nat) (h : c ∉ text) :
    indexOfCharFrom c text n = none := by
  induction text generalizing n with
  | nil => rfl
  | cons b bs ih =>
    have hb : b ≠ c := fun e => h (e ▸ List.mem_cons_self _ _)
    have hbs : c ∉ bs := fun m => h (List.mem_cons_of_mem _ m)
    simp only [indexOfCharFrom, if_neg hb, ih (n + 1) hbs]

theorem Juce.indexOfChar_none (c : Char) (text : List Char) (h : c ∉ text) :
    indexOfChar text c = none :=
  Juce.indexOfCharFrom_none c text 0 h

theorem Juce.substring_zero_append (before after : List Char) :
    substring (before ++ after) 0 before.length = before := by
  simp [substring]

theorem Juce.substringFrom_append (before after : List Char) (c : Char) :
    substringFrom (before ++ c :: after) (before.length + 1) = after := by
  simp [substringFrom]

/-! ## Canonical and display URL of an accepted address -/

/-- C1: for every input that `parseSpaceAddress` accepts (final status
`HUGGINGFACE` or `GRADIO`) with parsed owner `o` and repo `r`, the huggingface
URL is `https://huggingface.co/spaces/` + `o` + `/` + `r` with every `-`
replaced by `_`, and the gradio URL is `https://` + `o` + `-` + `r` with every
`_` replaced by `-` + `.hf.space`: the two successive `replace` calls on the
same variable equal the two direct substitutions on `r`. -/
theorem C1_urls_from_owner_and_repo (input : List Char) (info : SpaceInfo)
    (o r : List Char) (st : Status)
    (hacc : (parseSpaceAddress input info).status = Status.HUGGINGFACE
      ∨ (parseSpaceAddress input info).status = Status.GRADIO)
    (hparsed : extractUserAndModel input = .ok (o, r, st)) :
    (parseSpaceAddress input info).huggingface
        = "https://huggingface.co/spaces/".toList ++ o ++ "/".toList ++ Spec.replaceChar '-' '_' r
      ∧ (parseSpaceAddress input info).gradio
        = "https://".toList ++ o ++ "-".toList ++ Spec.replaceChar '_' '-' r
            ++ ".hf.space".toList := by
  obtain ⟨hl, o', r', st', he, ho, hr⟩ := GradioClient.parse_accepted input info hacc
  rw [hparsed] at he
  simp only [Except.ok.injEq, Prod.mk.injEq] at he
  obtain ⟨rfl, rfl, rfl⟩ := he
  rw [GradioClient.parse_ok input info o r st hl hparsed ho hr]
  exact ⟨rfl, rfl⟩

/-- C1 at the address `https://huggingface.co/spaces/owner/my-re_po`. -/
theorem C1_urls_from_owner_and_repo_witness :
    (parseSpaceAddress "https://huggingface.co/spaces/owner/my-re_po".toList
          emptySpaceInfo).huggingface
        = "https://huggingface.co/spaces/".toList ++ "owner".toList ++ "/".toList
            ++ Spec.replaceChar '-' '_' "my-re_po".toList
      ∧ (parseSpaceAddress "https://huggingface.co/spaces/owner/my-re_po".toList
          emptySpaceInfo).gradio
        = "https://".toList ++ "owner".toList ++ "-".toList
            ++ Spec.replaceChar '_' '-' "my-re_po".toList ++ ".hf.space".toList :=
  C1_urls_from_owner_and_repo "https://huggingface.co/spaces/owner/my-re_po".toList
    emptySpaceInfo "owner".toList "my-re_po".toList Status.HUGGINGFACE
    (by decide) rfl

/-- C10: on the shorthand `xribene/midi_pitch_shifter` the record gets the
user input, the user name and the huggingface URL of the header comment, but
the model name `midi-pitch-shifter`, not `midi_pitch_shifter`. -/
theorem C10_shorthand_example_model_name :
    (parseSpaceAddress "xribene/midi_pitch_shifter".toList emptySpaceInfo).userInput
        = "xribene/midi_pitch_shifter".toList
      ∧ (parseSpaceAddress "xribene/midi_pitch_shifter".toList emptySpaceInfo).userName
        = "xribene".toList
      ∧ (parseSpaceAddress "xribene/midi_pitch_shifter".toList emptySpaceInfo).huggingface
        = "https://huggingface.co/spaces/xribene/midi_pitch_shifter".toList
      ∧ (parseSpaceAddress "xribene/midi_pitch_shifter".toList emptySpaceInfo).modelName
        = "midi-pitch-shifter".toList
      ∧ (parseSpaceAddress "xribene/midi_pitch_shifter".toList emptySpaceInfo).modelName
        ≠ "midi_pitch_shifter".toList := by
  decide

/-! ## Rules 2 to 5 -/

/-- C6: for an input not caught by rule 1 that contains
`https://huggingface.co/spaces/`, with the text after the first occurrence of
that base URL split on `/`: when there are two or more segments and the first
two are non-empty, the parse succeeds with status `HUGGINGFACE`, the owner is
the first segment, and the repo and both URLs are derived from the second
segment only; when there are fewer than two segments, the parse fails with
status `ERROR` and the malformed-huggingface message, and writes no URL. -/
theorem C6_huggingface_url_rule (input : List Char) (info : SpaceInfo)
    (h1 : isLocalAddress input = false)
    (h2 : contains input huggingFaceBaseUrl = true) :
    (2 ≤ (fromTokens (spacePathOf input) "/".toList).length →
      stringAt (fromTokens (spacePathOf input) "/".toList) 0 ≠ [] →
      stringAt (fromTokens (spacePathOf input) "/".toList) 1 ≠ [] →
        (parseSpaceAddress input info).status = Status.HUGGINGFACE
        ∧ (parseSpaceAddress input info).userName
            = stringAt (fromTokens (spacePathOf input) "/".toList) 0
        ∧ (parseSpaceAddress input info).modelName
            = Spec.replaceChar '_' '-' (stringAt (fromTokens (spacePathOf input) "/".toList) 1)
        ∧ (parseSpaceAddress input info).huggingface
            = "https://huggingface.co/spaces/".toList
                ++ stringAt (fromTokens (spacePathOf input) "/".toList) 0 ++ "/".toList
                ++ Spec.replaceChar '-' '_'
                    (stringAt (fromTokens (spacePathOf input) "/".toList) 1)
        ∧ (parseSpaceAddress input info).gradio
            = "https://".toList
                ++ stringAt (fromTokens (spacePathOf input) "/".toList) 0 ++ "-".toList
                ++ Spec.replaceChar '_' '-'
                    (stringAt (fromTokens (spacePathOf input) "/".toList) 1)
                ++ ".hf.space".toList)
    ∧ ((fromTokens (spacePathOf input) "/".toList).length < 2 →
        (parseSpaceAddress input info).status = Status.ERROR
        ∧ (parseSpaceAddress input info).error
            = "Detected huggingface.co URL but could not parse user and model. Too few parts in ".toList
                ++ input
        ∧ (parseSpaceAddress input info).gradio = info.gradio
        ∧ (parseSpaceAddress input info).huggingface = info.huggingface) := by
  have he := GradioClient.extract_rule2 input h2
  constructor
  · intro hlen h0 h1'
    rw [if_pos hlen] at he
    rw [GradioClient.parse_ok input info _ _ _ h1 he h0 h1']
    exact ⟨rfl, rfl, rfl, rfl, rfl⟩
  · intro hlen
    rw [if_neg (by omega)] at he
    rw [GradioClient.parse_error input info _ h1 he]
    exact ⟨rfl, rfl, rfl, rfl⟩

/-- C6 at `https://huggingface.co/spaces/owner/repo_x/tree/main`: owner
`owner`, repo from `repo_x`, the further segments ignored. -/
theorem C6_huggingface_url_rule_witness :
    (parseSpaceAddress "https://huggingface.co/spaces/owner/repo_x/tree/main".toList
        emptySpaceInfo).status = Status.HUGGINGFACE
    ∧ (parseSpaceAddress "https://huggingface.co/spaces/owner/repo_x/tree/main".toList
        emptySpaceInfo).userName = "owner".toList
    ∧ (parseSpaceAddress "https://huggingface.co/spaces/owner/repo_x/tree/main".toList
        emptySpaceInfo).huggingface = "https://huggingface.co/spaces/owner/repo_x".toList
    ∧ (parseSpaceAddress "https://huggingface.co/spaces/owner/repo_x/tree/main".toList
        emptySpaceInfo).gradio = "https://owner-repo-x.hf.space".toList :=
  have h := (C6_huggingface_url_rule
    "https://huggingface.co/spaces/owner/repo_x/tree/main".toList emptySpaceInfo
    (by decide) (by decide)).1 (by decide) (by decide) (by decide)
  ⟨h.1, h.2.1, h.2.2.2.1, h.2.2.2.2⟩

/-- C7, as the code has it: for an input not caught by rules 1 and 2 that
contains `hf.space`, with the subdomain being the text after the first `://`
up to the first `.hf.space`: when the subdomain is `before` + `-` + `after`
with no hyphen in `before` and both parts non-empty, the parse succeeds with
status `GRADIO`, the parsed owner is `before`, the parsed repo is `after`, and
both URLs are built from them (the stored model name is `after` when it has no
underscore); when the subdomain has no hyphen, the parse fails with status
`ERROR` and the malformed-gradio message. -/
theorem C7_hf_space_rule (input : List Char) (info : SpaceInfo)
    (h1 : isLocalAddress input = false)
    (h2 : contains input huggingFaceBaseUrl = false)
    (h3 : contains input "hf.space".toList = true) :
    (∀ before after : List Char,
      subdomainOf input = before ++ '-' :: after → '-' ∉ before →
      before ≠ [] → after ≠ [] →
        (parseSpaceAddress input info).status = Status.GRADIO
        ∧ extractUserAndModel input = .ok (before, after, Status.GRADIO)
        ∧ (parseSpaceAddress input info).userName = before
        ∧ ('_' ∉ after → (parseSpaceAddress input info).modelName = after)
        ∧ (parseSpaceAddress input info).huggingface
            = "https://huggingface.co/spaces/".toList ++ before ++ "/".toList
                ++ Spec.replaceChar '-' '_' after
        ∧ (parseSpaceAddress input info).gradio
            = "https://".toList ++ before ++ "-".toList ++ Spec.replaceChar '_' '-' after
                ++ ".hf.space".toList)
    ∧ ('-' ∉ subdomainOf input →
        (parseSpaceAddress input info).status = Status.ERROR
        ∧ (parseSpaceAddress input info).error
            = "Detected hf.space URL but could not parse user and model. No hyphen found in the subdomain: ".toList
                ++ subdomainOf input) := by
  have he := GradioClient.extract_rule3 input h2 h3
  constructor
  · intro before after hsub hnot hb ha
    rw [hsub, Juce.indexOfChar_append '-' before after hnot] at he
    simp only [Juce.substring_zero_append, Juce.substringFrom_append] at he
    rw [GradioClient.parse_ok input info _ _ _ h1 he hb ha]
    refine ⟨rfl, he, rfl, ?_, rfl, rfl⟩
    intro hu
    show Spec.replaceChar '_' '-' after = after
    unfold Spec.replaceChar
    conv_rhs => rw [← List.map_id after]
    apply List.map_congr_left
    intro c hc
    have : c ≠ '_' := fun e => hu (e ▸ hc)
    simp [this]
  · intro hnot
    rw [Juce.indexOfChar_none '-' _ hnot] at he
    rw [GradioClient.parse_error input info _ h1 he]
    exact ⟨rfl, rfl⟩

/-- C7 at `https://owner-repo.hf.space/`: status `GRADIO`, owner `owner`,
repo `repo`. -/
theorem C7_hf_space_rule_witness :
    (parseSpaceAddress "https://owner-repo.hf.space/".toList emptySpaceInfo).status
        = Status.GRADIO
    ∧ extractUserAndModel "https://owner-repo.hf.space/".toList
        = .ok ("owner".toList, "repo".toList, Status.GRADIO)
    ∧ (parseSpaceAddress "https://owner-repo.hf.space/".toList emptySpaceInfo).userName
        = "owner".toList
    ∧ (parseSpaceAddress "https://owner-repo.hf.space/".toList emptySpaceInfo).modelName
        = "repo".toList :=
  have h := (C7_hf_space_rule "https://owner-repo.hf.space/".toList emptySpaceInfo
    (by decide) (by decide) (by decide)).1 "owner".toList "repo".toList
    (by decide) (by decide) (by decide) (by decide)
  ⟨h.1, h.2.1, h.2.2.1, h.2.2.2.1 (by decide)⟩

/-- C7 as stated fails at the `https` address of the host `-repo.hf.space`: the
address is not caught by rules 1 and 2, contains `hf.space`, and its subdomain
`-repo` contains a hyphen, yet the final status is `ERROR` (the owner is
empty), not `GRADIO`. -/
theorem C7_counterexample_empty_owner :
    isLocalAddress "https://-repo.hf.space/".toList = false
    ∧ contains "https://-repo.hf.space/".toList huggingFaceBaseUrl = false
    ∧ contains "https://-repo.hf.space/".toList "hf.space".toList = true
    ∧ subdomainOf "https://-repo.hf.space/".toList = "-repo".toList
    ∧ (parseSpaceAddress "https://-repo.hf.space/".toList emptySpaceInfo).status
        = Status.ERROR
    ∧ (parseSpaceAddress "https://-repo.hf.space/".toList emptySpaceInfo).error
        = "Unkown error while parsing the space address: https://-repo.hf.space/".toList := by
  decide

/-- C8: for an input not caught by rules 1 to 3 that contains `/` and does not
contain `http`, with the input split on `/`: when there are exactly two
segments, both non-empty, the parse succeeds with status `HUGGINGFACE`, owner
the first segment and repo from the second; when the number of segments is not
two, the parse fails with status `ERROR` and the malformed-shorthand message,
and writes no URL. -/
theorem C8_shorthand_rule (input : List Char) (info : SpaceInfo)
    (h1 : isLocalAddress input = false)
    (h2 : contains input huggingFaceBaseUrl = false)
    (h3 : contains input "hf.space".toList = false)
    (h4 : contains input "/".toList = true)
    (h4b : contains input "http".toList = false) :
    ((fromTokens input "/".toList).length = 2 →
      stringAt (fromTokens input "/".toList) 0 ≠ [] →
      stringAt (fromTokens input "/".toList) 1 ≠ [] →
        (parseSpaceAddress input info).status = Status.HUGGINGFACE
        ∧ (parseSpaceAddress input info).userName = stringAt (fromTokens input "/".toList) 0
        ∧ (parseSpaceAddress input info).modelName
            = Spec.replaceChar '_' '-' (stringAt (fromTokens input "/".toList) 1)
        ∧ (parseSpaceAddress input info).huggingface
            = "https://huggingface.co/spaces/".toList
                ++ stringAt (fromTokens input "/".toList) 0 ++ "/".toList
                ++ Spec.replaceChar '-' '_' (stringAt (fromTokens input "/".toList) 1)
        ∧ (parseSpaceAddress input info).gradio
            = "https://".toList ++ stringAt (fromTokens input "/".toList) 0 ++ "-".toList
                ++ Spec.replaceChar '_' '-' (stringAt (fromTokens input "/".toList) 1)
                ++ ".hf.space".toList)
    ∧ ((fromTokens input "/".toList).length ≠ 2 →
        (parseSpaceAddress input info).status = Status.ERROR
        ∧ (parseSpaceAddress input info).error
            = "Detected user/model URL but could not parse user and model. Too many/few slashes in ".toList
                ++ input
        ∧ (parseSpaceAddress input info).gradio = info.gradio
        ∧ (parseSpaceAddress input info).huggingface = info.huggingface) := by
  have he := GradioClient.extract_rule4 input h2 h3 h4 h4b
  constructor
  · intro hlen h0 h1'
    rw [if_pos hlen] at he
    rw [GradioClient.parse_ok input info _ _ _ h1 he h0 h1']
    exact ⟨rfl, rfl, rfl, rfl, rfl⟩
  · intro hlen
    rw [if_neg hlen] at he
    rw [GradioClient.parse_error input info _ h1 he]
    exact ⟨rfl, rfl, rfl, rfl⟩

/-- C8 at `owner/repo` (accepted), and at `a/b/c` and `a//b` (three segments
each, rejected as malformed shorthand). -/
theorem C8_shorthand_rule_witness :
    ((parseSpaceAddress "owner/repo".toList emptySpaceInfo).status = Status.HUGGINGFACE
      ∧ (parseSpaceAddress "owner/repo".toList emptySpaceInfo).userName = "owner".toList
      ∧ (parseSpaceAddress "owner/repo".toList emptySpaceInfo).modelName = "repo".toList)
    ∧ ((parseSpaceAddress "a/b/c".toList emptySpaceInfo).status = Status.ERROR
      ∧ (parseSpaceAddress "a/b/c".toList emptySpaceInfo).error
        = "Detected user/model URL but could not parse user and model. Too many/few slashes in a/b/c".toList)
    ∧ ((parseSpaceAddress "a//b".toList emptySpaceInfo).status = Status.ERROR
      ∧ (parseSpaceAddress "a//b".toList emptySpaceInfo).error
        = "Detected user/model URL but could not parse user and model. Too many/few slashes in a//b".toList) :=
  have h := (C8_shorthand_rule "owner/repo".toList emptySpaceInfo
    (by decide) (by decide) (by decide) (by decide) (by decide)).1
    (by decide) (by decide) (by decide)
  have g := (C8_shorthand_rule "a/b/c".toList emptySpaceInfo
    (by decide) (by decide) (by decide) (by decide) (by decide)).2 (by decide)
  have k := (C8_shorthand_rule "a//b".toList emptySpaceInfo
    (by decide) (by decide) (by decide) (by decide) (by decide)).2 (by decide)
  ⟨⟨h.1, h.2.1, h.2.2.1⟩, ⟨g.1, g.2.1⟩, ⟨k.1, k.2.1⟩⟩

/-! ## The wildcard of rule 1 -/

theorem Juce.toLower_eq_of_not_lower (tc wc : Char)
    (hw : ¬ (97 ≤ wc.toNat ∧ wc.toNat ≤ 122)) (h : tc.toLower = wc) : tc = wc := by
  simp only [Char.toLower] at h
  split_ifs at h with hr
  · exfalso
    apply hw
    rw [← h]
    have hv : (tc.toNat + 32).isValidChar := by
      left; omega
    have e : (Char.ofNat (tc.toNat + 32)).toNat = tc.toNat + 32 := by
      rw [Char.ofNat, dif_pos hv]
      rfl
    rw [e]
    omega
  · exact h

/-- A pattern character that is neither `?` nor a letter matches only itself,
also when case is ignored. -/
theorem Juce.characterMatches_uncased (wc tc : Char) (hq : wc ≠ '?')
    (hl : wc.toLower = wc) (hw : ¬ (97 ≤ wc.toNat ∧ wc.toNat ≤ 122)) :
    characterMatches wc tc true = true ↔ tc = wc := by
  unfold characterMatches
  constructor
  · intro h
    simp only [Bool.or_eq_true, beq_iff_eq, Bool.and_eq_true, Bool.true_and] at h
    rcases h with (h | h) | h
    · exact h.symm
    · exact absurd h hq
    · rw [hl] at h
      exact Juce.toLower_eq_of_not_lower tc wc hw h.symm
  · rintro rfl
    simp

theorem Juce.matchesAnywhere_iff (m : List Char → Bool) (t : List Char) :
    matchesAnywhere m t = true ↔ ∃ pre suf, t = pre ++ suf ∧ suf ≠ [] ∧ m suf = true := by
  induction t with
  | nil =>
    simp only [matchesAnywhere, Bool.false_eq_true, false_iff]
    rintro ⟨pre, suf, h, hne, _⟩
    have := List.append_eq_nil.mp h.symm
    exact hne this.2
  | cons c cs ih =>
    simp only [matchesAnywhere, Bool.or_eq_true, ih]
    constructor
    · rintro (h | ⟨pre, suf, h, hne, hm⟩)
      · exact ⟨[], c :: cs, rfl, by simp, h⟩
      · exact ⟨c :: pre, suf, by simp [h], hne, hm⟩
    · rintro ⟨pre, suf, h, hne, hm⟩
      cases pre with
      | nil =>
        left
        simp only [List.nil_append] at h
        rw [h]; exact hm
      | cons p ps =>
        right
        simp only [List.cons_append, List.cons.injEq] at h
        exact ⟨ps, suf, h.2, hne, hm⟩

theorem Juce.wildcardMatches_star (rest t : List Char) (hrest : rest ≠ []) :
    wildcardMatches true ('*' :: rest) t = matchesAnywhere (wildcardMatches true rest) t := by
  cases rest with
  | nil => exact absurd rfl hrest
  | cons r rs => simp [wildcardMatches]

theorem Juce.wildcardMatches_char (wc : Char) (rest t : List Char) (hs : wc ≠ '*')
    (hq : wc ≠ '?') (hl : wc.toLower = wc) (hw : ¬ (97 ≤ wc.toNat ∧ wc.toNat ≤ 122)) :
    wildcardMatches true (wc :: rest) t = true
      ↔ ∃ post, t = wc :: post ∧ wildcardMatches true rest post = true := by
  cases t with
  | nil => simp [wildcardMatches, hs]
  | cons tc ts =>
    simp only [wildcardMatches, if_neg hs, Bool.and_eq_true,
      Juce.characterMatches_uncased wc tc hq hl hw, List.cons.injEq]
    constructor
    · rintro ⟨rfl, h⟩
      exact ⟨ts, ⟨rfl, rfl⟩, h⟩
    · rintro ⟨post, ⟨rfl, rfl⟩, h⟩
      exact ⟨rfl, h⟩

/-- The text matches `*` + `wc` + `rest` exactly when it is some text, the
character `wc`, and a text that matches `rest`. -/
theorem Juce.wildcardMatches_star_char (wc : Char) (rest t : List Char) (hs : wc ≠ '*')
    (hq : wc ≠ '?') (hl : wc.toLower = wc) (hw : ¬ (97 ≤ wc.toNat ∧ wc.toNat ≤ 122)) :
    wildcardMatches true ('*' :: wc :: rest) t = true
      ↔ ∃ pre post, t = pre ++ wc :: post ∧ wildcardMatches true rest post = true := by
  rw [Juce.wildcardMatches_star (wc :: rest) t (by simp), Juce.matchesAnywhere_iff]
  constructor
  · rintro ⟨pre, suf, rfl, _, hm⟩
    obtain ⟨post, rfl, hp⟩ := (Juce.wildcardMatches_char wc rest suf hs hq hl hw).mp hm
    exact ⟨pre, post, rfl, hp⟩
  · rintro ⟨pre, post, rfl, hp⟩
    exact ⟨pre, wc :: post, rfl, by simp,
      (Juce.wildcardMatches_char wc rest (wc :: post) hs hq hl hw).mpr ⟨post, rfl, hp⟩⟩

/-- The wildcard `*.*.*.*:*` of rule 1 matches exactly the texts that have
three `.` and, after them, a `:`. -/
theorem Juce.matchesWildcard_dots_colon (s : List Char) :
    matchesWildcard s "*.*.*.*:*".toList true = true
      ↔ ∃ a b c d e : List Char, s = a ++ '.' :: (b ++ '.' :: (c ++ '.' :: (d ++ ':' :: e))) := by
  have hp : "*.*.*.*:*".toList = ['*', '.', '*', '.', '*', '.', '*', ':', '*'] := rfl
  have hdot := fun rest t => Juce.wildcardMatches_star_char '.' rest t
    (by decide) (by decide) (by decide) (by decide)
  have hcol := fun rest t => Juce.wildcardMatches_star_char ':' rest t
    (by decide) (by decide) (by decide) (by decide)
  have hlast : ∀ t, wildcardMatches true ['*'] t = true := by
    intro t; simp [wildcardMatches]
  unfold matchesWildcard
  rw [hp, hdot]
  constructor
  · rintro ⟨a, t1, rfl, h1⟩
    obtain ⟨b, t2, rfl, h2⟩ := (hdot _ _).mp h1
    obtain ⟨c, t3, rfl, h3⟩ := (hdot _ _).mp h2
    obtain ⟨d, e, rfl, _⟩ := (hcol _ _).mp h3
    exact ⟨a, b, c, d, e, rfl⟩
  · rintro ⟨a, b, c, d, e, rfl⟩
    exact ⟨a, _, rfl, (hdot _ _).mpr ⟨b, _, rfl, (hdot _ _).mpr ⟨c, _, rfl,
      (hcol _ _).mpr ⟨d, e, rfl, hlast e⟩⟩⟩⟩

/-! ## Rule 1 -/

theorem Spec.digitsThen_eq_some (c : Char) (s r : List Char)
    (h : Spec.digitsThen c s = some r) : ∃ ds, s = ds ++ c :: r := by
  induction s with
  | nil => simp [Spec.digitsThen] at h
  | cons d rest ih =>
    cases rest with
    | nil =>
      simp only [Spec.digitsThen] at h
      split_ifs at h
    | cons e rest2 =>
      simp only [Spec.digitsThen] at h
      split_ifs at h with hd he
      · simp only [Option.some.injEq] at h
        exact ⟨[d], by simp [he, h]⟩
      · obtain ⟨ds, hds⟩ := ih h
        exact ⟨d :: ds, by simp [hds]⟩

theorem Spec.startsWithIPv4AndPort_dots_colon (s : List Char)
    (h : Spec.startsWithIPv4AndPort s = true) :
    ∃ a b c d e : List Char, s = a ++ '.' :: (b ++ '.' :: (c ++ '.' :: (d ++ ':' :: e))) := by
  unfold Spec.startsWithIPv4AndPort at h
  split at h
  · cases h
  · rename_i s1 h1
    split at h
    · cases h
    · rename_i s2 h2
      split at h
      · cases h
      · rename_i s3 h3
        split at h
        · cases h
        · rename_i s4 h4
          obtain ⟨a, rfl⟩ := Spec.digitsThen_eq_some _ _ _ h1
          obtain ⟨b, rfl⟩ := Spec.digitsThen_eq_some _ _ _ h2
          obtain ⟨c, rfl⟩ := Spec.digitsThen_eq_some _ _ _ h3
          obtain ⟨d, rfl⟩ := Spec.digitsThen_eq_some _ _ _ h4
          exact ⟨a, b, c, d, s4, rfl⟩

theorem Spec.containsIPv4AndPort_dots_colon (s : List Char)
    (h : Spec.containsIPv4AndPort s = true) :
    ∃ a b c d e : List Char, s = a ++ '.' :: (b ++ '.' :: (c ++ '.' :: (d ++ ':' :: e))) := by
  induction s with
  | nil => simp [Spec.containsIPv4AndPort] at h
  | cons x xs ih =>
    simp only [Spec.containsIPv4AndPort, Bool.or_eq_true] at h
    rcases h with h | h
    · exact Spec.startsWithIPv4AndPort_dots_colon _ h
    · obtain ⟨a, b, c, d, e, rfl⟩ := ih h
      exact ⟨x :: a, b, c, d, e, rfl⟩

/-- C4: an input that contains `localhost`, or contains `gradio.live`, or
contains an IPv4 literal followed by `:` and a port (a scheme may precede it),
gets status `LOCALHOST`, and its gradio and huggingface URLs are the input
unchanged, whatever else the input contains. -/
theorem C4_rule1_wins (input : List Char) (info : SpaceInfo)
    (h : contains input "localhost".toList = true
      ∨ contains input "gradio.live".toList = true
      ∨ Spec.containsIPv4AndPort input = true) :
    (parseSpaceAddress input info).status = Status.LOCALHOST
    ∧ (parseSpaceAddress input info).gradio = input
    ∧ (parseSpaceAddress input info).huggingface = input := by
  have hl : isLocalAddress input = true := by
    unfold isLocalAddress
    rcases h with h | h | h
    · rw [h]; rfl
    · rw [h]; simp
    · rw [(Juce.matchesWildcard_dots_colon input).mpr
        (Spec.containsIPv4AndPort_dots_colon input h)]
      simp
  rw [GradioClient.parse_local input info hl]
  exact ⟨rfl, rfl, rfl⟩

/-- C4 at `http://127.0.0.1:7860`. -/
theorem C4_rule1_wins_witness :
    (parseSpaceAddress "http://127.0.0.1:7860".toList emptySpaceInfo).status
        = Status.LOCALHOST
    ∧ (parseSpaceAddress "http://127.0.0.1:7860".toList emptySpaceInfo).gradio
        = "http://127.0.0.1:7860".toList
    ∧ (parseSpaceAddress "http://127.0.0.1:7860".toList emptySpaceInfo).huggingface
        = "http://127.0.0.1:7860".toList :=
  C4_rule1_wins "http://127.0.0.1:7860".toList emptySpaceInfo (Or.inr (Or.inr (by decide)))

/-- C5, as the code has it: the status is `LOCALHOST` only if the input
contains `localhost`, contains `gradio.live`, or has three `.` and, after
them, a `:` (the texts the wildcard `*.*.*.*:*` matches); for every input with
none of these features the resulting status is not `LOCALHOST`. -/
theorem C5_localhost_only_by_rule1 (input : List Char) (info : SpaceInfo)
    (h1 : contains input "localhost".toList = false)
    (h2 : contains input "gradio.live".toList = false)
    (h3 : ¬ ∃ a b c d e : List Char,
      input = a ++ '.' :: (b ++ '.' :: (c ++ '.' :: (d ++ ':' :: e)))) :
    (parseSpaceAddress input info).status ≠ Status.LOCALHOST := by
  have hw : matchesWildcard input "*.*.*.*:*".toList true = false := by
    cases hm : matchesWildcard input "*.*.*.*:*".toList true with
    | false => rfl
    | true => exact absurd ((Juce.matchesWildcard_dots_colon input).mp hm) h3
  have hl : isLocalAddress input = false := by
    unfold isLocalAddress
    rw [h1, h2, hw]; rfl
  intro hst
  cases he : extractUserAndModel input with
  | error m => rw [GradioClient.parse_error input info m hl he] at hst; cases hst
  | ok v =>
    obtain ⟨o, r, st⟩ := v
    by_cases hor : o = [] ∨ r = []
    · rw [GradioClient.parse_empty input info o r st hl he hor] at hst; cases hst
    · rw [not_or] at hor
      rw [GradioClient.parse_ok input info o r st hl he hor.1 hor.2] at hst
      rcases GradioClient.extract_status input o r st he with rfl | rfl <;> cases hst

/-- C5 at `http://192.168.1:80`, which has two `.` only. -/
theorem C5_localhost_only_by_rule1_witness :
    (parseSpaceAddress "http://192.168.1:80".toList emptySpaceInfo).status
      ≠ Status.LOCALHOST :=
  C5_localhost_only_by_rule1 "http://192.168.1:80".toList emptySpaceInfo
    (by decide) (by decide)
    (fun h => absurd ((Juce.matchesWildcard_dots_colon _).mpr h) (by decide))

/-- C5 as stated fails at `https://demo.my.server.org:7860`: the input has no
`localhost`, no `gradio.live` and no IPv4 literal, yet its status is
`LOCALHOST`. -/
theorem C5_counterexample_host_name_with_port :
    contains "https://demo.my.server.org:7860".toList "localhost".toList = false
    ∧ contains "https://demo.my.server.org:7860".toList "gradio.live".toList = false
    ∧ Spec.containsIPv4AndPort "https://demo.my.server.org:7860".toList = false
    ∧ (parseSpaceAddress "https://demo.my.server.org:7860".toList emptySpaceInfo).status
        = Status.LOCALHOST := by
  decide

/-- C9, refuted as stated: the host name with a port `demo.my.server.org:7860`
has no `localhost`, no `gradio.live`, no IPv4 literal with a port, no
`https://huggingface.co/spaces/`, no `hf.space` and no `/`, yet from the empty
record it ends with status `LOCALHOST`, no error, and both URLs set to the
input: the wildcard of rule 1 takes it. -/
theorem C9_counterexample_host_name_with_port :
    contains "demo.my.server.org:7860".toList "localhost".toList = false
    ∧ contains "demo.my.server.org:7860".toList "gradio.live".toList = false
    ∧ Spec.containsIPv4AndPort "demo.my.server.org:7860".toList = false
    ∧ contains "demo.my.server.org:7860".toList huggingFaceBaseUrl = false
    ∧ contains "demo.my.server.org:7860".toList "hf.space".toList = false
    ∧ contains "demo.my.server.org:7860".toList "/".toList = false
    ∧ (parseSpaceAddress "demo.my.server.org:7860".toList emptySpaceInfo).status
        = Status.LOCALHOST
    ∧ (parseSpaceAddress "demo.my.server.org:7860".toList emptySpaceInfo).status
        ≠ Status.ERROR
    ∧ (parseSpaceAddress "demo.my.server.org:7860".toList emptySpaceInfo).error = []
    ∧ (parseSpaceAddress "demo.my.server.org:7860".toList emptySpaceInfo).gradio
        = "demo.my.server.org:7860".toList
    ∧ (parseSpaceAddress "demo.my.server.org:7860".toList emptySpaceInfo).huggingface
        = "demo.my.server.org:7860".toList := by
  decide

/-- C9, amended: an input that matches none of rules 1 to 4 as the code tests
them (no `localhost`, no `gradio.live`, not three `.` with a `:` somewhere
after them, which are the texts the wildcard `*.*.*.*:*` matches, no
`https://huggingface.co/spaces/`, no `hf.space`, and no `/` or else `http`)
ends, from a record whose URLs are empty, with status `ERROR`, the
unrecognised-format message, and empty gradio and huggingface URLs. -/
theorem C9_unrecognised_input_fails (input : List Char) (info : SpaceInfo)
    (hempty : info.gradio = [] ∧ info.huggingface = [])
    (h1a : contains input "localhost".toList = false)
    (h1b : contains input "gradio.live".toList = false)
    (h1c : ¬ ∃ a b c d e : List Char,
      input = a ++ '.' :: (b ++ '.' :: (c ++ '.' :: (d ++ ':' :: e))))
    (h2 : contains input huggingFaceBaseUrl = false)
    (h3 : contains input "hf.space".toList = false)
    (h4 : contains input "/".toList = false ∨ contains input "http".toList = true) :
    (parseSpaceAddress input info).status = Status.ERROR
    ∧ (parseSpaceAddress input info).error
        = "Invalid URL: ".toList ++ input
            ++ ". URL does not match any of the expected patterns.".toList
    ∧ (parseSpaceAddress input info).gradio = []
    ∧ (parseSpaceAddress input info).huggingface = [] := by
  have hw : matchesWildcard input "*.*.*.*:*".toList true = false := by
    cases hm : matchesWildcard input "*.*.*.*:*".toList true with
    | false => rfl
    | true => exact absurd ((Juce.matchesWildcard_dots_colon input).mp hm) h1c
  have h1 : isLocalAddress input = false := by
    unfold isLocalAddress
    rw [h1a, h1b, hw]; rfl
  rw [GradioClient.parse_error input info _ h1 (GradioClient.extract_rule5 input h2 h3 h4)]
  exact ⟨rfl, rfl, hempty.1, hempty.2⟩

/-- C9 amended, at `not a valid address`. -/
theorem C9_unrecognised_input_fails_witness :
    (parseSpaceAddress "not a valid address".toList emptySpaceInfo).status = Status.ERROR
    ∧ (parseSpaceAddress "not a valid address".toList emptySpaceInfo).error
        = "Invalid URL: ".toList ++ "not a valid address".toList
            ++ ". URL does not match any of the expected patterns.".toList
    ∧ (parseSpaceAddress "not a valid address".toList emptySpaceInfo).gradio = []
    ∧ (parseSpaceAddress "not a valid address".toList emptySpaceInfo).huggingface = [] :=
  C9_unrecognised_input_fails "not a valid address".toList emptySpaceInfo
    ⟨rfl, rfl⟩ (by decide) (by decide)
    (fun h => absurd ((Juce.matchesWildcard_dots_colon _).mpr h) (by decide))
    (by decide) (by decide) (Or.inl (by decide))

/-! ## Substring search -/

theorem Juce.startsWith_iff (t p : List Char) : startsWith t p = true ↔ p <+: t := by
  induction p generalizing t with
  | nil => simp [startsWith]
  | cons x xs ih =>
    cases t with
    | nil => simp [startsWith]
    | cons c cs =>
      simp only [startsWith, Bool.and_eq_true, beq_iff_eq, ih, List.prefix_cons_iff]
      constructor
      · rintro ⟨rfl, h⟩
        exact Or.inr ⟨xs, rfl, h⟩
      · rintro (h | ⟨t, h, ht⟩)
        · cases h
        · simp only [List.cons.injEq] at h
          exact ⟨h.1.symm, h.2 ▸ ht⟩

theorem Juce.indexOfFrom_isSome (sub t : List Char) (n : Nat) :
    (indexOfFrom sub t n).isSome = true ↔ sub <:+: t := by
  induction t generalizing n with
  | nil =>
    simp only [indexOfFrom]
    split_ifs with h
    · simp only [Option.isSome_some, true_iff]
      exact ((Juce.startsWith_iff [] sub).mp h).isInfix
    · simp only [Option.isSome_none, Bool.false_eq_true, false_iff]
      intro hi
      apply h
      rw [Juce.startsWith_iff]
      have : sub = [] := List.eq_nil_of_infix_nil hi
      rw [this]
  | cons c cs ih =>
    simp only [indexOfFrom]
    split_ifs with h
    · simp only [Option.isSome_some, true_iff]
      exact ((Juce.startsWith_iff _ sub).mp h).isInfix
    · rw [ih, List.infix_cons_iff]
      constructor
      · exact Or.inr
      · rintro (hp | hi)
        · exact absurd ((Juce.startsWith_iff _ sub).mpr hp) h
        · exact hi

/-- The function `contains` decides whether `sub` occurs in `t` as a
contiguous piece. -/
theorem Juce.contains_iff (t sub : List Char) : contains t sub = true ↔ sub <:+: t := by
  unfold contains indexOf
  split_ifs with h
  · simp only [Option.isSome_some, true_iff]
    rw [List.isEmpty_iff] at h
    rw [h]; exact List.nil_infix
  · exact Juce.indexOfFrom_isSome sub t 0

theorem Juce.contains_eq_false_iff (t sub : List Char) :
    contains t sub = false ↔ ¬ sub <:+: t := by
  rw [← Juce.contains_iff]; simp

theorem Juce.indexOfFrom_append_first (h : Char) (tl pre post : List Char) (n : Nat)
    (hpre : h ∉ pre) :
    indexOfFrom (h :: tl) (pre ++ (h :: tl) ++ post) n = some (n + pre.length) := by
  induction pre generalizing n with
  | nil =>
    have hs : startsWith ((h :: tl) ++ post) (h :: tl) = true :=
      (Juce.startsWith_iff _ _).mpr (List.prefix_append _ _)
    simp only [List.nil_append, List.length_nil, Nat.add_zero]
    rw [List.cons_append] at hs ⊢
    rw [indexOfFrom, if_pos hs]
  | cons p ps ih =>
    have hp : p ≠ h := fun e => hpre (e ▸ List.mem_cons_self _ _)
    have hps : h ∉ ps := fun m => hpre (List.mem_cons_of_mem _ m)
    have hs : startsWith (p :: (ps ++ (h :: tl) ++ post)) (h :: tl) = false := by
      simp [startsWith, hp]
    rw [List.cons_append, List.cons_append, indexOfFrom, hs, if_neg (by decide),
      ih (n + 1) hps, List.length_cons]
    congr 1
    omega

/-- The first occurrence of `sub` in `pre` + `sub` + `post` is at the end of
`pre` when the first character of `sub` does not occur in `pre`. -/
theorem Juce.indexOf_append_first (h : Char) (tl pre post : List Char) (hpre : h ∉ pre) :
    indexOf (pre ++ (h :: tl) ++ post) (h :: tl) = some pre.length := by
  unfold indexOf
  rw [if_neg (by simp), Juce.indexOfFrom_append_first h tl pre post 0 hpre]
  simp

theorem Juce.prefix_of_prefix_append_cons (pat a b : List Char) (c : Char) (hc : c ∉ pat)
    (h : pat <+: a ++ c :: b) : pat <+: a := by
  obtain ⟨t, ht⟩ := h
  rcases List.append_eq_append_iff.mp ht with ⟨a', ha, _⟩ | ⟨c', hp, hcb⟩
  · exact ⟨a', ha.symm⟩
  · cases c' with
    | nil =>
      simp only [List.append_nil] at hp
      rw [hp]
    | cons x xs =>
      simp only [List.cons_append, List.cons.injEq] at hcb
      exfalso
      apply hc
      rw [hp, hcb.1]
      simp

/-- A text without the character `c` that occurs in `a` + `c` + `b` occurs in
`a` or in `b`. -/
theorem Juce.infix_append_cons_split (pat a b : List Char) (c : Char) (hc : c ∉ pat)
    (h : pat <:+: a ++ c :: b) : pat <:+: a ∨ pat <:+: b := by
  induction a with
  | nil =>
    simp only [List.nil_append] at h
    rcases List.infix_cons_iff.mp h with hp | hi
    · rcases List.prefix_cons_iff.mp hp with rfl | ⟨t, rfl, _⟩
      · exact Or.inl List.nil_infix
      · exact absurd (List.mem_cons_self _ _) hc
    · exact Or.inr hi
  | cons x xs ih =>
    rw [List.cons_append] at h
    rcases List.infix_cons_iff.mp h with hp | hi
    · left
      rw [← List.cons_append] at hp
      exact (Juce.prefix_of_prefix_append_cons pat (x :: xs) b c hc hp).isInfix
    · rcases ih hi with h1 | h1
      · exact Or.inl (List.infix_cons_iff.mpr (Or.inr h1))
      · exact Or.inr h1

/-- What follows an occurrence of `c` lies after the first occurrence of `c`. -/
theorem Juce.subset_after_first (a b u v : List Char) (c : Char) (hc : c ∉ a)
    (h : a ++ c :: b = u ++ c :: v) : v ⊆ b := by
  rcases List.append_eq_append_iff.mp h with ⟨a', _, hb⟩ | ⟨c', ha, hv⟩
  · cases a' with
    | nil =>
      simp only [List.nil_append, List.cons.injEq, true_and] at hb
      rw [hb]; exact List.Subset.refl _
    | cons x xs =>
      simp only [List.cons_append, List.cons.injEq] at hb
      rw [hb.2]
      intro y hy
      simp [hy]
  · cases c' with
    | nil =>
      simp only [List.nil_append, List.cons.injEq, true_and] at hv
      rw [hv]; exact List.Subset.refl _
    | cons x xs =>
      simp only [List.cons_append, List.cons.injEq] at hv
      exfalso
      apply hc
      rw [ha, ← hv.1]
      simp

/-! ## Tokens -/

theorem Juce.findEndOfToken_append (brk t : List Char) :
    (findEndOfToken brk t).1 ++ (findEndOfToken brk t).2 = t := by
  induction t with
  | nil => rfl
  | cons c cs ih =>
    simp only [findEndOfToken]
    split_ifs
    · rfl
    · simp [ih]

theorem Juce.findEndOfToken_no_break (c : Char) (a : List Char) (h : c ∉ a) :
    findEndOfToken [c] a = (a, []) := by
  induction a with
  | nil => rfl
  | cons x xs ih =>
    have hx : x ≠ c := fun e => h (e ▸ List.mem_cons_self _ _)
    have hxs : c ∉ xs := fun m => h (List.mem_cons_of_mem _ m)
    simp [findEndOfToken, hx, ih hxs]

theorem Juce.findEndOfToken_at_break (c : Char) (a b : List Char) (h : c ∉ a) :
    findEndOfToken [c] (a ++ c :: b) = (a, c :: b) := by
  induction a with
  | nil => simp [findEndOfToken]
  | cons x xs ih =>
    have hx : x ≠ c := fun e => h (e ▸ List.mem_cons_self _ _)
    have hxs : c ∉ xs := fun m => h (List.mem_cons_of_mem _ m)
    simp [findEndOfToken, hx, ih hxs]

/-- The tokens of `o` + `c` + `r`, split on `c`, are `o` and `r` when neither
contains `c`. -/
theorem Juce.fromTokens_pair (c : Char) (o r : List Char) (ho : c ∉ o) (hr : c ∉ r) :
    fromTokens (o ++ c :: r) [c] = [o, r] := by
  unfold fromTokens
  rw [if_neg (by simp)]
  have hlen : (o ++ c :: r).length + 1 = (o.length + r.length) + 1 + 1 := by
    simp only [List.length_append, List.length_cons]
    omega
  rw [hlen, addTokensLoop, Juce.findEndOfToken_at_break c o r ho]
  simp only
  rw [addTokensLoop, Juce.findEndOfToken_no_break c r hr]

theorem Juce.addTokensLoop_infix (brk : List Char) (fuel : Nat) (t p : List Char)
    (hp : p ∈ addTokensLoop brk fuel t) : p <:+: t := by
  induction fuel generalizing t with
  | zero => simp [addTokensLoop] at hp
  | succ n ih =>
    have happ := Juce.findEndOfToken_append brk t
    rw [addTokensLoop] at hp
    rcases hfe : findEndOfToken brk t with ⟨tok, rest⟩
    rw [hfe] at hp happ
    simp only at hp happ
    cases rest with
    | nil =>
      simp only [List.mem_singleton] at hp
      simp only [List.append_nil] at happ
      rw [hp, happ]
    | cons b rest =>
      simp only [List.mem_cons] at hp
      rcases hp with hp | hp
      · rw [hp, ← happ]
        exact (List.prefix_append _ _).isInfix
      · have h1 := ih rest hp
        have h2 : rest <:+: t := by
          rw [← happ]
          exact ⟨tok ++ [b], [], by simp⟩
        exact h1.trans h2

theorem Juce.stringAt_infix (parts : List (List Char)) (t : List Char) (i : Nat)
    (h : ∀ p ∈ parts, p <:+: t) : stringAt parts i <:+: t := by
  unfold stringAt
  by_cases hi : i < parts.length
  · rw [List.getD_eq_getElem _ _ hi]
    exact h _ (List.getElem_mem hi)
  · rw [List.getD_eq_default _ _ (by omega)]
    exact List.nil_infix

theorem Juce.stringAt_fromTokens_infix (text brk : List Char) (i : Nat) :
    stringAt (fromTokens text brk) i <:+: text := by
  apply Juce.stringAt_infix
  intro p hp
  unfold fromTokens at hp
  split_ifs at hp
  · simp at hp
  · exact Juce.addTokensLoop_infix brk _ text p hp

theorem Juce.fromFirstOccurrenceOf_infix (text sub : List Char) :
    fromFirstOccurrenceOf text sub <:+: text := by
  unfold fromFirstOccurrenceOf
  split
  · exact List.nil_infix
  · exact (List.drop_suffix _ _).isInfix

theorem Juce.upToFirstOccurrenceOf_infix (text sub : List Char) :
    upToFirstOccurrenceOf text sub <:+: text := by
  unfold upToFirstOccurrenceOf
  split
  · exact List.infix_refl _
  · unfold substring
    simp only [List.drop_zero]
    exact (List.take_prefix _ _).isInfix

theorem Juce.substring_infix (text : List Char) (i j : Nat) :
    substring text i j <:+: text := by
  unfold substring
  exact (List.drop_suffix _ _).isInfix.trans (List.take_prefix _ _).isInfix

/-- The parsed owner and repo are contiguous pieces of the input. -/
theorem GradioClient.extract_infix (input o r : List Char) (st : Status)
    (he : extractUserAndModel input = .ok (o, r, st)) : o <:+: input ∧ r <:+: input := by
  cases h2 : contains input huggingFaceBaseUrl with
  | true =>
    rw [GradioClient.extract_rule2 input h2] at he
    split_ifs at he
    simp only [Except.ok.injEq, Prod.mk.injEq] at he
    have hs : spacePathOf input <:+: input := Juce.fromFirstOccurrenceOf_infix _ _
    exact ⟨he.1 ▸ (Juce.stringAt_fromTokens_infix _ _ 0).trans hs,
      he.2.1 ▸ (Juce.stringAt_fromTokens_infix _ _ 1).trans hs⟩
  | false =>
    cases h3 : contains input "hf.space".toList with
    | true =>
      rw [GradioClient.extract_rule3 input h2 h3] at he
      have hs : subdomainOf input <:+: input :=
        (Juce.upToFirstOccurrenceOf_infix _ _).trans (Juce.fromFirstOccurrenceOf_infix _ _)
      split at he
      · simp only [Except.ok.injEq, Prod.mk.injEq] at he
        exact ⟨he.1 ▸ (Juce.substring_infix _ _ _).trans hs,
          he.2.1 ▸ (List.drop_suffix _ _).isInfix.trans hs⟩
      · cases he
    | false =>
      cases h4 : contains input "/".toList with
      | false => rw [GradioClient.extract_rule5 input h2 h3 (Or.inl h4)] at he; cases he
      | true =>
        cases h4b : contains input "http".toList with
        | true => rw [GradioClient.extract_rule5 input h2 h3 (Or.inr h4b)] at he; cases he
        | false =>
          rw [GradioClient.extract_rule4 input h2 h3 h4 h4b] at he
          split_ifs at he
          simp only [Except.ok.injEq, Prod.mk.injEq] at he
          exact ⟨he.1 ▸ Juce.stringAt_fromTokens_infix _ _ 0,
            he.2.1 ▸ Juce.stringAt_fromTokens_infix _ _ 1⟩

/-! ## The three address forms of one space -/

theorem GradioClient.extract_shorthand (o r : List Char)
    (ho : '/' ∉ o ∧ ':' ∉ o ∧ '.' ∉ o) (hr : '/' ∉ r ∧ ':' ∉ r ∧ '.' ∉ r)
    (hoh : contains o "http".toList = false) (hrh : contains r "http".toList = false) :
    extractUserAndModel (o ++ '/' :: r) = .ok (o, r, Status.HUGGINGFACE) := by
  have h2 : contains (o ++ '/' :: r) huggingFaceBaseUrl = false := by
    rw [Juce.contains_eq_false_iff]
    intro hi
    have hm : ':' ∈ o ++ '/' :: r := hi.mem (by decide)
    simp only [List.mem_append, List.mem_cons] at hm
    rcases hm with h | h | h
    · exact ho.2.1 h
    · exact absurd h (by decide)
    · exact hr.2.1 h
  have h3 : contains (o ++ '/' :: r) "hf.space".toList = false := by
    rw [Juce.contains_eq_false_iff]
    intro hi
    have hm : '.' ∈ o ++ '/' :: r := hi.mem (by decide)
    simp only [List.mem_append, List.mem_cons] at hm
    rcases hm with h | h | h
    · exact ho.2.2 h
    · exact absurd h (by decide)
    · exact hr.2.2 h
  have h4 : contains (o ++ '/' :: r) "/".toList = true := by
    rw [Juce.contains_iff]
    exact ⟨o, r, by simp⟩
  have h4b : contains (o ++ '/' :: r) "http".toList = false := by
    rw [Juce.contains_eq_false_iff]
    intro hi
    rcases Juce.infix_append_cons_split _ o r '/' (by decide) hi with h | h
    · exact absurd ((Juce.contains_iff _ _).mpr h) (by rw [hoh]; decide)
    · exact absurd ((Juce.contains_iff _ _).mpr h) (by rw [hrh]; decide)
  have ht : fromTokens (o ++ '/' :: r) "/".toList = [o, r] :=
    Juce.fromTokens_pair '/' o r ho.1 hr.1
  rw [GradioClient.extract_rule4 _ h2 h3 h4 h4b, ht]
  rfl

theorem GradioClient.spacePathOf_base_append (rest : List Char) :
    spacePathOf (huggingFaceBaseUrl ++ rest) = rest := by
  have hb : huggingFaceBaseUrl = 'h' :: "ttps://huggingface.co/spaces/".toList := rfl
  have hi := Juce.indexOf_append_first 'h' "ttps://huggingface.co/spaces/".toList [] rest
    (by simp)
  rw [← hb] at hi
  simp only [List.nil_append, List.length_nil] at hi
  unfold spacePathOf fromFirstOccurrenceOf
  rw [hi]
  simp [substringFrom]

theorem GradioClient.extract_huggingface_url (o r : List Char)
    (ho : '/' ∉ o) (hr : '/' ∉ r) :
    extractUserAndModel (huggingFaceBaseUrl ++ (o ++ '/' :: r))
      = .ok (o, r, Status.HUGGINGFACE) := by
  have h2 : contains (huggingFaceBaseUrl ++ (o ++ '/' :: r)) huggingFaceBaseUrl = true := by
    rw [Juce.contains_iff]
    exact (List.prefix_append _ _).isInfix
  have ht : fromTokens (o ++ '/' :: r) "/".toList = [o, r] :=
    Juce.fromTokens_pair '/' o r ho hr
  rw [GradioClient.extract_rule2 _ h2, GradioClient.spacePathOf_base_append, ht]
  rfl

theorem GradioClient.subdomainOf_hf_space (sub tail : List Char) (hsub : '.' ∉ sub) :
    subdomainOf ("https://".toList ++ sub ++ (".hf.space".toList ++ tail)) = sub := by
  have e1 : "https://".toList ++ sub ++ (".hf.space".toList ++ tail)
      = "https".toList ++ (':' :: "//".toList) ++ (sub ++ (".hf.space".toList ++ tail)) := by
    simp
  have i1 := Juce.indexOf_append_first ':' "//".toList "https".toList
    (sub ++ (".hf.space".toList ++ tail)) (by decide)
  have e2 : sub ++ (".hf.space".toList ++ tail)
      = sub ++ ('.' :: "hf.space".toList) ++ tail := by
    simp
  have i2 := Juce.indexOf_append_first '.' "hf.space".toList sub tail hsub
  have e3 : "://".toList = ':' :: "//".toList := rfl
  have e4 : ".hf.space".toList = '.' :: "hf.space".toList := rfl
  unfold subdomainOf
  have hfrom : fromFirstOccurrenceOf ("https://".toList ++ sub ++ (".hf.space".toList ++ tail))
      "://".toList = sub ++ (".hf.space".toList ++ tail) := by
    unfold fromFirstOccurrenceOf
    rw [e1, e3, i1]
    simp [substringFrom]
  rw [hfrom]
  unfold upToFirstOccurrenceOf
  rw [e2, e4, i2]
  simp [substring]

theorem GradioClient.not_contains_base_hf_space (sub tail : List Char) (hsub : '.' ∉ sub)
    (htail : 'o' ∉ tail) :
    contains ("https://".toList ++ sub ++ (".hf.space".toList ++ tail)) huggingFaceBaseUrl
      = false := by
  rw [Juce.contains_eq_false_iff]
  rintro ⟨s, t, hst⟩
  have hb : huggingFaceBaseUrl = "https://huggingface".toList ++ '.' :: "co/spaces/".toList := rfl
  have e1 : "https://".toList ++ sub ++ (".hf.space".toList ++ tail)
      = ("https://".toList ++ sub) ++ '.' :: ("hf.space".toList ++ tail) := by
    simp
  have e2 : s ++ huggingFaceBaseUrl ++ t
      = (s ++ "https://huggingface".toList) ++ '.' :: ("co/spaces/".toList ++ t) := by
    rw [hb]; simp
  rw [e1, e2] at hst
  have hdot : '.' ∉ "https://".toList ++ sub := by
    simp only [List.mem_append, not_or]
    exact ⟨by decide, hsub⟩
  have hss := Juce.subset_after_first _ _ _ _ '.' hdot hst.symm
  have hm : 'o' ∈ "hf.space".toList ++ tail := hss (by simp)
  simp only [List.mem_append] at hm
  rcases hm with h | h
  · exact absurd h (by decide)
  · exact htail h

theorem GradioClient.extract_hf_space_url (o m tail : List Char)
    (ho : '.' ∉ o ∧ '-' ∉ o) (hm : '.' ∉ m) (htail : 'o' ∉ tail) :
    extractUserAndModel ("https://".toList ++ (o ++ '-' :: m) ++ (".hf.space".toList ++ tail))
      = .ok (o, m, Status.GRADIO) := by
  have hsub : '.' ∉ o ++ '-' :: m := by
    simp only [List.mem_append, List.mem_cons, not_or]
    exact ⟨ho.1, by decide, hm⟩
  have h2 := GradioClient.not_contains_base_hf_space (o ++ '-' :: m) tail hsub htail
  have h3 : contains ("https://".toList ++ (o ++ '-' :: m) ++ (".hf.space".toList ++ tail))
      "hf.space".toList = true := by
    rw [Juce.contains_iff]
    exact ⟨"https://".toList ++ (o ++ '-' :: m) ++ ['.'], tail, by simp⟩
  rw [GradioClient.extract_rule3 _ h2 h3, GradioClient.subdomainOf_hf_space _ tail hsub,
    Juce.indexOfChar_append '-' o m ho.2]
  simp only [Juce.substring_zero_append, Juce.substringFrom_append]

theorem Spec.replaceChar_idem (a b : Char) (s : List Char) :
    Spec.replaceChar a b (Spec.replaceChar a b s) = Spec.replaceChar a b s := by
  simp only [Spec.replaceChar, List.map_map]
  apply List.map_congr_left
  intro c _
  by_cases h : c = a <;> by_cases h2 : b = a <;> simp [h, h2]

theorem Spec.not_mem_replaceChar (a b x : Char) (s : List Char) (hx : x ∉ s) (hb : x ≠ b) :
    x ∉ Spec.replaceChar a b s := by
  unfold Spec.replaceChar
  intro h
  obtain ⟨c, hc, hcx⟩ := List.mem_map.mp h
  by_cases hca : c = a
  · rw [if_pos hca] at hcx
    exact hb hcx.symm
  · rw [if_neg hca] at hcx
    exact hx (hcx ▸ hc)

theorem Spec.replaceChar_ne_nil (a b : Char) (s : List Char) (hs : s ≠ []) :
    Spec.replaceChar a b s ≠ [] := by
  unfold Spec.replaceChar
  simpa using hs

/-- C3: for an owner `o` and a repo `r` that are non-empty and contain no `/`,
`:` or `.`, with no `-` in `o` and no `http` in `o` or `r`, when none of the
three inputs triggers rule 1, the forms `o/r`,
`https://huggingface.co/spaces/o/r` and `https://o-r2.hf.space/` give the same
gradio URL, huggingface URL, user name and model name, with status
`HUGGINGFACE` for the first two and `GRADIO` for the third. -/
theorem C3_three_forms_same_endpoint (o r : List Char) (info1 info2 info3 : SpaceInfo)
    (ho : o ≠ []) (hr : r ≠ [])
    (hoc : '/' ∉ o ∧ ':' ∉ o ∧ '.' ∉ o) (hrc : '/' ∉ r ∧ ':' ∉ r ∧ '.' ∉ r)
    (hyphen : '-' ∉ o)
    (hoh : contains o "http".toList = false) (hrh : contains r "http".toList = false)
    (hl1 : isLocalAddress (Spec.shorthandForm o r) = false)
    (hl2 : isLocalAddress (Spec.huggingFaceForm o r) = false)
    (hl3 : isLocalAddress (Spec.gradioForm o r) = false) :
    (parseSpaceAddress (Spec.shorthandForm o r) info1).status = Status.HUGGINGFACE
    ∧ (parseSpaceAddress (Spec.huggingFaceForm o r) info2).status = Status.HUGGINGFACE
    ∧ (parseSpaceAddress (Spec.gradioForm o r) info3).status = Status.GRADIO
    ∧ (parseSpaceAddress (Spec.shorthandForm o r) info1).gradio
        = (parseSpaceAddress (Spec.gradioForm o r) info3).gradio
    ∧ (parseSpaceAddress (Spec.huggingFaceForm o r) info2).gradio
        = (parseSpaceAddress (Spec.gradioForm o r) info3).gradio
    ∧ (parseSpaceAddress (Spec.shorthandForm o r) info1).huggingface
        = (parseSpaceAddress (Spec.gradioForm o r) info3).huggingface
    ∧ (parseSpaceAddress (Spec.huggingFaceForm o r) info2).huggingface
        = (parseSpaceAddress (Spec.gradioForm o r) info3).huggingface
    ∧ (parseSpaceAddress (Spec.shorthandForm o r) info1).userName
        = (parseSpaceAddress (Spec.gradioForm o r) info3).userName
    ∧ (parseSpaceAddress (Spec.huggingFaceForm o r) info2).userName
        = (parseSpaceAddress (Spec.gradioForm o r) info3).userName
    ∧ (parseSpaceAddress (Spec.shorthandForm o r) info1).modelName
        = (parseSpaceAddress (Spec.gradioForm o r) info3).modelName
    ∧ (parseSpaceAddress (Spec.huggingFaceForm o r) info2).modelName
        = (parseSpaceAddress (Spec.gradioForm o r) info3).modelName := by
  have f1 : Spec.shorthandForm o r = o ++ '/' :: r := by
    simp [Spec.shorthandForm]
  have f2 : Spec.huggingFaceForm o r = huggingFaceBaseUrl ++ (o ++ '/' :: r) := by
    simp [Spec.huggingFaceForm, huggingFaceBaseUrl]
  have f3 : Spec.gradioForm o r
      = "https://".toList ++ (o ++ '-' :: Spec.replaceChar '_' '-' r)
          ++ (".hf.space".toList ++ ['/']) := by
    simp [Spec.gradioForm]
  have hr2 : '.' ∉ Spec.replaceChar '_' '-' r :=
    Spec.not_mem_replaceChar '_' '-' '.' r hrc.2.2 (by decide)
  have hne : Spec.replaceChar '_' '-' r ≠ [] := Spec.replaceChar_ne_nil _ _ r hr
  have e1 := GradioClient.extract_shorthand o r hoc hrc hoh hrh
  have e2 := GradioClient.extract_huggingface_url o r hoc.1 hrc.1
  have e3 := GradioClient.extract_hf_space_url o (Spec.replaceChar '_' '-' r) ['/']
    ⟨hoc.2.2, hyphen⟩ hr2 (by decide)
  rw [f1] at hl1
  rw [f2] at hl2
  rw [f3] at hl3
  rw [f1, f2, f3, GradioClient.parse_ok _ info1 o r _ hl1 e1 ho hr,
    GradioClient.parse_ok _ info2 o r _ hl2 e2 ho hr,
    GradioClient.parse_ok _ info3 o _ _ hl3 e3 ho hne]
  simp only [Spec.replaceChar_idem, Spec.replaceChar_replaceChar_swap, and_self]

/-- C3 at owner `xribene` and repo `midi_pitch_shifter`. -/
theorem C3_three_forms_same_endpoint_witness :
    (parseSpaceAddress "xribene/midi_pitch_shifter".toList emptySpaceInfo).status
        = Status.HUGGINGFACE
    ∧ (parseSpaceAddress "https://huggingface.co/spaces/xribene/midi_pitch_shifter".toList
        emptySpaceInfo).status = Status.HUGGINGFACE
    ∧ (parseSpaceAddress "https://xribene-midi-pitch-shifter.hf.space/".toList
        emptySpaceInfo).status = Status.GRADIO
    ∧ (parseSpaceAddress "xribene/midi_pitch_shifter".toList emptySpaceInfo).gradio
        = (parseSpaceAddress "https://xribene-midi-pitch-shifter.hf.space/".toList
            emptySpaceInfo).gradio
    ∧ (parseSpaceAddress "https://huggingface.co/spaces/xribene/midi_pitch_shifter".toList
        emptySpaceInfo).huggingface
        = (parseSpaceAddress "https://xribene-midi-pitch-shifter.hf.space/".toList
            emptySpaceInfo).huggingface :=
  have h := C3_three_forms_same_endpoint "xribene".toList "midi_pitch_shifter".toList
    emptySpaceInfo emptySpaceInfo emptySpaceInfo (by decide) (by decide) (by decide)
    (by decide) (by decide) (by decide) (by decide) (by decide) (by decide) (by decide)
  ⟨h.1, h.2.1, h.2.2.1, h.2.2.2.1, h.2.2.2.2.2.2.1⟩

/-! ## Occurrences under a replacement of characters -/

/-- A text that occurs in `map f r` occurs in `r` when `f` fixes every
character of `r` that it sends into the text. -/
theorem Juce.infix_of_infix_map (f : Char → Char) (pat r : List Char)
    (hf : ∀ c ∈ r, f c ∈ pat → f c = c) (h : pat <:+: r.map f) : pat <:+: r := by
  obtain ⟨s, t, hst⟩ := h
  obtain ⟨l1, t', hr, hl1, _⟩ := List.map_eq_append_iff.mp hst.symm
  obtain ⟨s', q, hl, _, hq⟩ := List.map_eq_append_iff.mp hl1
  have hqr : ∀ c ∈ q, c ∈ r := by
    intro c hc
    rw [hr, hl]
    simp [hc]
  have hid : q.map f = q := by
    conv_rhs => rw [← List.map_id q]
    apply List.map_congr_left
    intro c hc
    have hm : f c ∈ pat := by
      rw [← hq]
      exact List.mem_map_of_mem f hc
    exact hf c (hqr c hc) hm
  rw [hid] at hq
  rw [← hq, hr, hl]
  exact ⟨s', t', rfl⟩

theorem Spec.infix_of_infix_replaceChar (a b : Char) (pat r : List Char) (hb : b ∉ pat)
    (h : pat <:+: Spec.replaceChar a b r) : pat <:+: r := by
  apply Juce.infix_of_infix_map _ pat r _ h
  intro c _ hm
  by_cases hca : c = a
  · rw [if_pos hca] at hm
    exact absurd hm hb
  · rw [if_neg hca]

/-! ## Adequacy of the token loop and of the search -/

theorem Juce.findEndOfToken_rest_length (brk t : List Char) :
    (findEndOfToken brk t).2.length ≤ t.length := by
  have h := congrArg List.length (Juce.findEndOfToken_append brk t)
  rw [List.length_append] at h
  omega

/-- The token loop never runs out of fuel: any two amounts of fuel above the
length of the text give the same tokens. -/
theorem Juce.addTokensLoop_fuel (brk : List Char) (f1 f2 : Nat) (t : List Char)
    (h1 : t.length < f1) (h2 : t.length < f2) :
    addTokensLoop brk f1 t = addTokensLoop brk f2 t := by
  induction f1 generalizing f2 t with
  | zero => omega
  | succ n ih =>
    cases f2 with
    | zero => omega
    | succ m =>
      have hlen := Juce.findEndOfToken_rest_length brk t
      rw [addTokensLoop, addTokensLoop]
      rcases hfe : findEndOfToken brk t with ⟨tok, rest⟩
      rw [hfe] at hlen
      simp only at hlen ⊢
      cases rest with
      | nil => rfl
      | cons b rest =>
        simp only [List.length_cons] at hlen
        simp only [List.cons.injEq, true_and]
        exact ih m rest (by omega) (by omega)

theorem Juce.addTokensLoop_join (c : Char) (fuel : Nat) (t : List Char)
    (h : t.length < fuel) : [c].intercalate (addTokensLoop [c] fuel t) = t := by
  induction fuel generalizing t with
  | zero => omega
  | succ n ih =>
    have hlen := Juce.findEndOfToken_rest_length [c] t
    have happ := Juce.findEndOfToken_append [c] t
    have hbrk : ∀ b rest, (findEndOfToken [c] t).2 = b :: rest → b = c := by
      intro b rest
      clear ih h hlen happ
      induction t with
      | nil => simp [findEndOfToken]
      | cons x xs ihx =>
        simp only [findEndOfToken]
        split_ifs with hx
        · simp only [List.cons.injEq, and_imp]
          intro hxb _
          simp only [List.contains_cons, List.contains_nil, Bool.or_false, beq_iff_eq] at hx
          rw [← hxb, hx]
        · exact ihx
    rw [addTokensLoop]
    rcases hfe : findEndOfToken [c] t with ⟨tok, rest⟩
    rw [hfe] at hlen happ hbrk
    simp only at hlen happ hbrk ⊢
    cases rest with
    | nil =>
      simp only [List.append_nil] at happ
      simp [List.intercalate, happ]
    | cons b rest =>
      simp only [List.length_cons] at hlen
      have hb := hbrk b rest rfl
      have hrec := ih rest (by omega)
      cases hts : addTokensLoop [c] n rest with
      | nil =>
        cases n with
        | zero => omega
        | succ k =>
          rw [addTokensLoop] at hts
          split at hts <;> cases hts
      | cons p ps =>
        rw [hts] at hrec
        show [c].intercalate (tok :: addTokensLoop [c] n rest) = t
        rw [hts]
        simp only [List.intercalate, List.intersperse, List.flatten_cons] at hrec ⊢
        rw [hrec, ← happ, hb]
        simp

/-- Joining the tokens of a text with the break character gives the text back. -/
theorem Juce.fromTokens_join (c : Char) (t : List Char) :
    [c].intercalate (fromTokens t [c]) = t := by
  unfold fromTokens
  split_ifs with h
  · rw [List.isEmpty_iff] at h
    rw [h]; rfl
  · exact Juce.addTokensLoop_join c _ t (by omega)

theorem Juce.findEndOfToken_token_no_break (c : Char) (t : List Char) :
    c ∉ (findEndOfToken [c] t).1 := by
  induction t with
  | nil => simp [findEndOfToken]
  | cons x xs ih =>
    simp only [findEndOfToken]
    split_ifs with hx
    · simp
    · simp only [List.contains_cons, List.contains_nil, Bool.or_false, beq_iff_eq] at hx
      simp only [List.mem_cons, not_or]
      exact ⟨fun e => hx e.symm, ih⟩

theorem Juce.addTokensLoop_no_break (c : Char) (fuel : Nat) (t p : List Char)
    (hp : p ∈ addTokensLoop [c] fuel t) : c ∉ p := by
  induction fuel generalizing t with
  | zero => simp [addTokensLoop] at hp
  | succ n ih =>
    have hno := Juce.findEndOfToken_token_no_break c t
    rw [addTokensLoop] at hp
    rcases hfe : findEndOfToken [c] t with ⟨tok, rest⟩
    rw [hfe] at hp hno
    simp only at hp hno
    cases rest with
    | nil =>
      simp only [List.mem_singleton] at hp
      rw [hp]; exact hno
    | cons b rest =>
      simp only [List.mem_cons] at hp
      rcases hp with hp | hp
      · rw [hp]; exact hno
      · exact ih rest hp

/-- No token contains the break character. -/
theorem Juce.fromTokens_no_break (c : Char) (t p : List Char)
    (hp : p ∈ fromTokens t [c]) : c ∉ p := by
  unfold fromTokens at hp
  split_ifs at hp
  · simp at hp
  · exact Juce.addTokensLoop_no_break c _ t p hp

theorem Juce.indexOfFrom_spec (sub t : List Char) (n i : Nat)
    (h : indexOfFrom sub t n = some i) :
    ∃ pre post, t = pre ++ sub ++ post ∧ i = n + pre.length
      ∧ ∀ j, j < pre.length → ¬ sub <+: t.drop j := by
  induction t generalizing n with
  | nil =>
    simp only [indexOfFrom] at h
    split_ifs at h with hs
    have hsub : sub = [] := List.prefix_nil.mp ((Juce.startsWith_iff _ _).mp hs)
    simp only [Option.some.injEq] at h
    exact ⟨[], [], by simp [hsub], by simp [h], by simp⟩
  | cons c cs ih =>
    simp only [indexOfFrom] at h
    split_ifs at h with hs
    · obtain ⟨post, hpost⟩ := (Juce.startsWith_iff _ _).mp hs
      simp only [Option.some.injEq] at h
      exact ⟨[], post, by simp [hpost], by simp [h], by simp⟩
    · obtain ⟨pre, post, ht, hi, hfirst⟩ := ih (n + 1) h
      refine ⟨c :: pre, post, by simp [ht], by simp only [List.length_cons]; omega, ?_⟩
      intro j hj
      cases j with
      | zero =>
        intro hp
        exact hs ((Juce.startsWith_iff _ _).mpr hp)
      | succ k =>
        simp only [List.length_cons] at hj
        simp only [List.drop_succ_cons]
        exact hfirst k (by omega)

/-- When `sub` occurs in the text, the text is some `pre`, then `sub`, then
`fromFirstOccurrenceOf text sub`, and `sub` starts at no position of `pre`. -/
theorem Juce.fromFirstOccurrenceOf_spec (text sub : List Char)
    (h : contains text sub = true) :
    ∃ pre, text = pre ++ sub ++ fromFirstOccurrenceOf text sub
      ∧ ∀ j, j < pre.length → ¬ sub <+: text.drop j := by
  unfold contains at h
  unfold fromFirstOccurrenceOf
  cases hi : indexOf text sub with
  | none => rw [hi] at h; cases h
  | some i =>
    simp only
    unfold indexOf at hi
    split_ifs at hi with he
    · rw [List.isEmpty_iff] at he
      simp only [Option.some.injEq] at hi
      exact ⟨[], by simp [he, ← hi, substringFrom], by simp⟩
    · obtain ⟨pre, post, ht, hip, hfirst⟩ := Juce.indexOfFrom_spec sub text 0 i hi
      refine ⟨pre, ?_, hfirst⟩
      have hd : substringFrom text (i + sub.length) = post := by
        unfold substringFrom
        rw [ht, hip, Nat.zero_add, ← List.length_append]
        exact List.drop_left _ _
      rw [hd]
      exact ht

/-! ## Occurrences across a boundary -/

/-- A text that occurs in `a` + `b` occurs in `a`, or in `b`, or is cut by the
boundary into a non-empty end of `a` and a non-empty start of `b`. -/
theorem Juce.infix_append_cases (pat a b : List Char) (h : pat <:+: a ++ b) :
    pat <:+: a ∨ pat <:+: b
      ∨ ∃ k, 0 < k ∧ k < pat.length ∧ pat.take k <:+ a ∧ pat.drop k <+: b := by
  obtain ⟨s, t, hst⟩ := h
  rw [List.append_assoc] at hst
  rcases List.append_eq_append_iff.mp hst with ⟨a', ha, hp⟩ | ⟨c', hs, hb⟩
  · rcases List.append_eq_append_iff.mp hp with ⟨a'', hpa, _⟩ | ⟨c'', hc, hpt⟩
    · left
      rw [ha, hpa]
      exact ⟨s, a'', by simp⟩
    · by_cases hk1 : a' = []
      · right; left
        rw [hk1] at hc
        simp only [List.nil_append] at hc
        rw [hc, hpt]
        exact ⟨[], t, by simp⟩
      · by_cases hk2 : c'' = []
        · left
          rw [hk2] at hc
          simp only [List.append_nil] at hc
          rw [ha, hc]
          exact ⟨s, [], by simp⟩
        · right; right
          refine ⟨a'.length, ?_, ?_, ?_, ?_⟩
          · exact List.length_pos.mpr hk1
          · rw [hc, List.length_append]
            have := List.length_pos.mpr hk2
            omega
          · rw [hc, List.take_left, ha]
            exact ⟨s, rfl⟩
          · rw [hc, List.drop_left, hpt]
            exact ⟨t, rfl⟩
  · right; left
    rw [hb]
    exact ⟨c', t, by simp⟩

theorem Juce.indexOfFrom_first (sub pre post : List Char) (n : Nat) (hsub : sub ≠ [])
    (hfirst : ∀ j, j < pre.length → ¬ sub <+: (pre ++ (sub ++ post)).drop j) :
    indexOfFrom sub (pre ++ (sub ++ post)) n = some (n + pre.length) := by
  induction pre generalizing n with
  | nil =>
    have hs : startsWith (sub ++ post) sub = true :=
      (Juce.startsWith_iff _ _).mpr (List.prefix_append _ _)
    simp only [List.nil_append, List.length_nil, Nat.add_zero]
    cases hsp : sub ++ post with
    | nil =>
      have := List.append_eq_nil.mp hsp
      exact absurd this.1 hsub
    | cons x xs =>
      rw [hsp] at hs
      rw [indexOfFrom, if_pos hs]
  | cons p ps ih =>
    have h0 : ¬ sub <+: p :: (ps ++ (sub ++ post)) := by
      have := hfirst 0 (by simp)
      simpa using this
    have hs : ¬ startsWith (p :: (ps ++ (sub ++ post))) sub = true :=
      fun h => h0 ((Juce.startsWith_iff _ _).mp h)
    have hrest : ∀ j, j < ps.length → ¬ sub <+: (ps ++ (sub ++ post)).drop j := by
      intro j hj
      have := hfirst (j + 1) (by simp only [List.length_cons]; omega)
      simpa using this
    rw [List.cons_append, indexOfFrom, if_neg hs, ih (n + 1) hrest, List.length_cons]
    congr 1
    omega

/-- The first occurrence of `sub` in `pre` + `sub` + `post` is at the end of
`pre` when `sub` does not occur in `pre` and no proper end of `sub` is a start
of `sub`. -/
theorem Juce.indexOf_first (sub pre post : List Char) (hsub : sub ≠ [])
    (hpre : ¬ sub <:+: pre)
    (hborder : ∀ k, k < sub.length → 0 < k → startsWith sub (sub.drop k) = false) :
    indexOf (pre ++ (sub ++ post)) sub = some pre.length := by
  unfold indexOf
  rw [if_neg (by simpa using hsub), Juce.indexOfFrom_first sub pre post 0 hsub]
  · simp
  · intro j hj hp
    rw [List.drop_append_of_le_length (by omega)] at hp
    obtain ⟨t, ht⟩ := hp
    rcases List.append_eq_append_iff.mp ht with ⟨a', ha, _⟩ | ⟨c', hs, hc⟩
    · apply hpre
      have h1 : sub <+: pre.drop j := ⟨a', ha.symm⟩
      exact h1.isInfix.trans (List.drop_suffix _ _).isInfix
    · rcases List.append_eq_append_iff.mp hc.symm with ⟨a'', hsa, _⟩ | ⟨c'', hcc, hsp⟩
      · by_cases hc0 : c' = []
        · apply hpre
          rw [hc0] at hs
          simp only [List.append_nil] at hs
          rw [hs]
          exact (List.drop_suffix _ _).isInfix
        · have hq : pre.drop j ≠ [] := by
            intro he
            have := congrArg List.length he
            simp only [List.length_drop, List.length_nil] at this
            omega
          have hlen : (pre.drop j).length < sub.length := by
            rw [hs, List.length_append]
            have := List.length_pos.mpr hc0
            omega
          have hb := hborder (pre.drop j).length hlen (List.length_pos.mpr hq)
          have hd : sub.drop (pre.drop j).length = c' := by
            conv_lhs => rw [hs]
            exact List.drop_left _ _
          rw [hd] at hb
          have : startsWith sub c' = true := (Juce.startsWith_iff _ _).mpr ⟨a'', hsa.symm⟩
          rw [this] at hb
          cases hb
      · apply hpre
        have hsl := congrArg List.length hs
        have hcl := congrArg List.length hcc
        simp only [List.length_append] at hsl hcl
        have hc2 : c'' = [] := List.length_eq_zero.mp (by omega)
        have hq0 : pre.drop j = [] := List.length_eq_zero.mp (by omega)
        have := congrArg List.length hq0
        simp only [List.length_drop, List.length_nil] at this
        omega

/-! ## The wildcard of rule 1 as a scattered pattern -/

theorem Juce.cons_sublist_split (x : Char) (l s : List Char) (h : List.Sublist (x :: l) s) :
    ∃ a b, s = a ++ x :: b ∧ List.Sublist l b := by
  induction s with
  | nil => cases h
  | cons y ys ih =>
    rcases List.sublist_cons_iff.mp h with h1 | ⟨r, hr, hrs⟩
    · obtain ⟨a, b, hs, hl⟩ := ih h1
      exact ⟨y :: a, b, by simp [hs], hl⟩
    · simp only [List.cons.injEq] at hr
      exact ⟨[], ys, by simp [hr.1], hr.2 ▸ hrs⟩

/-- The texts matched by `*.*.*.*:*` are those in which `.`, `.`, `.`, `:`
occur in this order. -/
theorem Juce.matchesWildcard_iff_sublist (s : List Char) :
    matchesWildcard s "*.*.*.*:*".toList true = true
      ↔ List.Sublist ['.', '.', '.', ':'] s := by
  rw [Juce.matchesWildcard_dots_colon]
  constructor
  · rintro ⟨a, b, c, d, e, rfl⟩
    have h4 : List.Sublist [':'] (d ++ ':' :: e) :=
      List.sublist_append_of_sublist_right (List.Sublist.cons₂ _ (List.nil_sublist _))
    have h3 : List.Sublist ['.', ':'] (c ++ '.' :: (d ++ ':' :: e)) :=
      List.sublist_append_of_sublist_right (h4.cons₂ _)
    have h2 : List.Sublist ['.', '.', ':'] (b ++ '.' :: (c ++ '.' :: (d ++ ':' :: e))) :=
      List.sublist_append_of_sublist_right (h3.cons₂ _)
    exact List.sublist_append_of_sublist_right (h2.cons₂ _)
  · intro h
    obtain ⟨a, t1, rfl, h1⟩ := Juce.cons_sublist_split _ _ _ h
    obtain ⟨b, t2, rfl, h2⟩ := Juce.cons_sublist_split _ _ _ h1
    obtain ⟨c, t3, rfl, h3⟩ := Juce.cons_sublist_split _ _ _ h2
    obtain ⟨d, e, rfl, _⟩ := Juce.cons_sublist_split _ _ _ h3
    exact ⟨a, b, c, d, e, rfl⟩

theorem Juce.cons_sublist_of_append (x : Char) (l a b : List Char) (hx : x ∉ a)
    (h : List.Sublist (x :: l) (a ++ b)) : List.Sublist (x :: l) b := by
  induction a with
  | nil => simpa using h
  | cons y ys ih =>
    have hy : x ≠ y := fun e => hx (e ▸ List.mem_cons_self _ _)
    have hys : x ∉ ys := fun m => hx (List.mem_cons_of_mem _ m)
    rw [List.cons_append] at h
    rcases List.sublist_cons_iff.mp h with h1 | ⟨r, hr, _⟩
    · exact ih hys h1
    · simp only [List.cons.injEq] at hr
      exact absurd hr.1 hy

theorem Juce.concat_sublist_of_append (x : Char) (l a b : List Char) (hx : x ∉ b)
    (h : List.Sublist (l ++ [x]) (a ++ b)) : List.Sublist (l ++ [x]) a := by
  have hr : List.Sublist (x :: l.reverse) (b.reverse ++ a.reverse) := by
    have := h.reverse
    simpa using this
  have h2 := Juce.cons_sublist_of_append x l.reverse b.reverse a.reverse (by simpa using hx) hr
  have h3 := h2.reverse
  simpa using h3

theorem Juce.eq_of_map_eq (f : Char → Char) (q pat : List Char)
    (hf : ∀ c, f c ∈ pat → f c = c) (h : q.map f = pat) : q = pat := by
  have hid : q.map f = q := by
    conv_rhs => rw [← List.map_id q]
    apply List.map_congr_left
    intro c hc
    exact hf c (h ▸ List.mem_map_of_mem f hc)
  rw [← h, hid]

theorem Spec.sublist_of_sublist_replaceChar (a b : Char) (pat r : List Char) (hb : b ∉ pat)
    (h : List.Sublist pat (Spec.replaceChar a b r)) : List.Sublist pat r := by
  obtain ⟨l, hl, hp⟩ := List.sublist_map_iff.mp h
  have : l = pat := by
    apply Juce.eq_of_map_eq _ l pat _ hp.symm
    intro c hm
    by_cases hca : c = a
    · rw [if_pos hca] at hm
      exact absurd hm hb
    · rw [if_neg hca]
  rw [← this]
  exact hl

theorem GradioClient.rule2_no_slash (input o r : List Char) (st : Status)
    (he : extractUserAndModel input = .ok (o, r, st))
    (h2 : contains input huggingFaceBaseUrl = true) : '/' ∉ r := by
  rw [GradioClient.extract_rule2 input h2] at he
  split_ifs at he with hlen
  simp only [Except.ok.injEq, Prod.mk.injEq] at he
  rw [← he.2.1]
  unfold stringAt
  rw [List.getD_eq_getElem _ _ (by omega)]
  exact Juce.fromTokens_no_break '/' _ _ (List.getElem_mem _)

/-! ## Round trip of the canonical URL -/

theorem GradioClient.subdomainOf_canonical (sub tail : List Char)
    (hsub : ¬ ".hf.space".toList <:+: sub) :
    subdomainOf ("https://".toList ++ sub ++ (".hf.space".toList ++ tail)) = sub := by
  have e1 : "https://".toList ++ sub ++ (".hf.space".toList ++ tail)
      = "https".toList ++ (':' :: "//".toList) ++ (sub ++ (".hf.space".toList ++ tail)) := by
    simp
  have i1 := Juce.indexOf_append_first ':' "//".toList "https".toList
    (sub ++ (".hf.space".toList ++ tail)) (by decide)
  have i2 := Juce.indexOf_first ".hf.space".toList sub tail (by decide) hsub (by decide)
  have e3 : "://".toList = ':' :: "//".toList := rfl
  unfold subdomainOf
  have hfrom : fromFirstOccurrenceOf ("https://".toList ++ sub ++ (".hf.space".toList ++ tail))
      "://".toList = sub ++ (".hf.space".toList ++ tail) := by
    unfold fromFirstOccurrenceOf
    rw [e1, e3, i1]
    simp [substringFrom]
  rw [hfrom]
  unfold upToFirstOccurrenceOf
  rw [i2]
  simp [substring]

/-- The canonical URL built from an owner without `.` and a repo is not caught
by rule 1 when the input they were parsed from is not. -/
theorem GradioClient.canonical_not_local (input o r : List Char)
    (hl : isLocalAddress input = false) (hoi : o <:+: input) (hri : r <:+: input)
    (ho : '.' ∉ o) :
    isLocalAddress ("https://".toList ++ (o ++ '-' :: Spec.replaceChar '_' '-' r)
      ++ (".hf.space".toList ++ [])) = false := by
  have hparts : contains input "localhost".toList = false
      ∧ contains input "gradio.live".toList = false
      ∧ matchesWildcard input "*.*.*.*:*".toList true = false := by
    unfold isLocalAddress at hl
    simp only [Bool.or_eq_false_iff] at hl
    exact ⟨hl.1.1, hl.1.2, hl.2⟩
  have hnl : ¬ "localhost".toList <:+: input := (Juce.contains_eq_false_iff _ _).mp hparts.1
  have hng : ¬ "gradio.live".toList <:+: input := (Juce.contains_eq_false_iff _ _).mp hparts.2.1
  have hnw : ¬ List.Sublist ['.', '.', '.', ':'] input := by
    intro h
    have := (Juce.matchesWildcard_iff_sublist input).mpr h
    rw [hparts.2.2] at this
    cases this
  have eG : "https://".toList ++ (o ++ '-' :: Spec.replaceChar '_' '-' r)
        ++ (".hf.space".toList ++ [])
      = ("https://".toList ++ o) ++ '-' :: (Spec.replaceChar '_' '-' r ++ ".hf.space".toList) := by
    simp
  have hdot : '.' ∉ "https://".toList ++ o := by
    simp only [List.mem_append, not_or]
    exact ⟨by decide, ho⟩
  rw [eG]
  have h1 : contains (("https://".toList ++ o)
      ++ '-' :: (Spec.replaceChar '_' '-' r ++ ".hf.space".toList)) "localhost".toList
        = false := by
    rw [Juce.contains_eq_false_iff]
    intro hi
    rcases Juce.infix_append_cons_split _ _ _ '-' (by decide) hi with h | h
    · have eP : "https://".toList ++ o = "https:/".toList ++ '/' :: o := by simp
      rw [eP] at h
      rcases Juce.infix_append_cons_split _ _ _ '/' (by decide) h with h | h
      · exact absurd h ((Juce.contains_eq_false_iff _ _).mp (by decide))
      · exact hnl (h.trans hoi)
    · have eS : Spec.replaceChar '_' '-' r ++ ".hf.space".toList
          = Spec.replaceChar '_' '-' r ++ '.' :: "hf.space".toList := rfl
      rw [eS] at h
      rcases Juce.infix_append_cons_split _ _ _ '.' (by decide) h with h | h
      · exact hnl ((Spec.infix_of_infix_replaceChar '_' '-' _ r (by decide) h).trans hri)
      · exact absurd h ((Juce.contains_eq_false_iff _ _).mp (by decide))
  have h2 : contains (("https://".toList ++ o)
      ++ '-' :: (Spec.replaceChar '_' '-' r ++ ".hf.space".toList)) "gradio.live".toList
        = false := by
    rw [Juce.contains_eq_false_iff]
    intro hi
    rcases Juce.infix_append_cons_split _ _ _ '-' (by decide) hi with h | h
    · exact hdot (h.mem (by decide))
    · rcases Juce.infix_append_cases _ _ _ h with h | h | ⟨k, hk0, hk, _, hpre⟩
      · exact hng ((Spec.infix_of_infix_replaceChar '_' '-' _ r (by decide) h).trans hri)
      · exact absurd h ((Juce.contains_eq_false_iff _ _).mp (by decide))
      · have hall : ∀ k, k < "gradio.live".toList.length → 0 < k →
            startsWith ".hf.space".toList ("gradio.live".toList.drop k) = false := by
          decide
        have := hall k hk hk0
        rw [(Juce.startsWith_iff _ _).mpr hpre] at this
        cases this
  have h3 : matchesWildcard (("https://".toList ++ o)
      ++ '-' :: (Spec.replaceChar '_' '-' r ++ ".hf.space".toList)) "*.*.*.*:*".toList true
        = false := by
    cases hw : matchesWildcard (("https://".toList ++ o)
      ++ '-' :: (Spec.replaceChar '_' '-' r ++ ".hf.space".toList)) "*.*.*.*:*".toList true with
    | false => rfl
    | true =>
      exfalso
      have hs := (Juce.matchesWildcard_iff_sublist _).mp hw
      have hs1 := Juce.cons_sublist_of_append '.' ['.', '.', ':'] _ _ hdot hs
      have hs2 : List.Sublist ['.', '.', '.', ':']
          (Spec.replaceChar '_' '-' r ++ ".hf.space".toList) := by
        rcases List.sublist_cons_iff.mp hs1 with h | ⟨_, hr, _⟩
        · exact h
        · simp at hr
      have hs3 := Juce.concat_sublist_of_append ':' ['.', '.', '.'] _ _ (by decide) hs2
      exact hnw ((Spec.sublist_of_sublist_replaceChar '_' '-' _ r (by decide) hs3).trans
        hri.sublist)
  unfold isLocalAddress
  rw [h1, h2, h3]
  rfl

/-- The canonical URL built from an owner without `.` and a repo does not
contain the huggingface base URL. -/
theorem GradioClient.canonical_not_base (input o r : List Char) (st : Status)
    (he : extractUserAndModel input = .ok (o, r, st)) (hri : r <:+: input) (ho : '.' ∉ o) :
    contains ("https://".toList ++ (o ++ '-' :: Spec.replaceChar '_' '-' r)
      ++ (".hf.space".toList ++ [])) huggingFaceBaseUrl = false := by
  have eG : "https://".toList ++ (o ++ '-' :: Spec.replaceChar '_' '-' r)
        ++ (".hf.space".toList ++ [])
      = ("https://".toList ++ o) ++ '-' :: (Spec.replaceChar '_' '-' r ++ ".hf.space".toList) := by
    simp
  have hdot : '.' ∉ "https://".toList ++ o := by
    simp only [List.mem_append, not_or]
    exact ⟨by decide, ho⟩
  rw [eG, Juce.contains_eq_false_iff]
  intro hi
  rcases Juce.infix_append_cons_split _ _ _ '-' (by decide) hi with h | h
  · exact hdot (h.mem (by decide))
  · rcases Juce.infix_append_cases _ _ _ h with h | h | ⟨k, hk0, hk, _, hpre⟩
    · have hr := Spec.infix_of_infix_replaceChar '_' '-' _ r (by decide) h
      have h2 : contains input huggingFaceBaseUrl = true :=
        (Juce.contains_iff _ _).mpr (hr.trans hri)
      exact GradioClient.rule2_no_slash input o r st he h2 (hr.mem (by decide))
    · exact absurd h ((Juce.contains_eq_false_iff _ _).mp (by decide))
    · have hall : ∀ k, k < huggingFaceBaseUrl.length → 0 < k →
          startsWith ".hf.space".toList (huggingFaceBaseUrl.drop k) = false := by
        decide
      have := hall k hk hk0
      rw [(Juce.startsWith_iff _ _).mpr hpre] at this
      cases this

/-- C2, as the code has it: for every input that `parseSpaceAddress` accepts
with status `HUGGINGFACE` or `GRADIO`, when the user name has no `-` and no
`.` and the model name does not contain `.hf.space`, parsing the canonical
(gradio) URL again succeeds with status `GRADIO` and yields the same user
name and model name, and the same two URLs. -/
theorem C2_canonical_url_round_trip (input : List Char) (info info2 : SpaceInfo)
    (hacc : (parseSpaceAddress input info).status = Status.HUGGINGFACE
      ∨ (parseSpaceAddress input info).status = Status.GRADIO)
    (hyphen : '-' ∉ (parseSpaceAddress input info).userName)
    (hdot : '.' ∉ (parseSpaceAddress input info).userName)
    (hsuffix : contains (parseSpaceAddress input info).modelName ".hf.space".toList = false) :
    (parseSpaceAddress (parseSpaceAddress input info).gradio info2).status = Status.GRADIO
    ∧ (parseSpaceAddress (parseSpaceAddress input info).gradio info2).userName
        = (parseSpaceAddress input info).userName
    ∧ (parseSpaceAddress (parseSpaceAddress input info).gradio info2).modelName
        = (parseSpaceAddress input info).modelName
    ∧ (parseSpaceAddress (parseSpaceAddress input info).gradio info2).gradio
        = (parseSpaceAddress input info).gradio
    ∧ (parseSpaceAddress (parseSpaceAddress input info).gradio info2).huggingface
        = (parseSpaceAddress input info).huggingface := by
  obtain ⟨hl, o, r, st, he, ho, hr⟩ := GradioClient.parse_accepted input info hacc
  obtain ⟨hoi, hri⟩ := GradioClient.extract_infix input o r st he
  rw [GradioClient.parse_ok input info o r st hl he ho hr] at hyphen hdot hsuffix ⊢
  simp only at hyphen hdot hsuffix ⊢
  have eG : "https://".toList ++ o ++ "-".toList ++ Spec.replaceChar '_' '-' r
        ++ ".hf.space".toList
      = "https://".toList ++ (o ++ '-' :: Spec.replaceChar '_' '-' r)
          ++ (".hf.space".toList ++ []) := by
    simp
  have hl2 := GradioClient.canonical_not_local input o r hl hoi hri hdot
  have hb2 := GradioClient.canonical_not_base input o r st he hri hdot
  have hsub : ¬ ".hf.space".toList <:+: o ++ '-' :: Spec.replaceChar '_' '-' r := by
    intro hi
    rcases Juce.infix_append_cons_split _ _ _ '-' (by decide) hi with h | h
    · exact hdot (h.mem (by decide))
    · exact (Juce.contains_eq_false_iff _ _).mp hsuffix h
  have h3 : contains ("https://".toList ++ (o ++ '-' :: Spec.replaceChar '_' '-' r)
      ++ (".hf.space".toList ++ [])) "hf.space".toList = true := by
    rw [Juce.contains_iff]
    exact ⟨"https://".toList ++ (o ++ '-' :: Spec.replaceChar '_' '-' r) ++ ['.'], [], by simp⟩
  have e2 : extractUserAndModel ("https://".toList ++ (o ++ '-' :: Spec.replaceChar '_' '-' r)
      ++ (".hf.space".toList ++ [])) = .ok (o, Spec.replaceChar '_' '-' r, Status.GRADIO) := by
    rw [GradioClient.extract_rule3 _ hb2 h3, GradioClient.subdomainOf_canonical _ [] hsub,
      Juce.indexOfChar_append '-' o _ hyphen]
    simp only [Juce.substring_zero_append, Juce.substringFrom_append]
  rw [eG, GradioClient.parse_ok _ info2 o _ _ hl2 e2 ho (Spec.replaceChar_ne_nil _ _ r hr)]
  simp only [Spec.replaceChar_idem, Spec.replaceChar_replaceChar_swap, and_self]
  simp

/-- C2 at the three documented forms `https://owner-repo.hf.space/`,
`https://huggingface.co/spaces/owner/repo` and `owner/repo`, and at a repo
name with a `.`, `owner/FLUX.1-dev`. -/
theorem C2_canonical_url_round_trip_witness :
    ((parseSpaceAddress (parseSpaceAddress "https://owner-repo.hf.space/".toList
        emptySpaceInfo).gradio emptySpaceInfo).userName = "owner".toList
      ∧ (parseSpaceAddress (parseSpaceAddress "https://owner-repo.hf.space/".toList
        emptySpaceInfo).gradio emptySpaceInfo).modelName = "repo".toList)
    ∧ ((parseSpaceAddress (parseSpaceAddress "https://huggingface.co/spaces/owner/repo".toList
        emptySpaceInfo).gradio emptySpaceInfo).userName = "owner".toList
      ∧ (parseSpaceAddress (parseSpaceAddress "https://huggingface.co/spaces/owner/repo".toList
        emptySpaceInfo).gradio emptySpaceInfo).modelName = "repo".toList)
    ∧ ((parseSpaceAddress (parseSpaceAddress "owner/repo".toList
        emptySpaceInfo).gradio emptySpaceInfo).userName = "owner".toList
      ∧ (parseSpaceAddress (parseSpaceAddress "owner/repo".toList
        emptySpaceInfo).gradio emptySpaceInfo).modelName = "repo".toList)
    ∧ ((parseSpaceAddress (parseSpaceAddress "owner/FLUX.1-dev".toList
        emptySpaceInfo).gradio emptySpaceInfo).userName = "owner".toList
      ∧ (parseSpaceAddress (parseSpaceAddress "owner/FLUX.1-dev".toList
        emptySpaceInfo).gradio emptySpaceInfo).modelName = "FLUX.1-dev".toList) :=
  have h1 := C2_canonical_url_round_trip "https://owner-repo.hf.space/".toList
    emptySpaceInfo emptySpaceInfo (by decide) (by decide) (by decide) (by decide)
  have h2 := C2_canonical_url_round_trip "https://huggingface.co/spaces/owner/repo".toList
    emptySpaceInfo emptySpaceInfo (by decide) (by decide) (by decide) (by decide)
  have h3 := C2_canonical_url_round_trip "owner/repo".toList
    emptySpaceInfo emptySpaceInfo (by decide) (by decide) (by decide) (by decide)
  have h4 := C2_canonical_url_round_trip "owner/FLUX.1-dev".toList
    emptySpaceInfo emptySpaceInfo (by decide) (by decide) (by decide) (by decide)
  ⟨⟨h1.2.1, h1.2.2.1⟩, ⟨h2.2.1, h2.2.2.1⟩, ⟨h3.2.1, h3.2.2.1⟩, ⟨h4.2.1, h4.2.2.1⟩⟩

/-- C2 as stated fails at `https://huggingface.co/spaces/my-org/repo`: the
input is accepted with user name `my-org` and model name `repo`, and parsing
its canonical URL `https://my-org-repo.hf.space` again yields the user name
`my` and the model name `org-repo`. -/
theorem C2_counterexample_hyphen_in_owner :
    (parseSpaceAddress "https://huggingface.co/spaces/my-org/repo".toList
        emptySpaceInfo).status = Status.HUGGINGFACE
    ∧ (parseSpaceAddress "https://huggingface.co/spaces/my-org/repo".toList
        emptySpaceInfo).userName = "my-org".toList
    ∧ (parseSpaceAddress "https://huggingface.co/spaces/my-org/repo".toList
        emptySpaceInfo).modelName = "repo".toList
    ∧ (parseSpaceAddress "https://huggingface.co/spaces/my-org/repo".toList
        emptySpaceInfo).gradio = "https://my-org-repo.hf.space".toList
    ∧ (parseSpaceAddress (parseSpaceAddress "https://huggingface.co/spaces/my-org/repo".toList
        emptySpaceInfo).gradio emptySpaceInfo).userName = "my".toList
    ∧ (parseSpaceAddress (parseSpaceAddress "https://huggingface.co/spaces/my-org/repo".toList
        emptySpaceInfo).gradio emptySpaceInfo).modelName = "org-repo".toList := by
  decide

/-- The round trip also fails for a repo name that contains `.hf.space`: the
address `https://huggingface.co/spaces/a/b.hf.space` is accepted with model
name `b.hf.space`, and its canonical URL parses to the model name `b`. -/
theorem GradioClient.round_trip_fails_repo_with_hf_space :
    (parseSpaceAddress "https://huggingface.co/spaces/a/b.hf.space".toList
        emptySpaceInfo).status = Status.HUGGINGFACE
    ∧ (parseSpaceAddress "https://huggingface.co/spaces/a/b.hf.space".toList
        emptySpaceInfo).modelName = "b.hf.space".toList
    ∧ (parseSpaceAddress (parseSpaceAddress "https://huggingface.co/spaces/a/b.hf.space".toList
        emptySpaceInfo).gradio emptySpaceInfo).modelName = "b".toList := by
  decide

/-- The round trip also fails for an owner that contains `.`: the address
`ftp://huggingface.co/spaces/a-b.hf.space` is accepted with user name
`huggingface.co/spaces/a`, and its canonical URL is rejected by rule 2. -/
theorem GradioClient.round_trip_fails_owner_with_dot :
    (parseSpaceAddress "ftp://huggingface.co/spaces/a-b.hf.space".toList
        emptySpaceInfo).status = Status.GRADIO
    ∧ (parseSpaceAddress "ftp://huggingface.co/spaces/a-b.hf.space".toList
        emptySpaceInfo).userName = "huggingface.co/spaces/a".toList
    ∧ (parseSpaceAddress "ftp://huggingface.co/spaces/a-b.hf.space".toList
        emptySpaceInfo).gradio = "https://huggingface.co/spaces/a-b.hf.space".toList
    ∧ (parseSpaceAddress (parseSpaceAddress "ftp://huggingface.co/spaces/a-b.hf.space".toList
        emptySpaceInfo).gradio emptySpaceInfo).status = Status.ERROR := by
  decide

/-! ## The data line of a response -/

theorem Juce.findEndOfWhitespace_spec (s : List Char) :
    ∃ l, s = l ++ findEndOfWhitespace s ∧ (∀ c ∈ l, isWhitespace c = true)
      ∧ ∀ c rest, findEndOfWhitespace s = c :: rest → isWhitespace c = false := by
  induction s with
  | nil => exact ⟨[], rfl, by simp, by simp [findEndOfWhitespace]⟩
  | cons x xs ih =>
    by_cases hx : isWhitespace x = true
    · obtain ⟨l, hl, hws, hhead⟩ := ih
      refine ⟨x :: l, ?_, ?_, ?_⟩
      · simp only [findEndOfWhitespace, if_pos hx, List.cons_append]
        rw [← hl]
      · intro c hc
        rcases List.mem_cons.mp hc with rfl | hc
        · exact hx
        · exact hws c hc
      · simpa only [findEndOfWhitespace, if_pos hx] using hhead
    · refine ⟨[], ?_, by simp, ?_⟩
      · simp only [findEndOfWhitespace, if_neg hx, List.nil_append]
      · simp only [findEndOfWhitespace, if_neg hx, List.cons.injEq, and_imp]
        intro c rest hc _
        rw [← hc]
        simpa using hx

theorem Juce.findTrimmedEnd_spec (s : List Char) :
    ∃ r, s = findTrimmedEnd s ++ r ∧ (∀ c ∈ r, isWhitespace c = true)
      ∧ ∀ init c, findTrimmedEnd s = init ++ [c] → isWhitespace c = false := by
  obtain ⟨l, hl, hws, hhead⟩ := Juce.findEndOfWhitespace_spec s.reverse
  refine ⟨l.reverse, ?_, ?_, ?_⟩
  · have := congrArg List.reverse hl
    simpa [findTrimmedEnd] using this
  · intro c hc
    exact hws c (List.mem_reverse.mp hc)
  · intro init c h
    unfold findTrimmedEnd at h
    have h2 := congrArg List.reverse h
    simp only [List.reverse_reverse, List.reverse_append, List.reverse_singleton,
      List.singleton_append] at h2
    exact hhead c _ h2

/-- The function `trim` takes whitespace, and nothing else, from both ends:
the text is whitespace, then the trimmed text, then whitespace, and the
trimmed text neither starts nor ends with whitespace. -/
theorem Juce.trim_spec (s : List Char) :
    ∃ l r, s = l ++ trim s ++ r ∧ (∀ c ∈ l, isWhitespace c = true)
      ∧ (∀ c ∈ r, isWhitespace c = true)
      ∧ (∀ c rest, trim s = c :: rest → isWhitespace c = false)
      ∧ ∀ init c, trim s = init ++ [c] → isWhitespace c = false := by
  unfold trim
  split_ifs with he
  · rw [List.isEmpty_iff] at he
    subst he
    exact ⟨[], [], rfl, by simp, by simp, by simp, by simp⟩
  · obtain ⟨l, hl, hlws, hhead⟩ := Juce.findEndOfWhitespace_spec s
    obtain ⟨r, hr, hrws, hlast⟩ := Juce.findTrimmedEnd_spec (findEndOfWhitespace s)
    refine ⟨l, r, ?_, hlws, hrws, ?_, hlast⟩
    · rw [List.append_assoc, ← hr, ← hl]
    · intro c rest hc
      rw [hc] at hr
      exact hhead c _ hr

/-- C11: for every response and key, when the key occurs in the response the
response is some `pre`, the key at its first occurrence and some `post`, and
`responseKey` becomes `post` without its leading and trailing whitespace,
`error` being left as it was; when the key does not occur, `error` becomes a
non-empty message and `responseKey` is left as it was. With the key `data: `,
the body of an `event: complete` line and a `data:` line gives the payload of
the data line. -/
theorem C11_extract_key_from_response (response responseKey key error : List Char) :
    (contains response key = true →
      ∃ pre post l r,
        response = pre ++ key ++ post
        ∧ (∀ j, j < pre.length → ¬ key <+: response.drop j)
        ∧ post = l ++ (extractKeyFromResponse response responseKey key error).1 ++ r
        ∧ (∀ c ∈ l, isWhitespace c = true) ∧ (∀ c ∈ r, isWhitespace c = true)
        ∧ (∀ c rest, (extractKeyFromResponse response responseKey key error).1 = c :: rest →
            isWhitespace c = false)
        ∧ (∀ init c, (extractKeyFromResponse response responseKey key error).1 = init ++ [c] →
            isWhitespace c = false)
        ∧ (extractKeyFromResponse response responseKey key error).1
            = trim (fromFirstOccurrenceOf response key)
        ∧ (extractKeyFromResponse response responseKey key error).2 = error)
    ∧ (contains response key = false →
        (extractKeyFromResponse response responseKey key error).2
            = "Key ".toList ++ key ++ " not found in response".toList
        ∧ (extractKeyFromResponse response responseKey key error).2 ≠ []
        ∧ (extractKeyFromResponse response responseKey key error).1 = responseKey)
    ∧ extractKeyFromResponse "event: complete\ndata: \x7b\"x\":1\x7d\n".toList responseKey
        "data: ".toList error = ("\x7b\"x\":1\x7d".toList, error) := by
  refine ⟨?_, ?_, ?_⟩
  · intro hc
    obtain ⟨pre, hpre, hfirst⟩ := Juce.fromFirstOccurrenceOf_spec response key hc
    have hout : (extractKeyFromResponse response responseKey key error)
        = (trim (fromFirstOccurrenceOf response key), error) := by
      unfold extractKeyFromResponse fromFirstOccurrenceOf
      unfold contains at hc
      cases hi : indexOf response key with
      | none => rw [hi] at hc; cases hc
      | some i => rfl
    obtain ⟨l, r, hlr, hl, hr, hhead, hlast⟩ :=
      Juce.trim_spec (fromFirstOccurrenceOf response key)
    rw [hout]
    exact ⟨pre, fromFirstOccurrenceOf response key, l, r, hpre, hfirst, hlr, hl, hr, hhead,
      hlast, rfl, rfl⟩
  · intro hc
    have hout : (extractKeyFromResponse response responseKey key error)
        = (responseKey, "Key ".toList ++ key ++ " not found in response".toList) := by
      unfold extractKeyFromResponse
      unfold contains at hc
      cases hi : indexOf response key with
      | none => rfl
      | some i => rw [hi] at hc; cases hc
    rw [hout]
    refine ⟨rfl, ?_, rfl⟩
    simp
  · rfl

/-- C11 at the body of an `event: complete` line and a `data:` line, and at a
body without a data line. -/
theorem C11_extract_key_from_response_witness :
    extractKeyFromResponse "event: complete\ndata: \x7b\"x\":1\x7d\n".toList [] "data: ".toList []
        = ("\x7b\"x\":1\x7d".toList, [])
    ∧ (extractKeyFromResponse "event: heartbeat\n".toList "old".toList "data: ".toList []).2
        = "Key data:  not found in response".toList
    ∧ (extractKeyFromResponse "event: heartbeat\n".toList "old".toList "data: ".toList []).1
        = "old".toList :=
  have h := C11_extract_key_from_response "event: heartbeat\n".toList "old".toList
    "data: ".toList []
  have g := h.2.1 (by decide)
  ⟨(C11_extract_key_from_response [] [] [] []).2.2, g.1, g.2.2⟩

/-! ## The event id of a call -/

theorem GradioClient.post_no_stream {D : Type} (P : Platform D)
    (endpoint eventID error : List Char) :
    makePostRequestForEventID P endpoint eventID error none
      = (eventID, "Failed to create input stream for POST request to ".toList ++ endpoint) :=
  rfl

theorem GradioClient.post_bad_status {D : Type} (P : Platform D)
    (endpoint eventID error body : List Char) (statusCode : Int) (hs : statusCode ≠ 200) :
    makePostRequestForEventID P endpoint eventID error (some (statusCode, body))
      = (eventID, "Request to ".toList ++ endpoint ++ " failed with status code: ".toList
          ++ intToString statusCode) := by
  unfold makePostRequestForEventID
  simp only [if_pos hs]

theorem GradioClient.post_not_object {D : Type} (P : Platform D)
    (endpoint eventID error body : List Char)
    (hv : (P.parseJson body).getDynamicObject = none) :
    (makePostRequestForEventID P endpoint eventID error (some (200, body))).2 ≠ [] := by
  cases hp : P.parseJson body with
  | object obj => rw [hp] at hv; cases hv
  | array a => simp [makePostRequestForEventID, hp, Var.isObject, Var.getDynamicObject]
  | void => simp [makePostRequestForEventID, hp, Var.isObject]
  | int n => simp [makePostRequestForEventID, hp, Var.isObject]
  | bool b => simp [makePostRequestForEventID, hp, Var.isObject]
  | double d => simp [makePostRequestForEventID, hp, Var.isObject]
  | string s => simp [makePostRequestForEventID, hp, Var.isObject]

theorem GradioClient.post_object {D : Type} (P : Platform D)
    (endpoint eventID error body : List Char) (obj : List (List Char × Var D))
    (hv : (P.parseJson body).getDynamicObject = some obj) :
    makePostRequestForEventID P endpoint eventID error (some (200, body))
      = if (getProperty obj "event_id".toList).toString P = [] then
          ((getProperty obj "event_id".toList).toString P,
            "event_id not found in the response from ".toList ++ endpoint)
        else ((getProperty obj "event_id".toList).toString P, error) := by
  cases hp : P.parseJson body with
  | object o =>
    rw [hp] at hv
    simp only [Var.getDynamicObject, Option.some.injEq] at hv
    subst hv
    simp [makePostRequestForEventID, hp, Var.isObject, Var.getDynamicObject]
  | array a => rw [hp] at hv; cases hv
  | void => rw [hp] at hv; cases hv
  | int n => rw [hp] at hv; cases hv
  | bool b => rw [hp] at hv; cases hv
  | double d => rw [hp] at hv; cases hv
  | string s => rw [hp] at hv; cases hv

theorem Juce.getProperty_missing {D : Type} (obj : List (List Char × Var D))
    (name : List Char) (h : ∀ kv ∈ obj, kv.1 ≠ name) : getProperty obj name = Var.void := by
  induction obj with
  | nil => rfl
  | cons kv rest ih =>
    obtain ⟨k, v⟩ := kv
    have hk : k ≠ name := h (k, v) (List.mem_cons_self _ _)
    rw [getProperty, if_neg hk]
    exact ih (fun kv hkv => h kv (List.mem_cons_of_mem _ hkv))

/-- C18: called with an empty `error`, `makePostRequestForEventID` leaves
`error` empty exactly when the request stream was made, the status is 200,
the body parses to a JSON object, and the `event_id` of that object is not
empty as a text; then `eventID` is that text. A status other than 200, a body
that is not a JSON object, and a missing `event_id` each give a non-empty
`error`. -/
theorem C18_event_id_request {D : Type} (P : Platform D) (endpoint eventID : List Char)
    (stream : Option (Int × List Char)) :
    ((makePostRequestForEventID P endpoint eventID [] stream).2 = []
      ↔ ∃ body obj, stream = some (200, body)
          ∧ (P.parseJson body).getDynamicObject = some obj
          ∧ (getProperty obj "event_id".toList).toString P ≠ [])
    ∧ (∀ body obj, stream = some (200, body) →
        (P.parseJson body).getDynamicObject = some obj →
        (getProperty obj "event_id".toList).toString P ≠ [] →
          (makePostRequestForEventID P endpoint eventID [] stream).1
            = (getProperty obj "event_id".toList).toString P)
    ∧ (∀ statusCode body, stream = some (statusCode, body) → statusCode ≠ 200 →
        (makePostRequestForEventID P endpoint eventID [] stream).2 ≠ [])
    ∧ (∀ statusCode body, stream = some (statusCode, body) →
        (P.parseJson body).getDynamicObject = none →
          (makePostRequestForEventID P endpoint eventID [] stream).2 ≠ [])
    ∧ (∀ statusCode body obj, stream = some (statusCode, body) →
        (P.parseJson body).getDynamicObject = some obj →
        (∀ kv ∈ obj, kv.1 ≠ "event_id".toList) →
          (makePostRequestForEventID P endpoint eventID [] stream).2 ≠ []) := by
  have hiff : (makePostRequestForEventID P endpoint eventID [] stream).2 = []
      ↔ ∃ body obj, stream = some (200, body)
          ∧ (P.parseJson body).getDynamicObject = some obj
          ∧ (getProperty obj "event_id".toList).toString P ≠ [] := by
    constructor
    · intro hempty
      cases stream with
      | none =>
        rw [GradioClient.post_no_stream] at hempty
        simp at hempty
      | some sb =>
        obtain ⟨statusCode, body⟩ := sb
        by_cases hs : statusCode = 200
        · subst hs
          cases hd : (P.parseJson body).getDynamicObject with
          | none => exact absurd hempty (GradioClient.post_not_object P _ _ _ _ hd)
          | some obj =>
            refine ⟨body, obj, rfl, hd, ?_⟩
            intro he
            rw [GradioClient.post_object P _ _ _ _ obj hd, if_pos he] at hempty
            simp at hempty
        · rw [GradioClient.post_bad_status P _ _ _ _ _ hs] at hempty
          simp at hempty
    · rintro ⟨body, obj, rfl, hd, hne⟩
      rw [GradioClient.post_object P _ _ _ _ obj hd, if_neg hne]
  refine ⟨hiff, ?_, ?_, ?_, ?_⟩
  · intro body obj hst hobj hne
    subst hst
    rw [GradioClient.post_object P _ _ _ _ obj hobj, if_neg hne]
  · intro statusCode body hst hs
    subst hst
    rw [GradioClient.post_bad_status P _ _ _ _ _ hs]
    simp
  · intro statusCode body hst hnone hempty
    obtain ⟨b, o, hb, ho, _⟩ := hiff.mp hempty
    rw [hst] at hb
    simp only [Option.some.injEq, Prod.mk.injEq] at hb
    rw [hb.2, ho] at hnone
    cases hnone
  · intro statusCode body obj hst hobj hno hempty
    obtain ⟨b, o, hb, ho, hne⟩ := hiff.mp hempty
    rw [hst] at hb
    simp only [Option.some.injEq, Prod.mk.injEq] at hb
    rw [hb.2, ho] at hobj
    simp only [Option.some.injEq] at hobj
    subst hobj
    apply hne
    rw [Juce.getProperty_missing o _ hno]
    rfl

/-- C18 on the example platform: the body with the event id `abc123` and
status 200 gives that event id and no error, and status 500 gives an error. -/
theorem C18_event_id_request_witness :
    makePostRequestForEventID Spec.examplePlatform "predict".toList [] []
        (some (200, Spec.exampleEventBody)) = ("abc123".toList, [])
    ∧ (makePostRequestForEventID Spec.examplePlatform "predict".toList [] []
        (some (500, Spec.exampleEventBody))).2 ≠ [] :=
  have h := C18_event_id_request Spec.examplePlatform "predict".toList []
    (some (200, Spec.exampleEventBody))
  have g := C18_event_id_request Spec.examplePlatform "predict".toList []
    (some (500, Spec.exampleEventBody))
  have e1 := h.1.mpr ⟨Spec.exampleEventBody,
    [("event_id".toList, Var.string "abc123".toList)], rfl, rfl, by decide⟩
  have e2 := h.2.1 Spec.exampleEventBody [("event_id".toList, Var.string "abc123".toList)]
    rfl rfl (by decide)
  ⟨Prod.ext e2 e1, g.2.2.1 500 Spec.exampleEventBody rfl (by decide)⟩

/-! ## The schema of the controls call -/

theorem GradioClient.post_keeps_error {D : Type} (P : Platform D)
    (endpoint eventID error : List Char) (stream : Option (Int × List Char))
    (h : error ≠ []) : (makePostRequestForEventID P endpoint eventID error stream).2 ≠ [] := by
  cases stream with
  | none => rw [GradioClient.post_no_stream]; simp
  | some sb =>
    obtain ⟨statusCode, body⟩ := sb
    by_cases hs : statusCode = 200
    · subst hs
      cases hd : (P.parseJson body).getDynamicObject with
      | none => exact GradioClient.post_not_object P _ _ _ _ hd
      | some obj =>
        rw [GradioClient.post_object P _ _ _ _ obj hd]
        split_ifs
        · simp
        · exact h
    · rw [GradioClient.post_bad_status P _ _ _ _ _ hs]
      simp

theorem GradioClient.post_event_id {D : Type} (P : Platform D)
    (endpoint eventID error error2 : List Char) (stream : Option (Int × List Char)) :
    (makePostRequestForEventID P endpoint eventID error stream).1
      = (makePostRequestForEventID P endpoint eventID error2 stream).1 := by
  cases stream with
  | none => rfl
  | some sb =>
    obtain ⟨statusCode, body⟩ := sb
    by_cases hs : statusCode = 200
    · subst hs
      cases hd : (P.parseJson body).getDynamicObject with
      | none =>
        cases hp : P.parseJson body with
        | object obj => rw [hp] at hd; cases hd
        | array a => simp [makePostRequestForEventID, hp, Var.isObject, Var.getDynamicObject]
        | void => simp [makePostRequestForEventID, hp, Var.isObject]
        | int n => simp [makePostRequestForEventID, hp, Var.isObject]
        | bool b => simp [makePostRequestForEventID, hp, Var.isObject]
        | double d => simp [makePostRequestForEventID, hp, Var.isObject]
        | string s => simp [makePostRequestForEventID, hp, Var.isObject]
      | some obj =>
        rw [GradioClient.post_object P _ _ _ _ obj hd, GradioClient.post_object P _ _ _ _ obj hd]
        split_ifs <;> rfl
    · rw [GradioClient.post_bad_status P _ _ _ _ _ hs, GradioClient.post_bad_status P _ _ _ _ _ hs]

theorem GradioClient.getControls_post_failed {D : Type} (P : Platform D) (out : ControlsOut D)
    (post : Option (Int × List Char)) (get : List Char → Option (List Char))
    (h : (makePostRequestForEventID P "controls".toList [] out.error post).2 ≠ []) :
    getControls P out post get
      = { out with error := (makePostRequestForEventID P "controls".toList [] out.error post).2 } := by
  simp only [getControls]
  rw [if_pos (by simpa using h)]

theorem GradioClient.getControls_success {D : Type} (P : Platform D) (out : ControlsOut D)
    (post : Option (Int × List Char)) (get : List Char → Option (List Char))
    (hempty : (getControls P out post get).error = []) :
    ∃ obj rest card ctrls,
      Spec.controlsPayload P post get = Var.array (Var.object obj :: rest)
      ∧ getProperty obj "card".toList = Var.object card
      ∧ getProperty obj "ctrls".toList = Var.array ctrls
      ∧ (getControls P out post get).ctrlList = ctrls
      ∧ (getControls P out post get).cardDict
          = card.foldl (fun d kv => setProperty d kv.1 kv.2) [] := by
  have h0 : out.error = [] := by
    by_contra h0
    have h1 := GradioClient.post_keeps_error P "controls".toList [] out.error post h0
    rw [GradioClient.getControls_post_failed P out post get h1] at hempty
    exact h1 hempty
  obtain ⟨cl, cd, err⟩ := out
  simp only at h0
  subst h0
  simp only [getControls, Spec.controlsPayload] at hempty ⊢
  generalize makePostRequestForEventID P "controls".toList [] [] post = r1 at hempty ⊢
  obtain ⟨eid, e1⟩ := r1
  simp only at hempty ⊢
  by_cases h1 : e1 = []
  · subst h1
    simp only [List.isEmpty_nil, Bool.not_true, Bool.false_eq_true, if_false] at hempty ⊢
    generalize get eid = g at hempty ⊢
    cases g with
    | none => simp [getResponseFromEventID] at hempty
    | some body =>
      simp only [getResponseFromEventID, List.isEmpty_nil, Bool.not_true, Bool.false_eq_true,
        if_false] at hempty ⊢
      generalize extractKeyFromResponse body [] "data: ".toList [] = r3 at hempty ⊢
      obtain ⟨data, e3⟩ := r3
      simp only at hempty ⊢
      by_cases h3 : e3 = []
      · subst h3
        simp only [List.isEmpty_nil, Bool.not_true, Bool.false_eq_true, if_false] at hempty ⊢
        generalize (P.parseObjectOrArray data).getD Var.void = pd at hempty ⊢
        cases pd with
        | array elements =>
          simp only [Var.isObject, Var.isArray, Var.getArray, Bool.not_true, Bool.false_eq_true,
            if_false] at hempty ⊢
          cases elements with
          | nil => simp [getFirst, Var.getDynamicObject] at hempty
          | cons first rest =>
            cases first with
            | object obj =>
              simp only [getFirst, Var.getDynamicObject] at hempty ⊢
              generalize hc : getProperty obj "card".toList = c at hempty ⊢
              cases c with
              | object card =>
                simp only [Var.getDynamicObject] at hempty ⊢
                generalize hk : getProperty obj "ctrls".toList = k at hempty ⊢
                cases k with
                | array ctrls =>
                  simp only [Var.getArray] at hempty ⊢
                  exact ⟨obj, rest, card, ctrls, rfl, hc, hk, rfl, rfl⟩
                | object o => simp [Var.getArray] at hempty
                | void => simp [Var.getArray] at hempty
                | int n => simp [Var.getArray] at hempty
                | bool b => simp [Var.getArray] at hempty
                | double d => simp [Var.getArray] at hempty
                | string t => simp [Var.getArray] at hempty
              | array a => simp [Var.getDynamicObject] at hempty
              | void => simp [Var.getDynamicObject] at hempty
              | int n => simp [Var.getDynamicObject] at hempty
              | bool b => simp [Var.getDynamicObject] at hempty
              | double d => simp [Var.getDynamicObject] at hempty
              | string t => simp [Var.getDynamicObject] at hempty
            | array a => simp [getFirst, Var.getDynamicObject] at hempty
            | void => simp [getFirst, Var.getDynamicObject] at hempty
            | int n => simp [getFirst, Var.getDynamicObject] at hempty
            | bool b => simp [getFirst, Var.getDynamicObject] at hempty
            | double d => simp [getFirst, Var.getDynamicObject] at hempty
            | string t => simp [getFirst, Var.getDynamicObject] at hempty
        | object o => simp [Var.isObject, Var.isArray] at hempty
        | void => simp [Var.isObject] at hempty
        | int n => simp [Var.isObject] at hempty
        | bool b => simp [Var.isObject] at hempty
        | double d => simp [Var.isObject] at hempty
        | string t => simp [Var.isObject] at hempty
      · rw [if_pos (by simpa using h3)] at hempty
        exact absurd hempty h3
  · rw [if_pos (by simpa using h1)] at hempty
    exact absurd hempty h1

theorem Juce.setProperty_new {D : Type} (d : List (List Char × Var D)) (name : List Char)
    (value : Var D) (h : name ∉ d.map Prod.fst) :
    setProperty d name value = d ++ [(name, value)] := by
  induction d with
  | nil => rfl
  | cons kv rest ih =>
    obtain ⟨k, v⟩ := kv
    simp only [List.map_cons, List.mem_cons, not_or] at h
    rw [setProperty, if_neg (fun e => h.1 e.symm), ih h.2]
    rfl

theorem Juce.foldl_setProperty {D : Type} (card d : List (List Char × Var D))
    (hcard : (card.map Prod.fst).Nodup) (hd : ∀ k ∈ card.map Prod.fst, k ∉ d.map Prod.fst) :
    card.foldl (fun d kv => setProperty d kv.1 kv.2) d = d ++ card := by
  induction card generalizing d with
  | nil => simp
  | cons kv rest ih =>
    obtain ⟨k, v⟩ := kv
    simp only [List.map_cons, List.nodup_cons] at hcard
    have hk : k ∉ d.map Prod.fst := hd k (by simp)
    rw [List.foldl_cons]
    simp only
    rw [Juce.setProperty_new d k v hk, ih (d ++ [(k, v)]) hcard.2]
    · simp
    · intro k2 hk2
      simp only [List.map_append, List.map_cons, List.map_nil, List.mem_append,
        List.mem_singleton, not_or]
      refine ⟨hd k2 (by simp [hk2]), ?_⟩
      rintro rfl
      exact hcard.1 hk2

/-- C19: `getControls` leaves `error` empty only when the data payload of the
poll response is a JSON array whose first element is an object with a `card`
that is an object and a `ctrls` that is an array; then `ctrlList` is the
`ctrls` array, in the same order, and `cardDict` holds the properties of
`card`. An empty array, a value that is not an array, a first element that is
not an object, and a missing or mistyped `card` or `ctrls` each leave a
non-empty `error`. -/
theorem C19_get_controls {D : Type} (P : Platform D) (out : ControlsOut D)
    (post : Option (Int × List Char)) (get : List Char → Option (List Char)) :
    ((getControls P out post get).error = [] →
      ∃ obj rest card ctrls,
        Spec.controlsPayload P post get = Var.array (Var.object obj :: rest)
        ∧ getProperty obj "card".toList = Var.object card
        ∧ getProperty obj "ctrls".toList = Var.array ctrls
        ∧ (getControls P out post get).ctrlList = ctrls
        ∧ (getControls P out post get).cardDict
            = card.foldl (fun d kv => setProperty d kv.1 kv.2) []
        ∧ ((card.map Prod.fst).Nodup → (getControls P out post get).cardDict = card))
    ∧ (Spec.controlsPayload P post get = Var.array [] →
        (getControls P out post get).error ≠ [])
    ∧ ((Spec.controlsPayload P post get).isArray = false →
        (getControls P out post get).error ≠ [])
    ∧ (∀ first rest, Spec.controlsPayload P post get = Var.array (first :: rest) →
        first.getDynamicObject = none → (getControls P out post get).error ≠ [])
    ∧ (∀ obj rest, Spec.controlsPayload P post get = Var.array (Var.object obj :: rest) →
        (getProperty obj "card".toList).getDynamicObject = none →
          (getControls P out post get).error ≠ [])
    ∧ (∀ obj rest, Spec.controlsPayload P post get = Var.array (Var.object obj :: rest) →
        (getProperty obj "ctrls".toList).getArray = none →
          (getControls P out post get).error ≠ []) := by
  refine ⟨?_, ?_, ?_, ?_, ?_, ?_⟩
  · intro hempty
    obtain ⟨obj, rest, card, ctrls, hp, hc, hk, hl, hd⟩ :=
      GradioClient.getControls_success P out post get hempty
    refine ⟨obj, rest, card, ctrls, hp, hc, hk, hl, hd, ?_⟩
    intro hnodup
    rw [hd, Juce.foldl_setProperty card [] hnodup (by simp)]
    rfl
  · intro hp hempty
    obtain ⟨obj, rest, card, ctrls, hp2, _⟩ :=
      GradioClient.getControls_success P out post get hempty
    rw [hp] at hp2
    cases hp2
  · intro hp hempty
    obtain ⟨obj, rest, card, ctrls, hp2, _⟩ :=
      GradioClient.getControls_success P out post get hempty
    rw [hp2] at hp
    cases hp
  · intro first rest hp hfirst hempty
    obtain ⟨obj, rest2, card, ctrls, hp2, _⟩ :=
      GradioClient.getControls_success P out post get hempty
    rw [hp] at hp2
    simp only [Var.array.injEq, List.cons.injEq] at hp2
    rw [hp2.1] at hfirst
    cases hfirst
  · intro obj rest hp hcard hempty
    obtain ⟨obj2, rest2, card, ctrls, hp2, hc, _⟩ :=
      GradioClient.getControls_success P out post get hempty
    rw [hp] at hp2
    simp only [Var.array.injEq, List.cons.injEq, Var.object.injEq] at hp2
    rw [hp2.1, hc] at hcard
    cases hcard
  · intro obj rest hp hctrls hempty
    obtain ⟨obj2, rest2, card, ctrls, hp2, _, hk, _⟩ :=
      GradioClient.getControls_success P out post get hempty
    rw [hp] at hp2
    simp only [Var.array.injEq, List.cons.injEq, Var.object.injEq] at hp2
    rw [hp2.1, hk] at hctrls
    cases hctrls

set_option maxRecDepth 100000 in
/-- C19 on the example platform: the example payload gives no error, the two
records of its `ctrls` in order, and the one property of its `card`. -/
theorem C19_get_controls_witness :
    (getControls Spec.examplePlatform { ctrlList := [], cardDict := [], error := [] }
        (some (200, Spec.exampleEventBody)) Spec.exampleGet).error = []
    ∧ (getControls Spec.examplePlatform { ctrlList := [], cardDict := [], error := [] }
        (some (200, Spec.exampleEventBody)) Spec.exampleGet).ctrlList
        = [Spec.exampleSliderRecord, Spec.exampleUnknownRecord]
    ∧ (getControls Spec.examplePlatform { ctrlList := [], cardDict := [], error := [] }
        (some (200, Spec.exampleEventBody)) Spec.exampleGet).cardDict
        = [("name".toList, Var.string "demo".toList)]
    ∧ ∃ obj rest card ctrls,
        Spec.controlsPayload Spec.examplePlatform (some (200, Spec.exampleEventBody))
            Spec.exampleGet = Var.array (Var.object obj :: rest)
        ∧ getProperty obj "card".toList = Var.object card
        ∧ getProperty obj "ctrls".toList = Var.array ctrls :=
  have h := (C19_get_controls Spec.examplePlatform { ctrlList := [], cardDict := [], error := [] }
    (some (200, Spec.exampleEventBody)) Spec.exampleGet).1 (by decide)
  ⟨by decide, rfl, rfl,
    h.elim fun obj h1 => h1.elim fun rest h2 => h2.elim fun card h3 => h3.elim fun ctrls h4 =>
      ⟨obj, rest, card, ctrls, h4.1, h4.2.1, h4.2.2.1⟩⟩

/-! ## The cancel flag -/

theorem WebModel.status_ne_cancel {D : Type} (M : Machine D) :
    m_status_flag_file M ≠ m_cancel_flag_file M := by
  intro h
  simp only [m_status_flag_file, m_cancel_flag_file, getChildFile] at h
  have h2 := List.append_cancel_left h
  revert h2
  decide

theorem WebModel.cancel_files {D : Type} (M : Machine D) (model : WebWave2Wave D)
    (files : Files) (p : List Char) :
    (cancel M model files).2 p = if p = m_cancel_flag_file M then some [] else files p := by
  simp only [cancel, createFile, deleteFile]
  by_cases h : p = m_cancel_flag_file M
  · simp [h]
  · simp [h]

/-- C20: `cancel` is idempotent. For every session and every state of the
files, a second call leaves what the first call left; the call leaves the
session (its controls among the rest) as it was, leaves every file other than
the cancel flag as it was, the status file among them, so that `getStatus`
gives what it gave before, and leaves the cancel flag present and empty. -/
theorem C20_cancel_idempotent {D : Type} (M : Machine D) (model : WebWave2Wave D)
    (files : Files) :
    cancel M (cancel M model files).1 (cancel M model files).2 = cancel M model files
    ∧ (cancel M model files).1 = model
    ∧ (∀ p, p ≠ m_cancel_flag_file M → (cancel M model files).2 p = files p)
    ∧ getStatus M (cancel M model files).2 = getStatus M files
    ∧ (cancel M model files).2 (m_cancel_flag_file M) = some [] := by
  refine ⟨?_, rfl, ?_, ?_, ?_⟩
  · refine Prod.ext rfl ?_
    funext p
    rw [WebModel.cancel_files, WebModel.cancel_files]
    by_cases h : p = m_cancel_flag_file M
    · simp [h]
    · simp [h]
  · intro p hp
    rw [WebModel.cancel_files, if_neg hp]
  · simp only [getStatus]
    rw [WebModel.cancel_files, if_neg (WebModel.status_ne_cancel M)]
  · rw [WebModel.cancel_files, if_pos rfl]

/-! ## Serialising the controls -/

theorem WebModel.saveCtrlsLoop_known {D : Type} (audioInputPath : List Char)
    (m_ctrls : CtrlList D) (hknown : ∀ pair ∈ m_ctrls, Spec.isKnownVariant pair.2 = true) :
    (saveCtrlsLoop audioInputPath m_ctrls).completed = true
    ∧ (saveCtrlsLoop audioInputPath m_ctrls).jsonCtrlsArray
        = m_ctrls.map (fun pair => Spec.serialisedValue audioInputPath pair.2) := by
  induction m_ctrls with
  | nil => exact ⟨rfl, rfl⟩
  | cons pair rest ih =>
    obtain ⟨id, ctrl⟩ := pair
    have hrest := ih (fun p hp => hknown p (List.mem_cons_of_mem _ hp))
    have hctrl := hknown (id, ctrl) (List.mem_cons_self _ _)
    cases ctrl <;>
      first
      | (simp [Spec.isKnownVariant] at hctrl; done)
      | exact ⟨by simp [saveCtrlsLoop, hrest.1], by simp [saveCtrlsLoop, hrest.2, Spec.serialisedValue]⟩

theorem WebModel.saveCtrlsLoop_base {D : Type} (audioInputPath : List Char)
    (m_ctrls : CtrlList D) (hbase : ∃ pair ∈ m_ctrls, Spec.isKnownVariant pair.2 = false) :
    (saveCtrlsLoop audioInputPath m_ctrls).completed = false := by
  induction m_ctrls with
  | nil => obtain ⟨pair, hmem, _⟩ := hbase; cases hmem
  | cons pair rest ih =>
    obtain ⟨id, ctrl⟩ := pair
    by_cases hctrl : Spec.isKnownVariant ctrl = false
    · cases ctrl <;>
        first
        | rfl
        | simp [Spec.isKnownVariant] at hctrl
    · have hrest : (saveCtrlsLoop audioInputPath rest).completed = false := by
        apply ih
        obtain ⟨pair, hmem, hp⟩ := hbase
        rcases List.mem_cons.1 hmem with rfl | hmem
        · exact absurd hp hctrl
        · exact ⟨pair, hmem, hp⟩
      cases ctrl <;> simp [saveCtrlsLoop, hrest]

/-- C16: `saveCtrls` on a control list made only of the seven known variants
succeeds exactly when the write succeeds, and when it succeeds the text it
writes to `savePath` is the JSON text of the array that has one element per
control, in the order of the list: the current value of a slider, number box,
text box, toggle or combo box, and `audioInputPath` for an audio or midi
input, whatever value that control stored. -/
theorem C16_save_ctrls {D : Type} (M : Machine D) (m_ctrls : CtrlList D)
    (savePath audioInputPath : List Char) (files : Files)
    (hknown : ∀ pair ∈ m_ctrls, Spec.isKnownVariant pair.2 = true) :
    ((saveCtrls M m_ctrls savePath audioInputPath files).result = true ↔ M.writeSucceeds = true)
    ∧ ((saveCtrls M m_ctrls savePath audioInputPath files).result = true →
        (saveCtrls M m_ctrls savePath audioInputPath files).written
          = some (M.jsonToString
              (Var.array (m_ctrls.map (fun pair => Spec.serialisedValue audioInputPath pair.2))))
        ∧ (saveCtrls M m_ctrls savePath audioInputPath files).files savePath
          = some (M.jsonToString
              (Var.array (m_ctrls.map (fun pair => Spec.serialisedValue audioInputPath pair.2))))
        ∧ (m_ctrls.map (fun pair => Spec.serialisedValue audioInputPath pair.2)).length
          = m_ctrls.length) := by
  obtain ⟨hcompleted, harray⟩ := WebModel.saveCtrlsLoop_known audioInputPath m_ctrls hknown
  cases hw : M.writeSucceeds
  · simp [saveCtrls, hcompleted, hw]
  · simp [saveCtrls, hcompleted, hw, harray, replaceWithText]

/-- C16 on the example machine: one audio input that holds `old.wav` is
written as the array whose one element is the input file path. -/
theorem C16_save_ctrls_witness :
    (∀ pair ∈ [((0 : Uuid), (Ctrl.audioIn 0 "input".toList "old.wav".toList : Ctrl Spec.Decimal))],
        Spec.isKnownVariant pair.2 = true)
    ∧ (saveCtrls Spec.exampleMachine [(0, Ctrl.audioIn 0 "input".toList "old.wav".toList)]
        "/tmp/ctrls.json".toList "/tmp/in.wav".toList Spec.noFiles).result = true
    ∧ (saveCtrls Spec.exampleMachine [(0, Ctrl.audioIn 0 "input".toList "old.wav".toList)]
        "/tmp/ctrls.json".toList "/tmp/in.wav".toList Spec.noFiles).written
        = some "[\"/tmp/in.wav\"]".toList :=
  have hknown : ∀ pair ∈ [((0 : Uuid),
      (Ctrl.audioIn 0 "input".toList "old.wav".toList : Ctrl Spec.Decimal))],
      Spec.isKnownVariant pair.2 = true := by decide
  have h := C16_save_ctrls Spec.exampleMachine [(0, Ctrl.audioIn 0 "input".toList "old.wav".toList)]
    "/tmp/ctrls.json".toList "/tmp/in.wav".toList Spec.noFiles hknown
  ⟨hknown, h.1.2 rfl, (h.2 (h.1.2 rfl)).1.trans rfl⟩

/-- C17: serialisation is all or nothing. When the control list holds a
control that is none of the seven known variants, at whatever position,
`saveCtrls` gives `false`, comes to no write and leaves every file as it was;
`process` on a session with such a list throws and gives no command to
`std::system`, and on a loaded session the exception is the one of the failed
save and no controls file is left. -/
theorem C17_all_or_nothing {D : Type} (M : Machine D) (model : WebWave2Wave D)
    (savePath audioInputPath filetoProcess : List Char) (files : Files)
    (hbase : ∃ pair ∈ model.m_ctrls, Spec.isKnownVariant pair.2 = false) :
    (saveCtrls M model.m_ctrls savePath audioInputPath files).result = false
    ∧ (saveCtrls M model.m_ctrls savePath audioInputPath files).written = none
    ∧ (saveCtrls M model.m_ctrls savePath audioInputPath files).files = files
    ∧ (process M model filetoProcess files).thrown ≠ none
    ∧ (process M model filetoProcess files).commands = []
    ∧ (model.m_loaded = true →
        (process M model filetoProcess files).thrown
          = some "Failed to save controls to file.".toList
        ∧ (process M model filetoProcess files).files
            (getChildFile M.tempDirectory
              ("ctrls_".toList ++ M.randomString ++ ".json".toList)) = none) := by
  have hloop := fun path => WebModel.saveCtrlsLoop_base path model.m_ctrls hbase
  have hsave : ∀ path p fs, (saveCtrls M model.m_ctrls p path fs).result = false
      ∧ (saveCtrls M model.m_ctrls p path fs).written = none
      ∧ (saveCtrls M model.m_ctrls p path fs).files = fs := by
    intro path p fs
    simp [saveCtrls, hloop path]
  refine ⟨(hsave _ _ _).1, (hsave _ _ _).2.1, (hsave _ _ _).2.2, ?_, ?_, ?_⟩
  · cases hl : model.m_loaded
    · simp [process, hl]
    · simp [process, hl, (hsave _ _ _).1]
  · cases hl : model.m_loaded
    · simp [process, hl]
    · simp [process, hl, (hsave _ _ _).1]
  · intro hl
    simp [process, hl, (hsave _ _ _).1, (hsave _ _ _).2.2, deleteFile]

/-- C17 on the example machine: a plain control after a slider makes the save
fail, and `process` throws before any command is run. -/
theorem C17_all_or_nothing_witness :
    (∃ pair ∈ (Spec.exampleModel [(1, Ctrl.slider 1 "gain".toList ⟨false, 0, 0⟩ ⟨false, 1, 0⟩
          ⟨false, 1, 1⟩ ⟨false, 5, 1⟩), (2, Ctrl.base 2 "plain".toList)]).m_ctrls,
        Spec.isKnownVariant pair.2 = false)
    ∧ (saveCtrls Spec.exampleMachine (Spec.exampleModel [(1, Ctrl.slider 1 "gain".toList
          ⟨false, 0, 0⟩ ⟨false, 1, 0⟩ ⟨false, 1, 1⟩ ⟨false, 5, 1⟩),
          (2, Ctrl.base 2 "plain".toList)]).m_ctrls
        "/tmp/ctrls.json".toList "/tmp/in.mid".toList Spec.noFiles).result = false
    ∧ (process Spec.exampleMachine (Spec.exampleModel [(1, Ctrl.slider 1 "gain".toList
          ⟨false, 0, 0⟩ ⟨false, 1, 0⟩ ⟨false, 1, 1⟩ ⟨false, 5, 1⟩),
          (2, Ctrl.base 2 "plain".toList)]) "/home/in.mid".toList Spec.noFiles).commands = [] :=
  have hbase : ∃ pair ∈ (Spec.exampleModel [(1, Ctrl.slider 1 "gain".toList ⟨false, 0, 0⟩
      ⟨false, 1, 0⟩ ⟨false, 1, 1⟩ ⟨false, 5, 1⟩), (2, Ctrl.base 2 "plain".toList)]).m_ctrls,
      Spec.isKnownVariant pair.2 = false :=
    ⟨(2, Ctrl.base 2 "plain".toList), by simp [Spec.exampleModel], rfl⟩
  have h := C17_all_or_nothing Spec.exampleMachine (Spec.exampleModel [(1, Ctrl.slider 1
    "gain".toList ⟨false, 0, 0⟩ ⟨false, 1, 0⟩ ⟨false, 1, 1⟩ ⟨false, 5, 1⟩),
    (2, Ctrl.base 2 "plain".toList)]) "/tmp/ctrls.json".toList "/tmp/in.mid".toList
    "/home/in.mid".toList Spec.noFiles hbase
  ⟨hbase, h.1, h.2.2.2.2.1⟩

/-! ## The control loop of `load` -/

theorem Spec.recognisedType_iff (t : List Char) :
    Spec.recognisedType t = true ↔
      t = "audio_in".toList ∨ t = "midi_in".toList ∨ t = "slider".toList
        ∨ t = "text".toList ∨ t = "number_box".toList := by
  simp [Spec.recognisedType, or_assoc]

theorem Spec.filter_recognised_pos {D : Type} (P : Platform D) (ctrl : Var D)
    (rest : List (Var D)) (h : Spec.recognisedType (Spec.ctrlTypeOf P ctrl) = true) :
    (ctrl :: rest).filter (fun record => Spec.recognisedType (Spec.ctrlTypeOf P record))
      = ctrl :: rest.filter (fun record => Spec.recognisedType (Spec.ctrlTypeOf P record)) := by
  simp [List.filter, h]

theorem Spec.filter_recognised_neg {D : Type} (P : Platform D) (ctrl : Var D)
    (rest : List (Var D)) (h : ¬ Spec.recognisedType (Spec.ctrlTypeOf P ctrl) = true) :
    (ctrl :: rest).filter (fun record => Spec.recognisedType (Spec.ctrlTypeOf P record))
      = rest.filter (fun record => Spec.recognisedType (Spec.ctrlTypeOf P record)) := by
  simp [List.filter, h]

theorem WebModel.loadCtrls_spec {D : Type} (P : Platform D) (rand : Nat → Uuid)
    (records : List (Var D)) (hobj : ∀ record ∈ records, record.isObject = true) :
    ∀ st : LoadState D,
      (loadCtrls P rand records st).thrown = st.thrown
      ∧ ∃ new, (loadCtrls P rand records st).m_ctrls = st.m_ctrls ++ new
          ∧ List.Forall₂ (fun record pair => Spec.describes P record pair.2 ∧ pair.1 = pair.2.id)
              (records.filter (fun record => Spec.recognisedType (Spec.ctrlTypeOf P record))) new := by
  induction records with
  | nil =>
    intro st
    exact ⟨rfl, [], by simp [loadCtrls], by simp⟩
  | cons ctrl rest ih =>
    intro st
    have hrest := ih (fun r hr => hobj r (List.mem_cons_of_mem _ hr))
    have hctrl := hobj ctrl (List.mem_cons_self _ _)
    rw [loadCtrls, hctrl]
    simp only [Bool.not_true, Bool.false_eq_true, if_false]
    by_cases h1 : (ctrl.get "ctrl_type".toList).toString P = "audio_in".toList
    · rw [if_pos h1]
      obtain ⟨ht, new, hm, hf⟩ := hrest
        { st with m_ctrls := st.m_ctrls ++ [((Ctrl.audioIn nullUuid
            ((ctrl.get "label".toList).toString P) [] : Ctrl D).id,
            Ctrl.audioIn nullUuid ((ctrl.get "label".toList).toString P) [])] }
      refine ⟨ht, _ :: new, hm.trans (List.append_assoc _ [_] _), ?_⟩
      rw [Spec.filter_recognised_pos P ctrl rest ((Spec.recognisedType_iff _).2 (Or.inl h1))]
      exact List.Forall₂.cons ⟨⟨h1, rfl, rfl⟩, rfl⟩ hf
    · rw [if_neg h1]
      by_cases h2 : (ctrl.get "ctrl_type".toList).toString P = "midi_in".toList
      · rw [if_pos h2]
        obtain ⟨ht, new, hm, hf⟩ := hrest
          { st with m_ctrls := st.m_ctrls ++ [((Ctrl.midiIn nullUuid
              ((ctrl.get "label".toList).toString P) [] : Ctrl D).id,
              Ctrl.midiIn nullUuid ((ctrl.get "label".toList).toString P) [])] }
        refine ⟨ht, _ :: new, hm.trans (List.append_assoc _ [_] _), ?_⟩
        rw [Spec.filter_recognised_pos P ctrl rest ((Spec.recognisedType_iff _).2 (Or.inr (Or.inl h2)))]
        exact List.Forall₂.cons ⟨⟨h2, rfl, rfl⟩, rfl⟩ hf
      · rw [if_neg h2]
        by_cases h3 : (ctrl.get "ctrl_type".toList).toString P = "slider".toList
        · rw [if_pos h3]
          obtain ⟨ht, new, hm, hf⟩ := hrest
            { st with
              m_ctrls := st.m_ctrls ++ [((Ctrl.slider (rand st.drawn)
                ((ctrl.get "label".toList).toString P)
                (P.getFloatValue ((ctrl.get "minimum".toList).toString P))
                (P.getFloatValue ((ctrl.get "maximum".toList).toString P))
                (P.getFloatValue ((ctrl.get "step".toList).toString P))
                (P.getFloatValue ((ctrl.get "value".toList).toString P)) : Ctrl D).id,
                Ctrl.slider (rand st.drawn) ((ctrl.get "label".toList).toString P)
                (P.getFloatValue ((ctrl.get "minimum".toList).toString P))
                (P.getFloatValue ((ctrl.get "maximum".toList).toString P))
                (P.getFloatValue ((ctrl.get "step".toList).toString P))
                (P.getFloatValue ((ctrl.get "value".toList).toString P)))],
              drawn := st.drawn + 1 }
          refine ⟨ht, _ :: new, hm.trans (List.append_assoc _ [_] _), ?_⟩
          rw [Spec.filter_recognised_pos P ctrl rest ((Spec.recognisedType_iff _).2 (Or.inr (Or.inr (Or.inl h3))))]
          exact List.Forall₂.cons ⟨⟨h3, rfl, rfl, rfl, rfl, rfl⟩, rfl⟩ hf
        · rw [if_neg h3]
          by_cases h4 : (ctrl.get "ctrl_type".toList).toString P = "text".toList
          · rw [if_pos h4]
            obtain ⟨ht, new, hm, hf⟩ := hrest
              { st with
                m_ctrls := st.m_ctrls ++ [((Ctrl.textBox (rand st.drawn)
                  ((ctrl.get "label".toList).toString P)
                  ((ctrl.get "value".toList).toString P) : Ctrl D).id,
                  Ctrl.textBox (rand st.drawn) ((ctrl.get "label".toList).toString P)
                  ((ctrl.get "value".toList).toString P))],
                drawn := st.drawn + 1 }
            refine ⟨ht, _ :: new, hm.trans (List.append_assoc _ [_] _), ?_⟩
            rw [Spec.filter_recognised_pos P ctrl rest ((Spec.recognisedType_iff _).2 (Or.inr (Or.inr (Or.inr (Or.inl h4)))))]
            exact List.Forall₂.cons ⟨⟨h4, rfl, rfl⟩, rfl⟩ hf
          · rw [if_neg h4]
            by_cases h5 : (ctrl.get "ctrl_type".toList).toString P = "number_box".toList
            · rw [if_pos h5]
              obtain ⟨ht, new, hm, hf⟩ := hrest
                { st with m_ctrls := st.m_ctrls ++ [((Ctrl.numberBox nullUuid
                    ((ctrl.get "label".toList).toString P)
                    (P.getFloatValue ((ctrl.get "min".toList).toString P))
                    (P.getFloatValue ((ctrl.get "max".toList).toString P))
                    (P.getFloatValue ((ctrl.get "value".toList).toString P)) : Ctrl D).id,
                    Ctrl.numberBox nullUuid ((ctrl.get "label".toList).toString P)
                    (P.getFloatValue ((ctrl.get "min".toList).toString P))
                    (P.getFloatValue ((ctrl.get "max".toList).toString P))
                    (P.getFloatValue ((ctrl.get "value".toList).toString P)))] }
              refine ⟨ht, _ :: new, hm.trans (List.append_assoc _ [_] _), ?_⟩
              rw [Spec.filter_recognised_pos P ctrl rest ((Spec.recognisedType_iff _).2 (Or.inr (Or.inr (Or.inr (Or.inr h5)))))]
              exact List.Forall₂.cons ⟨⟨h5, rfl, rfl, rfl, rfl⟩, rfl⟩ hf
            · rw [if_neg h5]
              obtain ⟨ht, new, hm, hf⟩ := hrest st
              refine ⟨ht, new, hm, ?_⟩
              rw [Spec.filter_recognised_neg P ctrl rest (fun h =>
                ((Spec.recognisedType_iff _).1 h).elim h1 (fun h => h.elim h2 (fun h =>
                  h.elim h3 (fun h => h.elim h4 h5))))]
              exact hf

/-- C13: on a list of records that are all objects, the control loop of `load`
throws nothing, whatever the `ctrl_type` of the records. A record whose type
has no branch in the loop (the branches are `audio_in`, `midi_in`, `slider`,
`text` and `number_box`) is skipped: the loop goes on with the rest from the
same state. The control list built is, in the order of the records, one
control for each record whose type has a branch, of the variant and with the
fields of that record, paired with its id; so its length is the number of
those records. -/
theorem C13_unknown_type_skipped {D : Type} (P : Platform D) (rand : Nat → Uuid)
    (records : List (Var D)) (hobj : ∀ record ∈ records, record.isObject = true) :
    (loadCtrlList P rand records).thrown = none
    ∧ List.Forall₂ (fun record pair => Spec.describes P record pair.2 ∧ pair.1 = pair.2.id)
        (records.filter (fun record => Spec.recognisedType (Spec.ctrlTypeOf P record)))
        (loadCtrlList P rand records).m_ctrls
    ∧ (loadCtrlList P rand records).m_ctrls.length
        = (records.filter (fun record => Spec.recognisedType (Spec.ctrlTypeOf P record))).length
    ∧ (∀ (record : Var D) (rest : List (Var D)) (st : LoadState D), record.isObject = true →
        Spec.recognisedType (Spec.ctrlTypeOf P record) = false →
          loadCtrls P rand (record :: rest) st = loadCtrls P rand rest st) := by
  obtain ⟨ht, new, hm, hf⟩ := WebModel.loadCtrls_spec P rand records hobj
    { thrown := none, m_ctrls := [], drawn := 0 }
  have hm2 : (loadCtrlList P rand records).m_ctrls = new := by
    rw [loadCtrlList, hm]; rfl
  refine ⟨ht, ?_, ?_, ?_⟩
  · rw [hm2]; exact hf
  · rw [hm2]; exact hf.length_eq.symm
  · intro record rest st hrecord hunknown
    have hno : ∀ t, t = "audio_in".toList ∨ t = "midi_in".toList ∨ t = "slider".toList
        ∨ t = "text".toList ∨ t = "number_box".toList →
        (record.get "ctrl_type".toList).toString P ≠ t := by
      intro t ht2 heq
      have := (Spec.recognisedType_iff (Spec.ctrlTypeOf P record)).2 (by
        rw [Spec.ctrlTypeOf, heq]; exact ht2)
      rw [hunknown] at this
      cases this
    rw [loadCtrls, hrecord]
    simp only [Bool.not_true, Bool.false_eq_true, if_false]
    rw [if_neg (hno _ (Or.inl rfl)), if_neg (hno _ (Or.inr (Or.inl rfl))),
      if_neg (hno _ (Or.inr (Or.inr (Or.inl rfl)))),
      if_neg (hno _ (Or.inr (Or.inr (Or.inr (Or.inl rfl))))),
      if_neg (hno _ (Or.inr (Or.inr (Or.inr (Or.inr rfl)))))]

/-- C13 on the example platform: the slider record (minimum 0, maximum 1, step
0.1, value 0.5) and a record of the unknown type `dial` give no error and one
control, the slider with those four values. -/
theorem C13_unknown_type_skipped_witness :
    (∀ record ∈ [Spec.exampleSliderRecord, Spec.exampleUnknownRecord], record.isObject = true)
    ∧ (loadCtrlList Spec.examplePlatform (fun n => n + 1)
        [Spec.exampleSliderRecord, Spec.exampleUnknownRecord]).thrown = none
    ∧ (loadCtrlList Spec.examplePlatform (fun n => n + 1)
        [Spec.exampleSliderRecord, Spec.exampleUnknownRecord]).m_ctrls
        = [(1, Ctrl.slider 1 "gain".toList ⟨false, 0, 0⟩ ⟨false, 1, 0⟩ ⟨false, 1, 1⟩
            ⟨false, 5, 1⟩)] :=
  have hobj : ∀ record ∈ [Spec.exampleSliderRecord, Spec.exampleUnknownRecord],
      record.isObject = true := by decide
  ⟨hobj, (C13_unknown_type_skipped Spec.examplePlatform (fun n => n + 1)
    [Spec.exampleSliderRecord, Spec.exampleUnknownRecord] hobj).1, by decide⟩

/-- C14, refuted as stated: the slider record without a `step` is not
rejected. The loop throws nothing and builds a slider from it, whose step is
the float value of the empty text. -/
theorem C14_missing_step_counterexample :
    (loadCtrlList Spec.examplePlatform (fun n => n + 1) [Spec.exampleSliderWithoutStep]).thrown
        = none
    ∧ (loadCtrlList Spec.examplePlatform (fun n => n + 1) [Spec.exampleSliderWithoutStep]).m_ctrls
        = [(1, Ctrl.slider 1 "gain".toList ⟨false, 0, 0⟩ ⟨false, 1, 0⟩
            (Spec.examplePlatform.getFloatValue []) ⟨false, 5, 1⟩)] := by
  decide

/-- C14, amended: a slider record that lacks a field is not rejected. For
every object record whose `ctrl_type` reads `slider` and every field name that
the record has no property for, the loop throws nothing and builds exactly one
control from the record, a slider whose four numbers are the float values of
the texts of `minimum`, `maximum`, `step` and `value`; the text of the missing
field is empty. -/
theorem C14_missing_field_not_rejected {D : Type} (P : Platform D) (rand : Nat → Uuid)
    (properties : List (List Char × Var D)) (field : String)
    (htype : Spec.ctrlTypeOf P (Var.object properties) = "slider".toList)
    (hmissing : ∀ kv ∈ properties, kv.1 ≠ field.toList) :
    (loadCtrlList P rand [Var.object properties]).thrown = none
    ∧ (loadCtrlList P rand [Var.object properties]).m_ctrls
        = [(rand 0, Ctrl.slider (rand 0) (Spec.fieldText P (Var.object properties) "label")
            (P.getFloatValue (Spec.fieldText P (Var.object properties) "minimum"))
            (P.getFloatValue (Spec.fieldText P (Var.object properties) "maximum"))
            (P.getFloatValue (Spec.fieldText P (Var.object properties) "step"))
            (P.getFloatValue (Spec.fieldText P (Var.object properties) "value")))]
    ∧ Spec.fieldText P (Var.object properties) field = [] := by
  have h1 : (Var.get (Var.object properties) "ctrl_type".toList).toString P
      ≠ "audio_in".toList := by
    rw [Spec.ctrlTypeOf] at htype; rw [htype]; decide
  have h2 : (Var.get (Var.object properties) "ctrl_type".toList).toString P
      ≠ "midi_in".toList := by
    rw [Spec.ctrlTypeOf] at htype; rw [htype]; decide
  have h3 : (Var.get (Var.object properties) "ctrl_type".toList).toString P
      = "slider".toList := htype
  refine ⟨?_, ?_, ?_⟩
  · rw [loadCtrlList, loadCtrls]
    simp only [Var.isObject, Bool.not_true, Bool.false_eq_true, if_false]
    rw [if_neg h1, if_neg h2, if_pos h3]
    rfl
  · rw [loadCtrlList, loadCtrls]
    simp only [Var.isObject, Bool.not_true, Bool.false_eq_true, if_false]
    rw [if_neg h1, if_neg h2, if_pos h3]
    rfl
  · rw [Spec.fieldText, Var.get]
    simp only [Var.getDynamicObject]
    rw [Juce.getProperty_missing properties field.toList hmissing]
    rfl

/-- C14 amended, on the example platform: the slider record without `step`
gives no error and one slider. -/
theorem C14_missing_field_not_rejected_witness :
    Spec.ctrlTypeOf Spec.examplePlatform Spec.exampleSliderWithoutStep = "slider".toList
    ∧ (loadCtrlList Spec.examplePlatform (fun n => n + 1)
        [Spec.exampleSliderWithoutStep]).thrown = none
    ∧ (loadCtrlList Spec.examplePlatform (fun n => n + 1)
        [Spec.exampleSliderWithoutStep]).m_ctrls.length = 1
    ∧ Spec.fieldText Spec.examplePlatform Spec.exampleSliderWithoutStep "step" = [] :=
  have h := C14_missing_field_not_rejected Spec.examplePlatform (fun n => n + 1)
    [("ctrl_type".toList, Var.string "slider".toList),
      ("label".toList, Var.string "gain".toList),
      ("minimum".toList, Var.int 0), ("maximum".toList, Var.int 1),
      ("value".toList, Var.string "0.5".toList)] "step" (by decide) (by decide)
  ⟨by decide, h.1, (congrArg List.length h.2.1).trans rfl, h.2.2⟩

/-- C12: the control loop of `load` has no branch for `toggle` and
`combo_box`. A toggle record and a combo box record are skipped as records of
an unknown type: nothing is thrown and no control is appended, on every
platform. -/
theorem C12_toggle_and_combo_box_dropped {D : Type} (P : Platform D) (rand : Nat → Uuid) :
    (loadCtrlList P rand [Spec.exampleToggleRecord]).thrown = none
    ∧ (loadCtrlList P rand [Spec.exampleToggleRecord]).m_ctrls = []
    ∧ (loadCtrlList P rand [Spec.exampleComboBoxRecord]).thrown = none
    ∧ (loadCtrlList P rand [Spec.exampleComboBoxRecord]).m_ctrls = []
    ∧ (loadCtrlList P rand [Spec.exampleToggleRecord, Spec.exampleComboBoxRecord]).m_ctrls
        = [] :=
  ⟨rfl, rfl, rfl, rfl, rfl⟩

/-- C15: two number box records give two controls with the same id, the null
`Uuid`, on every platform and whatever the random ids; `findCtrlByUuid` on the
id of the second control, labelled `high`, gives the first, labelled `low`. -/
theorem C15_number_boxes_share_null_id {D : Type} (P : Platform D) (rand : Nat → Uuid) :
    (loadCtrlList P rand [Spec.exampleNumberBoxRecord "low" 0,
        Spec.exampleNumberBoxRecord "high" 12]).thrown = none
    ∧ (loadCtrlList P rand [Spec.exampleNumberBoxRecord "low" 0,
        Spec.exampleNumberBoxRecord "high" 12]).m_ctrls.map (fun pair => (pair.1, pair.2.label))
        = [(nullUuid, "low".toList), (nullUuid, "high".toList)]
    ∧ (findCtrlByUuid (loadCtrlList P rand [Spec.exampleNumberBoxRecord "low" 0,
        Spec.exampleNumberBoxRecord "high" 12]).m_ctrls nullUuid).map (fun pair => pair.2.label)
        = some "low".toList :=
  ⟨rfl, rfl, rfl⟩

/-! ## Well-formedness and frame of the parsed record -/

theorem GradioClient.parse_status_cases (input : List Char) (info : SpaceInfo) :
    (isLocalAddress input = true
      ∧ parseSpaceAddress input info =
          { info with userInput := input, gradio := input, huggingface := input,
                      status := Status.LOCALHOST })
    ∨ (isLocalAddress input = false
      ∧ ∃ message, parseSpaceAddress input info =
          { info with userInput := input, error := message, status := Status.ERROR })
    ∨ (isLocalAddress input = false
      ∧ ∃ o r st, extractUserAndModel input = .ok (o, r, st) ∧ o ≠ [] ∧ r ≠ []
        ∧ (st = Status.HUGGINGFACE ∨ st = Status.GRADIO)
        ∧ parseSpaceAddress input info =
          { info with
            userInput := input, status := st,
            huggingface := "https://huggingface.co/spaces/".toList ++ o ++ "/".toList
              ++ Spec.replaceChar '-' '_' r,
            gradio := "https://".toList ++ o ++ "-".toList ++ Spec.replaceChar '_' '-' r
              ++ ".hf.space".toList,
            userName := o, modelName := Spec.replaceChar '_' '-' r }) := by
  cases hl : isLocalAddress input with
  | true => exact Or.inl ⟨rfl, GradioClient.parse_local input info hl⟩
  | false =>
    cases he : extractUserAndModel input with
    | error m => exact Or.inr (Or.inl ⟨rfl, m, GradioClient.parse_error input info m hl he⟩)
    | ok v =>
      obtain ⟨o, r, st⟩ := v
      by_cases ho : o = []
      · exact Or.inr (Or.inl ⟨rfl, _, GradioClient.parse_empty input info o r st hl he (Or.inl ho)⟩)
      · by_cases hr : r = []
        · exact Or.inr (Or.inl ⟨rfl, _,
            GradioClient.parse_empty input info o r st hl he (Or.inr hr)⟩)
        · exact Or.inr (Or.inr ⟨rfl, o, r, st, rfl, ho, hr,
            GradioClient.extract_status input o r st he,
            GradioClient.parse_ok input info o r st hl he ho hr⟩)

theorem Spec.replaced_not_mem (a b : Char) (s : List Char) (hab : a ≠ b) :
    a ∉ Spec.replaceChar a b s := by
  unfold Spec.replaceChar
  intro h
  obtain ⟨c, _, hcx⟩ := List.mem_map.mp h
  by_cases hca : c = a
  · rw [if_pos hca] at hcx
    exact hab hcx.symm
  · rw [if_neg hca] at hcx
    exact hca hcx

/-- C29: for every input and every record that `parseSpaceAddress` is given,
when the status it leaves is `HUGGINGFACE` or `GRADIO` the user name and the
model name it leaves are not empty, the model name has no underscore, and the
gradio URL is `https://` + user name + `-` + model name + `.hf.space`. An
input that rule 1 does not take and from which rules 2 to 4 read an empty
owner or an empty repo ends with status `ERROR`; so do `owner/`, `/repo`,
`https://huggingface.co/spaces/owner/` and the `hf.space` address with the
subdomain `-repo`. -/
theorem C29_descriptor_well_formed (input : List Char) (info : SpaceInfo) :
    ((parseSpaceAddress input info).status = Status.HUGGINGFACE
        ∨ (parseSpaceAddress input info).status = Status.GRADIO →
      (parseSpaceAddress input info).userName ≠ []
      ∧ (parseSpaceAddress input info).modelName ≠ []
      ∧ '_' ∉ (parseSpaceAddress input info).modelName
      ∧ (parseSpaceAddress input info).gradio
          = "https://".toList ++ (parseSpaceAddress input info).userName ++ "-".toList
            ++ (parseSpaceAddress input info).modelName ++ ".hf.space".toList)
    ∧ (∀ o r st, isLocalAddress input = false → extractUserAndModel input = .ok (o, r, st) →
        o = [] ∨ r = [] → (parseSpaceAddress input info).status = Status.ERROR)
    ∧ (parseSpaceAddress "owner/".toList info).status = Status.ERROR
    ∧ (parseSpaceAddress "/repo".toList info).status = Status.ERROR
    ∧ (parseSpaceAddress "https://huggingface.co/spaces/owner/".toList info).status
        = Status.ERROR
    ∧ (parseSpaceAddress "https://-repo.hf.space".toList info).status = Status.ERROR := by
  refine ⟨?_, ?_, ?_, ?_, ?_, ?_⟩
  · intro hacc
    rcases GradioClient.parse_status_cases input info with ⟨_, hp⟩ | ⟨_, m, hp⟩
      | ⟨_, o, r, st, _, ho, hr, _, hp⟩
    · rw [hp] at hacc; simp at hacc
    · rw [hp] at hacc; simp at hacc
    · rw [hp]
      refine ⟨ho, Spec.replaceChar_ne_nil _ _ r hr, ?_, rfl⟩
      exact Spec.replaced_not_mem '_' '-' r (by decide)
  · intro o r st hl he hor
    rw [GradioClient.parse_empty input info o r st hl he hor]
  · rw [GradioClient.parse_empty "owner/".toList info "owner".toList [] Status.HUGGINGFACE
      (by decide) rfl (Or.inr rfl)]
  · rw [GradioClient.parse_empty "/repo".toList info [] "repo".toList Status.HUGGINGFACE
      (by decide) rfl (Or.inl rfl)]
  · rw [GradioClient.parse_empty "https://huggingface.co/spaces/owner/".toList info
      "owner".toList [] Status.HUGGINGFACE (by decide) rfl (Or.inr rfl)]
  · rw [GradioClient.parse_empty "https://-repo.hf.space".toList info [] "repo".toList
      Status.GRADIO (by decide) rfl (Or.inl rfl)]

/-- C29 at the shorthand `owner/my_repo`: the status is `HUGGINGFACE`, the
user name `owner`, the model name `my-repo`, and the gradio URL is built from
the two. -/
theorem C29_descriptor_well_formed_witness :
    (parseSpaceAddress "owner/my_repo".toList emptySpaceInfo).status = Status.HUGGINGFACE
    ∧ (parseSpaceAddress "owner/my_repo".toList emptySpaceInfo).userName = "owner".toList
    ∧ (parseSpaceAddress "owner/my_repo".toList emptySpaceInfo).modelName = "my-repo".toList
    ∧ (parseSpaceAddress "owner/my_repo".toList emptySpaceInfo).gradio
        = "https://".toList ++ (parseSpaceAddress "owner/my_repo".toList emptySpaceInfo).userName
          ++ "-".toList ++ (parseSpaceAddress "owner/my_repo".toList emptySpaceInfo).modelName
          ++ ".hf.space".toList :=
  ⟨by decide, by decide, by decide,
    ((C29_descriptor_well_formed "owner/my_repo".toList emptySpaceInfo).1
      (Or.inl (by decide))).2.2.2⟩

/-- C30: `parseSpaceAddress` writes into the record it is given without
resetting it. For every input and every record: when the status it leaves is
`ERROR`, the fields `gradio`, `huggingface`, `userName` and `modelName` are
the ones of the record before the call; when the status it leaves is
`LOCALHOST`, the fields `userName`, `modelName` and `error` are the ones of
the record before the call. So after `setSpaceInfo` with an address and then
`setSpaceInfo` with a rejected one, `getSpaceInfo` gives the gradio URL that
the first call left, which for an accepted first address with owner `o` and
repo `r` is its canonical URL. -/
theorem C30_frame_of_failed_parse (input : List Char) (info : SpaceInfo) :
    ((parseSpaceAddress input info).status = Status.ERROR →
      (parseSpaceAddress input info).gradio = info.gradio
      ∧ (parseSpaceAddress input info).huggingface = info.huggingface
      ∧ (parseSpaceAddress input info).userName = info.userName
      ∧ (parseSpaceAddress input info).modelName = info.modelName
      ∧ (parseSpaceAddress input info).userInput = input)
    ∧ ((parseSpaceAddress input info).status = Status.LOCALHOST →
      (parseSpaceAddress input info).userName = info.userName
      ∧ (parseSpaceAddress input info).modelName = info.modelName
      ∧ (parseSpaceAddress input info).error = info.error)
    ∧ (∀ first : List Char,
        (getSpaceInfo (setSpaceInfo input (setSpaceInfo first info))).status = Status.ERROR →
        (getSpaceInfo (setSpaceInfo input (setSpaceInfo first info))).gradio
          = (getSpaceInfo (setSpaceInfo first info)).gradio
        ∧ (∀ o r st, extractUserAndModel first = .ok (o, r, st) →
            ((getSpaceInfo (setSpaceInfo first info)).status = Status.HUGGINGFACE
              ∨ (getSpaceInfo (setSpaceInfo first info)).status = Status.GRADIO) →
            (getSpaceInfo (setSpaceInfo input (setSpaceInfo first info))).gradio
              = "https://".toList ++ o ++ "-".toList ++ Spec.replaceChar '_' '-' r
                ++ ".hf.space".toList)) := by
  have hframe : ∀ (i : List Char) (s : SpaceInfo),
      (parseSpaceAddress i s).status = Status.ERROR →
      (parseSpaceAddress i s).gradio = s.gradio
      ∧ (parseSpaceAddress i s).huggingface = s.huggingface
      ∧ (parseSpaceAddress i s).userName = s.userName
      ∧ (parseSpaceAddress i s).modelName = s.modelName
      ∧ (parseSpaceAddress i s).userInput = i := by
    intro i s herr
    rcases GradioClient.parse_status_cases i s with ⟨_, hp⟩ | ⟨_, m, hp⟩
      | ⟨_, o, r, st, _, _, _, hst, hp⟩
    · rw [hp] at herr; simp at herr
    · rw [hp]; exact ⟨rfl, rfl, rfl, rfl, rfl⟩
    · rw [hp] at herr
      simp only at herr
      rcases hst with h | h <;> rw [h] at herr <;> cases herr
  refine ⟨hframe input info, ?_, ?_⟩
  · intro hloc
    rcases GradioClient.parse_status_cases input info with ⟨_, hp⟩ | ⟨_, m, hp⟩
      | ⟨_, o, r, st, _, _, _, hst, hp⟩
    · rw [hp]; exact ⟨rfl, rfl, rfl⟩
    · rw [hp] at hloc; simp at hloc
    · rw [hp] at hloc
      simp only at hloc
      rcases hst with h | h <;> rw [h] at hloc <;> cases hloc
  · intro first herr
    simp only [getSpaceInfo, setSpaceInfo] at herr ⊢
    have h1 := (hframe input (parseSpaceAddress first info) herr).1
    refine ⟨h1, ?_⟩
    intro o r st he hacc
    obtain ⟨hl, o2, r2, st2, he2, ho, hr⟩ := GradioClient.parse_accepted first info hacc
    rw [he] at he2
    simp only [Except.ok.injEq, Prod.mk.injEq] at he2
    obtain ⟨rfl, rfl, rfl⟩ := he2
    rw [h1, GradioClient.parse_ok first info o r st hl he ho hr]

/-- C30 on examples: after `owner/repo` and then the rejected text
`not a valid address`, the gradio URL is still the canonical URL of
`owner/repo`, while the status is `ERROR`. -/
theorem C30_frame_of_failed_parse_witness :
    (getSpaceInfo (setSpaceInfo "not a valid address".toList
        (setSpaceInfo "owner/repo".toList emptySpaceInfo))).status = Status.ERROR
    ∧ (getSpaceInfo (setSpaceInfo "not a valid address".toList
        (setSpaceInfo "owner/repo".toList emptySpaceInfo))).gradio
        = "https://owner-repo.hf.space".toList
    ∧ (getSpaceInfo (setSpaceInfo "not a valid address".toList
        (setSpaceInfo "owner/repo".toList emptySpaceInfo))).userName = "owner".toList :=
  have herr : (getSpaceInfo (setSpaceInfo "not a valid address".toList
      (setSpaceInfo "owner/repo".toList emptySpaceInfo))).status = Status.ERROR := by decide
  have h := (C30_frame_of_failed_parse "not a valid address".toList emptySpaceInfo).2.2
    "owner/repo".toList herr
  ⟨herr, h.1.trans (by decide), by decide⟩

/-! ## What follows the data line -/

theorem Juce.findEndOfWhitespace_append_left (w u : List Char)
    (hw : ∀ c ∈ w, isWhitespace c = true) :
    findEndOfWhitespace (w ++ u) = findEndOfWhitespace u := by
  induction w with
  | nil => rfl
  | cons c cs ih =>
    rw [List.cons_append, findEndOfWhitespace, if_pos (hw c (List.mem_cons_self _ _))]
    exact ih (fun d hd => hw d (List.mem_cons_of_mem _ hd))

theorem Juce.findEndOfWhitespace_whitespace (w : List Char)
    (hw : ∀ c ∈ w, isWhitespace c = true) : findEndOfWhitespace w = [] := by
  have h := Juce.findEndOfWhitespace_append_left w [] hw
  rwa [List.append_nil] at h

theorem Juce.findEndOfWhitespace_append_right (a w : List Char)
    (ha : ∃ c ∈ a, isWhitespace c = false) :
    findEndOfWhitespace (a ++ w) = findEndOfWhitespace a ++ w := by
  induction a with
  | nil => obtain ⟨c, hc, _⟩ := ha; cases hc
  | cons x xs ih =>
    by_cases hx : isWhitespace x = true
    · rw [List.cons_append, findEndOfWhitespace, if_pos hx, findEndOfWhitespace, if_pos hx]
      apply ih
      obtain ⟨c, hc, hcw⟩ := ha
      rcases List.mem_cons.mp hc with rfl | hc
      · rw [hx] at hcw; cases hcw
      · exact ⟨c, hc, hcw⟩
    · rw [List.cons_append, findEndOfWhitespace, if_neg hx, findEndOfWhitespace, if_neg hx]
      rfl

theorem Juce.findTrimmedEnd_append (u w : List Char) (hw : ∀ c ∈ w, isWhitespace c = true) :
    findTrimmedEnd (u ++ w) = findTrimmedEnd u := by
  unfold findTrimmedEnd
  rw [List.reverse_append,
    Juce.findEndOfWhitespace_append_left w.reverse u.reverse
      (fun c hc => hw c (List.mem_reverse.mp hc))]

theorem Juce.trim_whitespace (w : List Char) (hw : ∀ c ∈ w, isWhitespace c = true) :
    trim w = [] := by
  unfold trim
  split_ifs with he
  · exact List.isEmpty_iff.mp he
  · rw [Juce.findEndOfWhitespace_whitespace w hw]
    rfl

/-- Whitespace after a text does not change what `trim` gives. -/
theorem Juce.trim_append_whitespace (a w : List Char) (hw : ∀ c ∈ w, isWhitespace c = true) :
    trim (a ++ w) = trim a := by
  by_cases ha : ∀ c ∈ a, isWhitespace c = true
  · rw [Juce.trim_whitespace a ha, Juce.trim_whitespace (a ++ w)]
    intro c hc
    rcases List.mem_append.mp hc with h | h
    · exact ha c h
    · exact hw c h
  · have hex : ∃ c ∈ a, isWhitespace c = false := by
      by_contra hne
      apply ha
      intro c hc
      by_contra hcw
      exact hne ⟨c, hc, by simpa using hcw⟩
    obtain ⟨c, hc, _⟩ := hex
    have hane : a ≠ [] := List.ne_nil_of_mem hc
    have hawne : a ++ w ≠ [] := fun h => hane (List.append_eq_nil.mp h).1
    unfold trim
    rw [if_neg (fun h => hawne (List.isEmpty_iff.mp h)),
      if_neg (fun h => hane (List.isEmpty_iff.mp h)),
      Juce.findEndOfWhitespace_append_right a w ⟨c, hc, by assumption⟩,
      Juce.findTrimmedEnd_append _ w hw]

/-- With the key `data: ` first met after `pre`, `extractKeyFromResponse`
gives the whole rest of the response, trimmed. -/
theorem GradioClient.extract_data_rest (pre post responseKey error : List Char)
    (hpre : ¬ "data: ".toList <:+: pre) :
    extractKeyFromResponse (pre ++ ("data: ".toList ++ post)) responseKey "data: ".toList error
      = (trim post, error) := by
  have hi := Juce.indexOf_first "data: ".toList pre post (by decide) hpre (by decide)
  unfold extractKeyFromResponse
  rw [hi]
  simp [substringFrom]

/-- C27, refuted as stated: on a stream with two events, the text given for
the key `data: ` runs from the first data line to the end of the stream; it
is not the rest of the first data line, `null`. -/
theorem C27_counterexample_two_data_lines :
    (extractKeyFromResponse
        "event: generating\ndata: null\nevent: complete\ndata: [1]\n".toList []
        "data: ".toList []).1 = "null\nevent: complete\ndata: [1]".toList
    ∧ (extractKeyFromResponse
        "event: generating\ndata: null\nevent: complete\ndata: [1]\n".toList []
        "data: ".toList []).1 ≠ "null".toList := by
  decide

/-- C27, amended: the data extractor is not line-oriented. For every response
made of a text `pre` in which `data: ` does not occur, then `data: `, the rest
`line` of that line, a line feed and further text `rest`,
`extractKeyFromResponse` with the key `data: ` gives everything after that
`data: ` up to the end of the response, trimmed, and leaves `error` as it
was; what it gives is the trimmed rest of the one payload line exactly when
`rest` is nothing but whitespace. -/
theorem C27_data_extractor_takes_rest (pre line rest responseKey error : List Char)
    (hpre : ¬ "data: ".toList <:+: pre) (hline : '\n' ∉ line) :
    (extractKeyFromResponse (pre ++ ("data: ".toList ++ (line ++ '\n' :: rest))) responseKey
        "data: ".toList error).1 = trim (line ++ '\n' :: rest)
    ∧ (extractKeyFromResponse (pre ++ ("data: ".toList ++ (line ++ '\n' :: rest))) responseKey
        "data: ".toList error).2 = error
    ∧ ((extractKeyFromResponse (pre ++ ("data: ".toList ++ (line ++ '\n' :: rest))) responseKey
        "data: ".toList error).1 = trim line ↔ ∀ c ∈ rest, isWhitespace c = true) := by
  rw [GradioClient.extract_data_rest pre (line ++ '\n' :: rest) responseKey error hpre]
  refine ⟨rfl, rfl, ?_, ?_⟩
  · intro heq
    replace heq : trim (line ++ '\n' :: rest) = trim line := heq
    by_contra hrest
    have hex : ∃ x ∈ rest, isWhitespace x = false := by
      by_contra hne
      apply hrest
      intro c hc
      by_contra hcw
      exact hne ⟨c, hc, by simpa using hcw⟩
    obtain ⟨x, hx, hxw⟩ := hex
    obtain ⟨l, r, hs, hl, hr, hhead, _⟩ := Juce.trim_spec (line ++ '\n' :: rest)
    obtain ⟨l2, r2, hs2, _, _, _, _⟩ := Juce.trim_spec line
    have hsub : ∀ c ∈ trim (line ++ '\n' :: rest), c ∈ line := by
      intro c hc
      rw [heq] at hc
      rw [hs2]
      simp [hc]
    have hnl : '\n' ∉ trim (line ++ '\n' :: rest) := fun h => hline (hsub _ h)
    have hnotl : x ∉ l := fun h => by rw [hl x h] at hxw; cases hxw
    have hnotr : x ∉ r := fun h => by rw [hr x h] at hxw; cases hxw
    have hxt : x ∈ trim (line ++ '\n' :: rest) := by
      have hxs : x ∈ line ++ '\n' :: rest := by simp [hx]
      rw [hs] at hxs
      rcases List.mem_append.mp hxs with h | h
      · rcases List.mem_append.mp h with h | h
        · exact absurd h hnotl
        · exact h
      · exact absurd h hnotr
    rw [List.append_assoc] at hs
    rcases List.append_eq_append_iff.mp hs.symm with ⟨a1, ha1, hb1⟩ | ⟨c1, hc1, _⟩
    · rcases List.append_eq_append_iff.mp hb1 with ⟨a2, _, hb2⟩ | ⟨c2, hc2, hd2⟩
      · apply hnotr
        rw [hb2]
        simp [hx]
      · cases c2 with
        | nil =>
          apply hnotr
          simp only [List.nil_append] at hd2
          rw [← hd2]
          simp [hx]
        | cons d c3 =>
          simp only [List.cons_append, List.cons.injEq] at hd2
          apply hnl
          rw [hc2, ← hd2.1]
          simp
    · cases ht : trim (line ++ '\n' :: rest) with
      | nil => rw [ht] at hxt; cases hxt
      | cons c0 t0 =>
        have hc0 : isWhitespace c0 = false := hhead c0 t0 ht
        have hc0line : c0 ∈ line := hsub c0 (by rw [ht]; simp)
        have hc0l : c0 ∈ l := by rw [hc1]; simp [hc0line]
        rw [hl c0 hc0l] at hc0
        cases hc0
  · intro hrest
    apply Juce.trim_append_whitespace line ('\n' :: rest)
    intro c hc
    rcases List.mem_cons.mp hc with rfl | hc
    · decide
    · exact hrest c hc

/-- C27 amended, on a stream with two events: everything after the first
`data: ` is given, and it is not the rest of the first data line, since text
other than whitespace follows that line. -/
theorem C27_data_extractor_takes_rest_witness :
    ¬ "data: ".toList <:+: "event: generating\n".toList
    ∧ '\n' ∉ "null".toList
    ∧ (extractKeyFromResponse ("event: generating\n".toList ++ ("data: ".toList
        ++ ("null".toList ++ '\n' :: "event: complete\ndata: [1]\n".toList))) []
        "data: ".toList []).1
        = trim ("null".toList ++ '\n' :: "event: complete\ndata: [1]\n".toList)
    ∧ (extractKeyFromResponse ("event: generating\n".toList ++ ("data: ".toList
        ++ ("null".toList ++ '\n' :: "event: complete\ndata: [1]\n".toList))) []
        "data: ".toList []).1 ≠ trim "null".toList :=
  have hpre : ¬ "data: ".toList <:+: "event: generating\n".toList := by decide
  have hline : '\n' ∉ "null".toList := by decide
  have h := C27_data_extractor_takes_rest "event: generating\n".toList "null".toList
    "event: complete\ndata: [1]\n".toList [] [] hpre hline
  ⟨hpre, hline, h.1, fun heq => absurd (h.2.2.1 heq) (by decide)⟩

/-! ## What a failed controls call leaves -/

/-- A failed `getControls` leaves `ctrlList` as it was. -/
theorem GradioClient.getControls_failed_ctrlList {D : Type} (P : Platform D)
    (out : ControlsOut D) (post : Option (Int × List Char))
    (get : List Char → Option (List Char))
    (h : (getControls P out post get).error ≠ []) :
    (getControls P out post get).ctrlList = out.ctrlList := by
  unfold getControls at h ⊢
  simp only at h ⊢
  repeat' split
  all_goals first
    | rfl
    | simp_all

/-- C28: on a response whose first element has a valid `card` and no `ctrls`,
`getControls` reports the error of the `ctrls` check and leaves `ctrlList` as
it was, but `cardDict` no longer holds the caller's property `name` = `old`:
it holds the card of the response, copied before the `ctrls` check. -/
theorem C28_card_overwritten_before_ctrls_check :
    (getControls Spec.exampleCardOnlyPlatform
        { ctrlList := [Var.int 7], cardDict := [("name".toList, Var.string "old".toList)],
          error := [] }
        (some (200, Spec.exampleEventBody)) Spec.exampleCardOnlyGet).error
      = "Couldn't load the controls array/list from the controls response.".toList
    ∧ (getControls Spec.exampleCardOnlyPlatform
        { ctrlList := [Var.int 7], cardDict := [("name".toList, Var.string "old".toList)],
          error := [] }
        (some (200, Spec.exampleEventBody)) Spec.exampleCardOnlyGet).ctrlList = [Var.int 7]
    ∧ (getControls Spec.exampleCardOnlyPlatform
        { ctrlList := [Var.int 7], cardDict := [("name".toList, Var.string "old".toList)],
          error := [] }
        (some (200, Spec.exampleEventBody)) Spec.exampleCardOnlyGet).cardDict
      = [("name".toList, Var.string "demo".toList)] :=
  ⟨by decide, rfl, rfl⟩

/-! ## The numbers of the controls -/

/-- One turn of the loop of `load` on an object record: the loop goes on with
the rest, after at most one control was appended, and that control is
described by the record. -/
theorem WebModel.loadCtrls_step {D : Type} (P : Platform D) (rand : Nat → Uuid)
    (ctrl : Var D) (rest : List (Var D)) (st : LoadState D) (hobj : ctrl.isObject = true) :
    ∃ added drawn,
      loadCtrls P rand (ctrl :: rest) st
        = loadCtrls P rand rest { st with m_ctrls := st.m_ctrls ++ added, drawn := drawn }
      ∧ ∀ pair ∈ added, Spec.describes P ctrl pair.2 := by
  rw [loadCtrls, hobj]
  simp only [Bool.not_true, Bool.false_eq_true, if_false]
  by_cases h1 : (ctrl.get "ctrl_type".toList).toString P = "audio_in".toList
  · rw [if_pos h1]
    refine ⟨[_], st.drawn, rfl, ?_⟩
    intro pair hpair
    rw [List.mem_singleton] at hpair
    rw [hpair]
    exact ⟨h1, rfl, rfl⟩
  · rw [if_neg h1]
    by_cases h2 : (ctrl.get "ctrl_type".toList).toString P = "midi_in".toList
    · rw [if_pos h2]
      refine ⟨[_], st.drawn, rfl, ?_⟩
      intro pair hpair
      rw [List.mem_singleton] at hpair
      rw [hpair]
      exact ⟨h2, rfl, rfl⟩
    · rw [if_neg h2]
      by_cases h3 : (ctrl.get "ctrl_type".toList).toString P = "slider".toList
      · rw [if_pos h3]
        refine ⟨[_], st.drawn + 1, rfl, ?_⟩
        intro pair hpair
        rw [List.mem_singleton] at hpair
        rw [hpair]
        exact ⟨h3, rfl, rfl, rfl, rfl, rfl⟩
      · rw [if_neg h3]
        by_cases h4 : (ctrl.get "ctrl_type".toList).toString P = "text".toList
        · rw [if_pos h4]
          refine ⟨[_], st.drawn + 1, rfl, ?_⟩
          intro pair hpair
          rw [List.mem_singleton] at hpair
          rw [hpair]
          exact ⟨h4, rfl, rfl⟩
        · rw [if_neg h4]
          by_cases h5 : (ctrl.get "ctrl_type".toList).toString P = "number_box".toList
          · rw [if_pos h5]
            refine ⟨[_], st.drawn, rfl, ?_⟩
            intro pair hpair
            rw [List.mem_singleton] at hpair
            rw [hpair]
            exact ⟨h5, rfl, rfl, rfl, rfl⟩
          · rw [if_neg h5]
            refine ⟨[], st.drawn, ?_, by simp⟩
            rw [List.append_nil]

/-- Every control in the list after the loop of `load` was in the list before
it or is described by one of the records, whether the loop throws or not. -/
theorem WebModel.loadCtrls_described {D : Type} (P : Platform D) (rand : Nat → Uuid)
    (records : List (Var D)) :
    ∀ (st : LoadState D) (pair : Uuid × Ctrl D),
      pair ∈ (loadCtrls P rand records st).m_ctrls →
        pair ∈ st.m_ctrls ∨ ∃ record ∈ records, Spec.describes P record pair.2 := by
  induction records with
  | nil =>
    intro st pair hpair
    exact Or.inl hpair
  | cons ctrl rest ih =>
    intro st pair hpair
    by_cases hobj : ctrl.isObject = true
    · obtain ⟨added, drawn, hstep, hadded⟩ := WebModel.loadCtrls_step P rand ctrl rest st hobj
      rw [hstep] at hpair
      rcases ih _ pair hpair with h | ⟨record, hrec, hdesc⟩
      · rcases List.mem_append.mp h with h | h
        · exact Or.inl h
        · exact Or.inr ⟨ctrl, List.mem_cons_self _ _, hadded pair h⟩
      · exact Or.inr ⟨record, List.mem_cons_of_mem _ hrec, hdesc⟩
    · rw [loadCtrls, if_pos (by simpa using hobj)] at hpair
      exact Or.inl hpair

/-- Every control that the loop of `load` builds is described by a record of
the list. -/
theorem WebModel.loadCtrlList_described {D : Type} (P : Platform D) (rand : Nat → Uuid)
    (records : List (Var D)) (pair : Uuid × Ctrl D)
    (hpair : pair ∈ (loadCtrlList P rand records).m_ctrls) :
    ∃ record ∈ records, Spec.describes P record pair.2 := by
  rcases WebModel.loadCtrls_described P rand records _ pair hpair with h | h
  · cases h
  · exact h

/-- C26, refuted as stated: from the slider record with minimum 0, maximum 1,
step 0 and value 5 the loop builds a slider with these four numbers, whose
value is above its maximum and whose step is not above 0. -/
theorem C26_counterexample_value_above_maximum :
    (loadCtrlList Spec.examplePlatform (fun n => n + 1) [Spec.exampleSliderOutOfRange]).m_ctrls
        = [(1, Ctrl.slider 1 "gain".toList ⟨false, 0, 0⟩ ⟨false, 1, 0⟩ ⟨false, 0, 0⟩
            ⟨false, 5, 0⟩)]
    ∧ Spec.Decimal.le ⟨false, 5, 0⟩ ⟨false, 1, 0⟩ = false
    ∧ Spec.Decimal.lt ⟨false, 0, 0⟩ ⟨false, 0, 0⟩ = false
    ∧ ¬ ∀ pair ∈ (loadCtrlList Spec.examplePlatform (fun n => n + 1)
          [Spec.exampleSliderOutOfRange]).m_ctrls,
        Spec.withinBounds (fun a b => Spec.Decimal.le a b = true)
          (fun a b => Spec.Decimal.lt a b = true) ⟨false, 0, 0⟩ pair.2 := by
  refine ⟨by decide, by decide, by decide, ?_⟩
  intro h
  have h1 := h (1, Ctrl.slider 1 "gain".toList ⟨false, 0, 0⟩ ⟨false, 1, 0⟩ ⟨false, 0, 0⟩
    ⟨false, 5, 0⟩) (by decide)
  exact absurd h1.2.1 (by decide)

/-- C26, amended: the loop of `load` checks and clamps nothing. For every list
of records, every control of the list it builds is described by a record of
the list: the numbers of a slider are the float values of the
fields `minimum`, `maximum`, `step` and `value` of its record, those of a
number box the float values of `min`, `max` and `value`. So, for every order
on the numbers, every slider has `minimum ≤ value ≤ maximum` and `0 < step`
and every number box `min ≤ value ≤ max` when the fields of every slider
record and of every number box record have. -/
theorem C26_bounds_from_records {D : Type} (P : Platform D) (rand : Nat → Uuid)
    (records : List (Var D)) (le lt : D → D → Prop) (zero : D)
    (hslider : ∀ record ∈ records, Spec.ctrlTypeOf P record = "slider".toList →
      le (P.getFloatValue (Spec.fieldText P record "minimum"))
          (P.getFloatValue (Spec.fieldText P record "value"))
      ∧ le (P.getFloatValue (Spec.fieldText P record "value"))
          (P.getFloatValue (Spec.fieldText P record "maximum"))
      ∧ lt zero (P.getFloatValue (Spec.fieldText P record "step")))
    (hbox : ∀ record ∈ records, Spec.ctrlTypeOf P record = "number_box".toList →
      le (P.getFloatValue (Spec.fieldText P record "min"))
          (P.getFloatValue (Spec.fieldText P record "value"))
      ∧ le (P.getFloatValue (Spec.fieldText P record "value"))
          (P.getFloatValue (Spec.fieldText P record "max"))) :
    (∀ pair ∈ (loadCtrlList P rand records).m_ctrls,
        ∃ record ∈ records, Spec.describes P record pair.2)
    ∧ ∀ pair ∈ (loadCtrlList P rand records).m_ctrls, Spec.withinBounds le lt zero pair.2 := by
  refine ⟨fun pair hpair => WebModel.loadCtrlList_described P rand records pair hpair, ?_⟩
  intro pair hpair
  obtain ⟨record, hrec, hdesc⟩ := WebModel.loadCtrlList_described P rand records pair hpair
  obtain ⟨id, ctrl⟩ := pair
  cases ctrl with
  | slider cid label minimum maximum step value =>
    obtain ⟨ht, _, hmin, hmax, hstep, hvalue⟩ := hdesc
    have h := hslider record hrec ht
    simp only [Spec.withinBounds]
    rw [hmin, hmax, hstep, hvalue]
    exact h
  | numberBox cid label min max value =>
    obtain ⟨ht, _, hmin, hmax, hvalue⟩ := hdesc
    have h := hbox record hrec ht
    simp only [Spec.withinBounds]
    rw [hmin, hmax, hvalue]
    exact h
  | base _ _ => trivial
  | textBox _ _ _ => trivial
  | audioIn _ _ _ => trivial
  | midiIn _ _ _ => trivial
  | toggle _ _ _ => trivial
  | comboBox _ _ _ _ => trivial

/-- C26 amended, on the example platform: the slider record with minimum 0,
maximum 1, step 0.1 and value 0.5 and a number box record with value 3
between 0 and 12 give two controls within their bounds. -/
theorem C26_bounds_from_records_witness :
    (loadCtrlList Spec.examplePlatform (fun n => n + 1)
        [Spec.exampleSliderRecord, Spec.exampleNumberBoxRecord "semitones" 3]).m_ctrls.length = 2
    ∧ ∀ pair ∈ (loadCtrlList Spec.examplePlatform (fun n => n + 1)
          [Spec.exampleSliderRecord, Spec.exampleNumberBoxRecord "semitones" 3]).m_ctrls,
        Spec.withinBounds (fun a b => Spec.Decimal.le a b = true)
          (fun a b => Spec.Decimal.lt a b = true) ⟨false, 0, 0⟩ pair.2 :=
  ⟨by decide,
    (C26_bounds_from_records Spec.examplePlatform (fun n => n + 1)
      [Spec.exampleSliderRecord, Spec.exampleNumberBoxRecord "semitones" 3]
      (fun a b => Spec.Decimal.le a b = true) (fun a b => Spec.Decimal.lt a b = true)
      ⟨false, 0, 0⟩ (by decide) (by decide)).2⟩

/-! ## The status timer -/

theorem WebModel.timerCallback_changed {D : Type} (M : Machine D) (timer : ModelStatusTimer)
    (files : Files) (h : getStatus M files ≠ timer.m_last_status) :
    timerCallback M timer files
      = ({ m_last_status := getStatus M files, sent := timer.sent + 1 }, files) := by
  simp only [timerCallback]
  rw [if_pos h]

theorem WebModel.timerCallback_same {D : Type} (M : Machine D) (timer : ModelStatusTimer)
    (files : Files) (h : getStatus M files = timer.m_last_status) :
    timerCallback M timer files = (timer, files) := by
  simp only [timerCallback]
  rw [if_neg (fun hne => hne h)]

theorem WebModel.timerCallback_last {D : Type} (M : Machine D) (timer : ModelStatusTimer)
    (files : Files) :
    (timerCallback M timer files).1.m_last_status = getStatus M files := by
  by_cases h : getStatus M files = timer.m_last_status
  · rw [WebModel.timerCallback_same M timer files h]
    exact h.symm
  · rw [WebModel.timerCallback_changed M timer files h]

theorem WebModel.timerCallback_sent {D : Type} (M : Machine D) (timer : ModelStatusTimer)
    (files : Files) :
    (timerCallback M timer files).1.sent
      = timer.sent + (if getStatus M files ≠ timer.m_last_status then 1 else 0) := by
  by_cases h : getStatus M files = timer.m_last_status
  · rw [WebModel.timerCallback_same M timer files h, if_neg (fun hne => hne h)]
    rfl
  · rw [WebModel.timerCallback_changed M timer files h, if_pos h]

theorem WebModel.timerCallbacks_sent {D : Type} (M : Machine D) (states : List Files) :
    ∀ timer : ModelStatusTimer,
      (timerCallbacks M timer states).sent
        = timer.sent + Spec.changes timer.m_last_status (states.map (getStatus M)) := by
  induction states with
  | nil => intro timer; rfl
  | cons files later ih =>
    intro timer
    rw [timerCallbacks, ih, WebModel.timerCallback_sent, WebModel.timerCallback_last]
    simp only [List.map_cons, Spec.changes]
    omega

/-- C24: `timerCallback` calls `sendChangeMessage`, once, exactly when the
status it reads differs from `m_last_status`, and otherwise not at all;
afterwards `m_last_status` is the status just read, and the files, so the
status of the session, are as they were. For every sequence of states of the
files at which the callback runs, the number of messages sent is the number of
statuses read that differ from the status read before them, the first being
compared with the `m_last_status` at the start, which is empty for a new
timer. -/
theorem C24_status_timer {D : Type} (M : Machine D) (timer : ModelStatusTimer)
    (files : Files) (states : List Files) :
    ((timerCallback M timer files).1.sent = timer.sent + 1
        ↔ getStatus M files ≠ timer.m_last_status)
    ∧ ((timerCallback M timer files).1.sent = timer.sent
        ↔ getStatus M files = timer.m_last_status)
    ∧ (timerCallback M timer files).1.m_last_status = getStatus M files
    ∧ (timerCallback M timer files).2 = files
    ∧ getStatus M (timerCallback M timer files).2 = getStatus M files
    ∧ (timerCallbacks M timer states).sent
        = timer.sent + Spec.changes timer.m_last_status (states.map (getStatus M))
    ∧ (timerCallbacks M newModelStatusTimer states).sent
        = Spec.changes [] (states.map (getStatus M)) := by
  have h2 : (timerCallback M timer files).2 = files := by
    simp only [timerCallback]
    split_ifs <;> rfl
  refine ⟨?_, ?_, WebModel.timerCallback_last M timer files, h2, by rw [h2],
    WebModel.timerCallbacks_sent M states timer, ?_⟩
  · rw [WebModel.timerCallback_sent]
    by_cases h : getStatus M files = timer.m_last_status
    · simp [h]
    · simp [h]
  · rw [WebModel.timerCallback_sent]
    by_cases h : getStatus M files = timer.m_last_status
    · simp [h]
    · simp [h]
  · rw [WebModel.timerCallbacks_sent M states newModelStatusTimer]
    simp [newModelStatusTimer]

/-- C24 on the example machine: polled at no status file, then twice at
`Status.LOADED`, then at no status file again, a new timer sends three
messages: for `Status.INACTIVE`, for `Status.LOADED`, and for
`Status.INACTIVE`. -/
theorem C24_status_timer_witness :
    (timerCallbacks Spec.exampleMachine newModelStatusTimer
        [Spec.noFiles,
         replaceWithText (m_status_flag_file Spec.exampleMachine) "Status.LOADED".toList
           Spec.noFiles,
         replaceWithText (m_status_flag_file Spec.exampleMachine) "Status.LOADED".toList
           Spec.noFiles,
         Spec.noFiles]).sent = 3
    ∧ Spec.changes [] ["Status.INACTIVE".toList, "Status.LOADED".toList,
        "Status.LOADED".toList, "Status.INACTIVE".toList] = 3 :=
  ⟨((C24_status_timer Spec.exampleMachine newModelStatusTimer Spec.noFiles
      [Spec.noFiles,
       replaceWithText (m_status_flag_file Spec.exampleMachine) "Status.LOADED".toList
         Spec.noFiles,
       replaceWithText (m_status_flag_file Spec.exampleMachine) "Status.LOADED".toList
         Spec.noFiles,
       Spec.noFiles]).2.2.2.2.2.2).trans (by decide), by decide⟩

/-! ## Files that an operation leaves alone -/

theorem WebModel.deleteFile_same (path : List Char) (files : Files) :
    deleteFile path files path = none := by
  simp [deleteFile]

theorem WebModel.deleteFile_other (path p : List Char) (files : Files) (h : p ≠ path) :
    deleteFile path files p = files p := by
  simp [deleteFile, h]

theorem WebModel.replaceWithText_same (path text : List Char) (files : Files) :
    replaceWithText path text files path = some text := by
  simp [replaceWithText]

theorem WebModel.replaceWithText_other (path text p : List Char) (files : Files)
    (h : p ≠ path) : replaceWithText path text files p = files p := by
  simp [replaceWithText, h]

theorem WebModel.copyFileTo_other (source target p : List Char) (files : Files)
    (h : p ≠ target) : copyFileTo source target files p = files p := by
  unfold copyFileTo
  cases files source with
  | none => rfl
  | some text => exact WebModel.replaceWithText_other target text p files h

theorem WebModel.moveFileTo_missing (source target : List Char) (files : Files)
    (h : files source = none) : moveFileTo source target files = files := by
  unfold moveFileTo
  rw [h]

theorem WebModel.moveFileTo_other (source target p : List Char) (files : Files)
    (hs : p ≠ source) (ht : p ≠ target) : moveFileTo source target files p = files p := by
  unfold moveFileTo
  cases files source with
  | none => rfl
  | some text =>
    simp only
    rw [WebModel.deleteFile_other _ _ _ hs]
    exact WebModel.replaceWithText_other target text p files ht

theorem WebModel.saveCtrls_files_other {D : Type} (M : Machine D) (m_ctrls : CtrlList D)
    (savePath audioInputPath p : List Char) (files : Files) (h : p ≠ savePath) :
    (saveCtrls M m_ctrls savePath audioInputPath files).files p = files p := by
  unfold saveCtrls
  simp only
  split_ifs
  · rfl
  · rfl
  · exact WebModel.replaceWithText_other savePath _ p files h

theorem WebModel.getChildFile_ne (directory : List Char) (c d : Char) (a b : List Char)
    (h : c ≠ d) : getChildFile directory (c :: a) ≠ getChildFile directory (d :: b) := by
  intro he
  unfold getChildFile at he
  have h2 := List.append_cancel_left he
  simp only [List.cons.injEq] at h2
  exact h h2.1

/-- The two flag files are none of the four temporary files of `process`. -/
theorem WebModel.flag_ne_temp {D : Type} (M : Machine D) :
    (m_cancel_flag_file M ≠ tempFile M ∧ m_cancel_flag_file M ≠ tempOutputFile M
      ∧ m_cancel_flag_file M ≠ tempCtrlsFile M ∧ m_cancel_flag_file M ≠ tempLogFile M)
    ∧ (m_status_flag_file M ≠ tempFile M ∧ m_status_flag_file M ≠ tempOutputFile M
      ∧ m_status_flag_file M ≠ tempCtrlsFile M ∧ m_status_flag_file M ≠ tempLogFile M) := by
  refine ⟨⟨?_, ?_, ?_, ?_⟩, ⟨?_, ?_, ?_, ?_⟩⟩ <;>
    exact WebModel.getChildFile_ne M.tempDirectory _ _ _ _ (by decide)

/-- What `process` is on a session that is not loaded. -/
theorem WebModel.process_not_loaded {D : Type} (M : Machine D) (model : WebWave2Wave D)
    (filetoProcess : List Char) (files : Files) (hl : model.m_loaded = false) :
    process M model filetoProcess files
      = { thrown := some "Model not loaded".toList, m_ctrls := model.m_ctrls,
          files := deleteFile (m_cancel_flag_file M) files, commands := [] } := by
  simp [process, hl]

/-- The files that `process` hands to `saveCtrls`. -/
theorem WebModel.process_save_failed {D : Type} (M : Machine D) (model : WebWave2Wave D)
    (filetoProcess : List Char) (files : Files) (hl : model.m_loaded = true)
    (hs : (saveCtrlsLoop (tempFile M) model.m_ctrls).completed = false
      ∨ M.writeSucceeds = false) :
    process M model filetoProcess files
      = { thrown := some "Failed to save controls to file.".toList,
          m_ctrls := (saveCtrlsLoop (tempFile M) model.m_ctrls).m_ctrls,
          files := deleteFile (tempCtrlsFile M) (deleteFile (tempOutputFile M)
            (copyFileTo filetoProcess (tempFile M) (deleteFile (tempFile M)
              (deleteFile (m_cancel_flag_file M) files)))),
          commands := [] } := by
  rcases hs with hs | hs
  · simp [process, hl, saveCtrls, tempFile, tempOutputFile, tempCtrlsFile] at hs ⊢
    simp [hs]
  · cases hc : (saveCtrlsLoop (tempFile M) model.m_ctrls).completed <;>
      simp [process, hl, saveCtrls, tempFile, tempOutputFile, tempCtrlsFile, hs] at hc ⊢

/-- What `process` is on a loaded session whose controls are saved: the
helper runs on the files at launch, and the rest follows its result. -/
theorem WebModel.process_launched {D : Type} (M : Machine D) (model : WebWave2Wave D)
    (filetoProcess : List Char) (files : Files) (hl : model.m_loaded = true)
    (hc : (saveCtrlsLoop (tempFile M) model.m_ctrls).completed = true)
    (hw : M.writeSucceeds = true) :
    process M model filetoProcess files
      = if (M.system (processCommand M model)
            (filesAtLaunch M model filetoProcess files)).1 ≠ 0 then
          { thrown := some ("An error occurred while calling the gradiojuce helper with mode predict. Check the logs (~/Documents/HARP.log) for more details.\nLog content: ".toList
              ++ loadFileAsString (tempLogFile M)
                (M.system (processCommand M model)
                  (filesAtLaunch M model filetoProcess files)).2),
            m_ctrls := (saveCtrlsLoop (tempFile M) model.m_ctrls).m_ctrls,
            files := (M.system (processCommand M model)
              (filesAtLaunch M model filetoProcess files)).2,
            commands := [processCommand M model] }
        else
          { thrown := none,
            m_ctrls := (saveCtrlsLoop (tempFile M) model.m_ctrls).m_ctrls,
            files := filesAfterRun M filetoProcess
              (M.system (processCommand M model)
                (filesAtLaunch M model filetoProcess files)).2,
            commands := [processCommand M model] } := by
  simp only [tempFile] at hc
  simp only [process, hl, saveCtrls, hc, hw, filesAtLaunch, filesAfterRun, processCommand,
    tempFile, tempOutputFile, tempCtrlsFile, tempLogFile, Bool.not_true, Bool.false_eq_true,
    if_false]

/-! ## The cancel flag over the operations of a session -/

theorem WebModel.filesAtLaunch_other {D : Type} (M : Machine D) (model : WebWave2Wave D)
    (filetoProcess p : List Char) (files : Files)
    (h1 : p ≠ tempFile M) (h2 : p ≠ tempOutputFile M) (h3 : p ≠ tempCtrlsFile M)
    (h4 : p ≠ tempLogFile M) :
    filesAtLaunch M model filetoProcess files p = deleteFile (m_cancel_flag_file M) files p := by
  simp only [filesAtLaunch]
  rw [WebModel.deleteFile_other _ _ _ h4, WebModel.saveCtrls_files_other _ _ _ _ _ _ h3,
    WebModel.deleteFile_other _ _ _ h3, WebModel.deleteFile_other _ _ _ h2,
    WebModel.copyFileTo_other _ _ _ _ h1, WebModel.deleteFile_other _ _ _ h1]

/-- The cancel flag is absent when `process` calls `std::system`. -/
theorem WebModel.filesAtLaunch_cancel {D : Type} (M : Machine D) (model : WebWave2Wave D)
    (filetoProcess : List Char) (files : Files) :
    filesAtLaunch M model filetoProcess files (m_cancel_flag_file M) = none := by
  obtain ⟨⟨h1, h2, h3, h4⟩, _⟩ := WebModel.flag_ne_temp M
  rw [WebModel.filesAtLaunch_other M model filetoProcess _ files h1 h2 h3 h4]
  exact WebModel.deleteFile_same _ _

/-- The status file at launch is the one before `process`. -/
theorem WebModel.filesAtLaunch_status {D : Type} (M : Machine D) (model : WebWave2Wave D)
    (filetoProcess : List Char) (files : Files) :
    filesAtLaunch M model filetoProcess files (m_status_flag_file M)
      = files (m_status_flag_file M) := by
  obtain ⟨_, ⟨h1, h2, h3, h4⟩⟩ := WebModel.flag_ne_temp M
  rw [WebModel.filesAtLaunch_other M model filetoProcess _ files h1 h2 h3 h4]
  exact WebModel.deleteFile_other _ _ _ (WebModel.status_ne_cancel M)

theorem WebModel.filesAfterRun_cancel {D : Type} (M : Machine D) (filetoProcess : List Char)
    (files : Files) : filesAfterRun M filetoProcess files (m_cancel_flag_file M) = none := by
  simp only [filesAfterRun]
  exact WebModel.deleteFile_same _ _

/-- After `process` the cancel flag is absent, when the helper does not make it. -/
theorem WebModel.process_cancel_absent {D : Type} (M : Machine D) (model : WebWave2Wave D)
    (filetoProcess : List Char) (files : Files)
    (hhelper : ∀ command fs, fs (m_cancel_flag_file M) = none →
      (M.system command fs).2 (m_cancel_flag_file M) = none) :
    (process M model filetoProcess files).files (m_cancel_flag_file M) = none := by
  obtain ⟨⟨h1, h2, h3, h4⟩, _⟩ := WebModel.flag_ne_temp M
  cases hl : model.m_loaded with
  | false =>
    rw [WebModel.process_not_loaded M model filetoProcess files hl]
    exact WebModel.deleteFile_same _ _
  | true =>
    by_cases hs : (saveCtrlsLoop (tempFile M) model.m_ctrls).completed = true
        ∧ M.writeSucceeds = true
    · rw [WebModel.process_launched M model filetoProcess files hl hs.1 hs.2]
      split_ifs
      · exact hhelper _ _ (WebModel.filesAtLaunch_cancel M model filetoProcess files)
      · exact WebModel.filesAfterRun_cancel M filetoProcess _
    · have hs2 : (saveCtrlsLoop (tempFile M) model.m_ctrls).completed = false
          ∨ M.writeSucceeds = false := by
        by_contra hne
        apply hs
        constructor
        · cases hc : (saveCtrlsLoop (tempFile M) model.m_ctrls).completed
          · exact absurd (Or.inl hc) hne
          · rfl
        · cases hw : M.writeSucceeds
          · exact absurd (Or.inr hw) hne
          · rfl
      rw [WebModel.process_save_failed M model filetoProcess files hl hs2]
      simp only
      rw [WebModel.deleteFile_other _ _ _ h3, WebModel.deleteFile_other _ _ _ h2,
        WebModel.copyFileTo_other _ _ _ _ h1, WebModel.deleteFile_other _ _ _ h1]
      exact WebModel.deleteFile_same _ _

/-- After `load` the cancel flag is absent when it was absent before and the
helper does not make it. -/
theorem WebModel.load_cancel_absent {D : Type} (P : Platform D) (M : Machine D)
    (rand : Nat → Uuid) (model : WebWave2Wave D) (m_card : ModelCard)
    (url : Option (List Char)) (files : Files)
    (hhelper : ∀ command fs, fs (m_cancel_flag_file M) = none →
      (M.system command fs).2 (m_cancel_flag_file M) = none)
    (h0 : files (m_cancel_flag_file M) = none) :
    (load P M rand model m_card url files).files (m_cancel_flag_file M) = none := by
  have hout : m_cancel_flag_file M ≠ getChildFile M.tempDirectory "control_spec.json".toList :=
    WebModel.getChildFile_ne M.tempDirectory _ _ _ _ (by decide)
  have hlog : m_cancel_flag_file M
      ≠ getChildFile M.tempDirectory "system_get_ctrls_log.txt".toList :=
    WebModel.getChildFile_ne M.tempDirectory _ _ _ _ (by decide)
  have hst : m_cancel_flag_file M ≠ m_status_flag_file M :=
    fun h => WebModel.status_ne_cancel M h.symm
  have key : ∀ command,
      deleteFile (getChildFile M.tempDirectory "system_get_ctrls_log.txt".toList)
        (M.system command
          (deleteFile (getChildFile M.tempDirectory "system_get_ctrls_log.txt".toList)
            (deleteFile (getChildFile M.tempDirectory "control_spec.json".toList) files))).2
        (m_cancel_flag_file M) = none := by
    intro command
    rw [WebModel.deleteFile_other _ _ _ hlog]
    apply hhelper
    rw [WebModel.deleteFile_other _ _ _ hlog, WebModel.deleteFile_other _ _ _ hout]
    exact h0
  cases url with
  | none => exact h0
  | some u =>
    simp only [load]
    repeat' split
    all_goals first
      | exact key _
      | (show replaceWithText _ _ (deleteFile _ _) _ = none
         rw [WebModel.replaceWithText_other _ _ _ _ hst, WebModel.deleteFile_other _ _ _ hout]
         exact key _)

/-- C21: the cancel flag is reset at the start of every submission and made
only by `cancel`. From every state of the files, also one that any number of
calls of `cancel` left, the cancel flag is absent in the files that `process`
hands to the helper: `process` deletes it first, and on a session that is not
loaded that is all it does to the files. `cancel` leaves the flag present;
the constructor and `saveCtrls` leave it as it is, the destructor deletes
it, and when the helper does not make the flag it is absent after `process`,
and absent after `load` when it was absent before. -/
theorem C21_cancel_flag_reset {D : Type} (P : Platform D) (M : Machine D) (rand : Nat → Uuid)
    (model : WebWave2Wave D) (m_card : ModelCard) (url : Option (List Char))
    (filetoProcess : List Char) (files : Files) :
    filesAtLaunch M model filetoProcess files (m_cancel_flag_file M) = none
    ∧ (∀ n : Nat,
        filesAtLaunch M model filetoProcess
          (Nat.iterate (fun fs => (cancel M model fs).2) n files) (m_cancel_flag_file M) = none)
    ∧ (model.m_loaded = true → (saveCtrlsLoop (tempFile M) model.m_ctrls).completed = true →
        M.writeSucceeds = true →
        (process M model filetoProcess files).commands = [processCommand M model]
        ∧ ((M.system (processCommand M model)
              (filesAtLaunch M model filetoProcess files)).1 ≠ 0 →
            (process M model filetoProcess files).files
              = (M.system (processCommand M model)
                  (filesAtLaunch M model filetoProcess files)).2)
        ∧ ((M.system (processCommand M model)
              (filesAtLaunch M model filetoProcess files)).1 = 0 →
            (process M model filetoProcess files).files
              = filesAfterRun M filetoProcess (M.system (processCommand M model)
                  (filesAtLaunch M model filetoProcess files)).2))
    ∧ (model.m_loaded = false →
        (process M model filetoProcess files).files = deleteFile (m_cancel_flag_file M) files)
    ∧ (cancel M model files).2 (m_cancel_flag_file M) = some []
    ∧ construct M files (m_cancel_flag_file M) = files (m_cancel_flag_file M)
    ∧ destruct M files (m_cancel_flag_file M) = none
    ∧ (∀ savePath audioInputPath, savePath ≠ m_cancel_flag_file M →
        (saveCtrls M model.m_ctrls savePath audioInputPath files).files (m_cancel_flag_file M)
          = files (m_cancel_flag_file M))
    ∧ ((∀ command fs, fs (m_cancel_flag_file M) = none →
          (M.system command fs).2 (m_cancel_flag_file M) = none) →
        (process M model filetoProcess files).files (m_cancel_flag_file M) = none
        ∧ (files (m_cancel_flag_file M) = none →
            (load P M rand model m_card url files).files (m_cancel_flag_file M) = none)) := by
  refine ⟨WebModel.filesAtLaunch_cancel M model filetoProcess files,
    fun n => WebModel.filesAtLaunch_cancel M model filetoProcess _, ?_, ?_, ?_, ?_, ?_, ?_, ?_⟩
  · intro hl hc hw
    rw [WebModel.process_launched M model filetoProcess files hl hc hw]
    refine ⟨?_, ?_, ?_⟩
    · split_ifs <;> rfl
    · intro h
      rw [if_pos h]
    · intro h
      rw [if_neg (fun hne => hne h)]
  · intro hl
    rw [WebModel.process_not_loaded M model filetoProcess files hl]
  · rw [WebModel.cancel_files, if_pos rfl]
  · exact WebModel.replaceWithText_other _ _ _ _ (fun h => WebModel.status_ne_cancel M h.symm)
  · simp only [destruct]
    rw [WebModel.deleteFile_other _ _ _ (fun h => WebModel.status_ne_cancel M h.symm)]
    exact WebModel.deleteFile_same _ _
  · intro savePath audioInputPath hne
    exact WebModel.saveCtrls_files_other M _ _ _ _ _ (fun h => hne h.symm)
  · intro hhelper
    exact ⟨WebModel.process_cancel_absent M model filetoProcess files hhelper,
      WebModel.load_cancel_absent P M rand model m_card url files hhelper⟩

/-- C21 on the example machine: after two calls of `cancel` the flag is
present; `process` on a loaded session with one slider then launches the
helper once, on files without the flag, and leaves no flag. -/
theorem C21_cancel_flag_reset_witness :
    (Nat.iterate (fun fs => (cancel Spec.exampleMachine
        (Spec.exampleModel [(1, Ctrl.slider 1 "gain".toList ⟨false, 0, 0⟩ ⟨false, 1, 0⟩
          ⟨false, 1, 1⟩ ⟨false, 5, 1⟩)]) fs).2) 2 Spec.noFiles)
        (m_cancel_flag_file Spec.exampleMachine) = some []
    ∧ filesAtLaunch Spec.exampleMachine
        (Spec.exampleModel [(1, Ctrl.slider 1 "gain".toList ⟨false, 0, 0⟩ ⟨false, 1, 0⟩
          ⟨false, 1, 1⟩ ⟨false, 5, 1⟩)]) "/home/in.mid".toList
        (Nat.iterate (fun fs => (cancel Spec.exampleMachine
          (Spec.exampleModel [(1, Ctrl.slider 1 "gain".toList ⟨false, 0, 0⟩ ⟨false, 1, 0⟩
            ⟨false, 1, 1⟩ ⟨false, 5, 1⟩)]) fs).2) 2 Spec.noFiles)
        (m_cancel_flag_file Spec.exampleMachine) = none
    ∧ (process Spec.exampleMachine
        (Spec.exampleModel [(1, Ctrl.slider 1 "gain".toList ⟨false, 0, 0⟩ ⟨false, 1, 0⟩
          ⟨false, 1, 1⟩ ⟨false, 5, 1⟩)]) "/home/in.mid".toList
        (Nat.iterate (fun fs => (cancel Spec.exampleMachine
          (Spec.exampleModel [(1, Ctrl.slider 1 "gain".toList ⟨false, 0, 0⟩ ⟨false, 1, 0⟩
            ⟨false, 1, 1⟩ ⟨false, 5, 1⟩)]) fs).2) 2 Spec.noFiles)).commands.length = 1 :=
  ⟨by decide,
    (C21_cancel_flag_reset Spec.examplePlatform Spec.exampleMachine (fun n => n + 1)
      (Spec.exampleModel [(1, Ctrl.slider 1 "gain".toList ⟨false, 0, 0⟩ ⟨false, 1, 0⟩
        ⟨false, 1, 1⟩ ⟨false, 5, 1⟩)])
      { name := [], description := [], author := [], midi_in := [], midi_out := [], tags := [] }
      none "/home/in.mid".toList Spec.noFiles).2.1 2,
    by decide⟩

/-! ## What a failed submission leaves -/

/-- The status that `getStatus` gives depends on the status file only. -/
theorem WebModel.getStatus_congr {D : Type} (M : Machine D) (files files2 : Files)
    (h : files (m_status_flag_file M) = files2 (m_status_flag_file M)) :
    getStatus M files = getStatus M files2 := by
  simp only [getStatus, h]

/-- C22, refuted as stated: on a loaded session whose status is
`Status.LOADED`, with a controls file that cannot be written, `process` fails
with the message of the failed save, and the status read afterwards is still
`Status.LOADED`, not an error status. -/
theorem C22_counterexample_failed_save :
    (process Spec.exampleReadOnlyMachine Spec.exampleSession "/home/in.mid".toList
        Spec.loadedFiles).thrown = some "Failed to save controls to file.".toList
    ∧ getStatus Spec.exampleReadOnlyMachine Spec.loadedFiles = "Status.LOADED".toList
    ∧ getStatus Spec.exampleReadOnlyMachine
        (process Spec.exampleReadOnlyMachine Spec.exampleSession "/home/in.mid".toList
          Spec.loadedFiles).files = "Status.LOADED".toList
    ∧ getStatus Spec.exampleReadOnlyMachine
        (process Spec.exampleReadOnlyMachine Spec.exampleSession "/home/in.mid".toList
          Spec.loadedFiles).files ≠ "Status.ERROR".toList := by
  decide

/-- C22, amended: a failed submission ends with an exception that carries the
message, and `process` writes no status itself. On a session that is not
loaded it throws `Model not loaded`; on a loaded session whose controls
cannot be serialised or saved it throws the message of the failed save, runs
no command, and the status read afterwards is the status before the call; when
the helper returns a result other than 0 it throws a message that ends with
the text of the log file, and the status read afterwards is the one the
helper left. Nothing is thrown exactly when the session is loaded, the
controls are saved and the helper returns 0. -/
theorem C22_failed_submission_throws {D : Type} (M : Machine D) (model : WebWave2Wave D)
    (filetoProcess : List Char) (files : Files) :
    (model.m_loaded = false →
      (process M model filetoProcess files).thrown = some "Model not loaded".toList
      ∧ (process M model filetoProcess files).commands = []
      ∧ getStatus M (process M model filetoProcess files).files = getStatus M files)
    ∧ (model.m_loaded = true →
        ((saveCtrlsLoop (tempFile M) model.m_ctrls).completed = false
          ∨ M.writeSucceeds = false) →
      (process M model filetoProcess files).thrown
        = some "Failed to save controls to file.".toList
      ∧ (process M model filetoProcess files).commands = []
      ∧ getStatus M (process M model filetoProcess files).files = getStatus M files)
    ∧ (model.m_loaded = true → (saveCtrlsLoop (tempFile M) model.m_ctrls).completed = true →
        M.writeSucceeds = true →
        (M.system (processCommand M model) (filesAtLaunch M model filetoProcess files)).1 ≠ 0 →
      (process M model filetoProcess files).thrown
        = some ("An error occurred while calling the gradiojuce helper with mode predict. Check the logs (~/Documents/HARP.log) for more details.\nLog content: ".toList
            ++ loadFileAsString (tempLogFile M)
              (M.system (processCommand M model)
                (filesAtLaunch M model filetoProcess files)).2)
      ∧ (process M model filetoProcess files).commands = [processCommand M model]
      ∧ getStatus M (process M model filetoProcess files).files
          = getStatus M (M.system (processCommand M model)
              (filesAtLaunch M model filetoProcess files)).2)
    ∧ ((process M model filetoProcess files).thrown = none ↔
        model.m_loaded = true ∧ (saveCtrlsLoop (tempFile M) model.m_ctrls).completed = true
        ∧ M.writeSucceeds = true
        ∧ (M.system (processCommand M model)
            (filesAtLaunch M model filetoProcess files)).1 = 0) := by
  obtain ⟨_, ⟨h1, h2, h3, h4⟩⟩ := WebModel.flag_ne_temp M
  have hnot : model.m_loaded = false →
      (process M model filetoProcess files).thrown = some "Model not loaded".toList
      ∧ (process M model filetoProcess files).commands = []
      ∧ getStatus M (process M model filetoProcess files).files = getStatus M files := by
    intro hl
    rw [WebModel.process_not_loaded M model filetoProcess files hl]
    refine ⟨rfl, rfl, WebModel.getStatus_congr M _ _ ?_⟩
    exact WebModel.deleteFile_other _ _ _ (WebModel.status_ne_cancel M)
  have hsave : model.m_loaded = true →
      ((saveCtrlsLoop (tempFile M) model.m_ctrls).completed = false
        ∨ M.writeSucceeds = false) →
      (process M model filetoProcess files).thrown
        = some "Failed to save controls to file.".toList
      ∧ (process M model filetoProcess files).commands = []
      ∧ getStatus M (process M model filetoProcess files).files = getStatus M files := by
    intro hl hs
    rw [WebModel.process_save_failed M model filetoProcess files hl hs]
    refine ⟨rfl, rfl, WebModel.getStatus_congr M _ _ ?_⟩
    simp only
    rw [WebModel.deleteFile_other _ _ _ h3, WebModel.deleteFile_other _ _ _ h2,
      WebModel.copyFileTo_other _ _ _ _ h1, WebModel.deleteFile_other _ _ _ h1]
    exact WebModel.deleteFile_other _ _ _ (WebModel.status_ne_cancel M)
  refine ⟨hnot, hsave, ?_, ?_⟩
  · intro hl hc hw hr
    rw [WebModel.process_launched M model filetoProcess files hl hc hw, if_pos hr]
    exact ⟨rfl, rfl, rfl⟩
  · constructor
    · intro hnone
      cases hl : model.m_loaded with
      | false => rw [(hnot hl).1] at hnone; cases hnone
      | true =>
        cases hc : (saveCtrlsLoop (tempFile M) model.m_ctrls).completed with
        | false => rw [(hsave hl (Or.inl hc)).1] at hnone; cases hnone
        | true =>
          cases hw : M.writeSucceeds with
          | false => rw [(hsave hl (Or.inr hw)).1] at hnone; cases hnone
          | true =>
            refine ⟨rfl, rfl, rfl, ?_⟩
            by_contra hr
            rw [WebModel.process_launched M model filetoProcess files hl hc hw, if_pos hr]
              at hnone
            cases hnone
    · rintro ⟨hl, hc, hw, hr⟩
      rw [WebModel.process_launched M model filetoProcess files hl hc hw,
        if_neg (fun hne => hne hr)]

set_option maxRecDepth 100000 in
/-- C22 amended, on the example machine whose helper ends with result 1 and
leaves the status `Status.ERROR`: `process` throws a message that ends with
the log text, and the status read afterwards is `Status.ERROR`. -/
theorem C22_failed_submission_throws_witness :
    (Spec.exampleFailingMachine.system (processCommand Spec.exampleFailingMachine
        Spec.exampleSession) (filesAtLaunch Spec.exampleFailingMachine Spec.exampleSession
          "/home/in.mid".toList Spec.loadedFiles)).1 ≠ 0
    ∧ (process Spec.exampleFailingMachine Spec.exampleSession "/home/in.mid".toList
        Spec.loadedFiles).thrown
        = some ("An error occurred while calling the gradiojuce helper with mode predict. Check the logs (~/Documents/HARP.log) for more details.\nLog content: ".toList
            ++ "no route to host".toList)
    ∧ getStatus Spec.exampleFailingMachine
        (process Spec.exampleFailingMachine Spec.exampleSession "/home/in.mid".toList
          Spec.loadedFiles).files = "Status.ERROR".toList :=
  have h := (C22_failed_submission_throws Spec.exampleFailingMachine Spec.exampleSession
    "/home/in.mid".toList Spec.loadedFiles).2.2.1 rfl (by decide) rfl (by decide)
  ⟨by decide, h.1.trans (by decide), h.2.2.trans (by decide)⟩

/-! ## Two sessions on one machine -/

/-- C25, refuted as stated: with a session B that is loaded and not
cancelled, a call of `cancel` on another session A sets the cancel signal of B,
and the destructor of A makes B report `Status.INACTIVE` instead of
`Status.LOADED`. -/
theorem C25_counterexample_shared_flag_files :
    Spec.cancelSignal Spec.exampleMachine Spec.exampleSession Spec.loadedFiles = false
    ∧ Spec.cancelSignal Spec.exampleMachine Spec.exampleSession
        (cancel Spec.exampleMachine (Spec.exampleModel []) Spec.loadedFiles).2 = true
    ∧ getStatus Spec.exampleMachine Spec.loadedFiles = "Status.LOADED".toList
    ∧ getStatus Spec.exampleMachine (destruct Spec.exampleMachine Spec.loadedFiles)
        = "Status.INACTIVE".toList := by
  decide

/-- C25, amended: the sessions of one machine share the two flag files. For
two sessions A and B, the cancel flag file of A is the one of B, and both
read their status from the same status file. So a call of `cancel` on A sets
the cancel signal of B, and leaves the status that B reports as it is; a
submission on A clears the cancel signal of B before the helper is launched,
and leaves the status as it is up to the launch; the destructor of A clears
the cancel signal of B and makes B report `Status.INACTIVE`. -/
theorem C25_sessions_share_flag_files {D : Type} (M : Machine D) (A B : WebWave2Wave D)
    (filetoProcess : List Char) (files : Files) :
    getCancelFlagFile M A = getCancelFlagFile M B
    ∧ Spec.cancelSignal M B (cancel M A files).2 = true
    ∧ getStatus M (cancel M A files).2 = getStatus M files
    ∧ Spec.cancelSignal M B (filesAtLaunch M A filetoProcess files) = false
    ∧ getStatus M (filesAtLaunch M A filetoProcess files) = getStatus M files
    ∧ Spec.cancelSignal M B (destruct M files) = false
    ∧ getStatus M (destruct M files) = "Status.INACTIVE".toList := by
  refine ⟨rfl, ?_, ?_, ?_, ?_, ?_, ?_⟩
  · simp only [Spec.cancelSignal, getCancelFlagFile]
    rw [WebModel.cancel_files, if_pos rfl]
    rfl
  · apply WebModel.getStatus_congr
    rw [WebModel.cancel_files, if_neg (WebModel.status_ne_cancel M)]
  · simp only [Spec.cancelSignal, getCancelFlagFile]
    rw [WebModel.filesAtLaunch_cancel]
    rfl
  · exact WebModel.getStatus_congr M _ _ (WebModel.filesAtLaunch_status M A filetoProcess files)
  · simp only [Spec.cancelSignal, getCancelFlagFile, destruct]
    rw [WebModel.deleteFile_other _ _ _ (fun h => WebModel.status_ne_cancel M h.symm),
      WebModel.deleteFile_same]
    rfl
  · simp only [getStatus, destruct]
    rw [WebModel.deleteFile_same]

/-! ## A cancel request while the helper waits -/

/-- The output file is none of the other temporary files of `process`. -/
theorem WebModel.tempOutputFile_ne {D : Type} (M : Machine D) :
    tempOutputFile M ≠ tempFile M ∧ tempOutputFile M ≠ tempCtrlsFile M
    ∧ tempOutputFile M ≠ tempLogFile M := by
  refine ⟨?_, ?_, ?_⟩ <;> exact WebModel.getChildFile_ne M.tempDirectory _ _ _ _ (by decide)

/-- There is no output file when `process` calls `std::system`. -/
theorem WebModel.filesAtLaunch_output {D : Type} (M : Machine D) (model : WebWave2Wave D)
    (filetoProcess : List Char) (files : Files) :
    filesAtLaunch M model filetoProcess files (tempOutputFile M) = none := by
  obtain ⟨_, h3, h4⟩ := WebModel.tempOutputFile_ne M
  simp only [filesAtLaunch]
  rw [WebModel.deleteFile_other _ _ _ h4, WebModel.saveCtrls_files_other _ _ _ _ _ _ h3,
    WebModel.deleteFile_other _ _ _ h3]
  exact WebModel.deleteFile_same _ _

/-- What the modelled helper leaves when `cancel` is called during its poll. -/
theorem WebModel.withHelper_cancelled {D : Type} (M : Machine D) (model : WebWave2Wave D)
    (result command : List Char) (files : Files) :
    (withHelper M model true result).system command files
      = (0, replaceWithText (m_status_flag_file M) "Status.CANCELLED".toList
          (cancel M model (helperBeforePoll M files)).2) := by
  have hflag : (cancel M model (helperBeforePoll M files)).2 (m_cancel_flag_file M)
      = some [] := by
    rw [WebModel.cancel_files, if_pos rfl]
  simp only [withHelper, if_true, helperAfterPoll, hflag]

/-- What the modelled helper leaves when nothing is cancelled, from files
without the cancel flag. -/
theorem WebModel.withHelper_done {D : Type} (M : Machine D) (model : WebWave2Wave D)
    (result command : List Char) (files : Files) (h : files (m_cancel_flag_file M) = none) :
    (withHelper M model false result).system command files
      = (0, replaceWithText (m_status_flag_file M) "Status.DONE".toList
          (replaceWithText (tempOutputFile M) result (helperBeforePoll M files))) := by
  have hflag : helperBeforePoll M files (m_cancel_flag_file M) = none := by
    rw [helperBeforePoll,
      WebModel.replaceWithText_other _ _ _ _ (fun h => WebModel.status_ne_cancel M h.symm)]
    exact h
  simp only [withHelper, Bool.false_eq_true, if_false, helperAfterPoll, hflag]

/-- The files after a run with result 0 that left no output file: only the
temporary files and the cancel flag are deleted. -/
theorem WebModel.filesAfterRun_no_output {D : Type} (M : Machine D)
    (filetoProcess : List Char) (files : Files) (h : files (tempOutputFile M) = none) :
    filesAfterRun M filetoProcess files
      = deleteFile (m_cancel_flag_file M) (deleteFile (tempCtrlsFile M)
          (deleteFile (tempOutputFile M) (deleteFile (tempFile M)
            (deleteFile (tempLogFile M) files)))) := by
  obtain ⟨_, _, h4⟩ := WebModel.tempOutputFile_ne M
  simp only [filesAfterRun]
  rw [WebModel.moveFileTo_missing]
  rw [WebModel.deleteFile_other _ _ _ h4]
  exact h

/-- C23: with the helper as the spec describes it, a submission on a loaded
session whose controls are saved, during which `cancel` is called while the
helper waits in its poll, ends with the status `Status.CANCELLED`, not
`Status.DONE`, and without an exception. The result is discarded: no output
file is left, and every file other than the four temporary files and the two
flag files, the file to process among them, is as it was before the
submission. Without the call of `cancel` the same submission ends with the
status `Status.DONE`. -/
theorem C23_cancel_while_running {D : Type} (M : Machine D) (model : WebWave2Wave D)
    (filetoProcess result : List Char) (files : Files)
    (hl : model.m_loaded = true)
    (hc : (saveCtrlsLoop (tempFile M) model.m_ctrls).completed = true)
    (hw : M.writeSucceeds = true) :
    getStatus M (process (withHelper M model true result) model filetoProcess files).files
        = "Status.CANCELLED".toList
    ∧ getStatus M (process (withHelper M model true result) model filetoProcess files).files
        ≠ "Status.DONE".toList
    ∧ (process (withHelper M model true result) model filetoProcess files).thrown = none
    ∧ (process (withHelper M model true result) model filetoProcess files).commands
        = [processCommand M model]
    ∧ (process (withHelper M model true result) model filetoProcess files).files
        (tempOutputFile M) = none
    ∧ (∀ p, p ≠ tempFile M → p ≠ tempOutputFile M → p ≠ tempCtrlsFile M → p ≠ tempLogFile M →
        p ≠ m_cancel_flag_file M → p ≠ m_status_flag_file M →
        (process (withHelper M model true result) model filetoProcess files).files p = files p)
    ∧ (filetoProcess ≠ m_status_flag_file M →
        getStatus M (process (withHelper M model false result) model filetoProcess files).files
          = "Status.DONE".toList) := by
  obtain ⟨⟨c1, c2, c3, c4⟩, ⟨s1, s2, s3, s4⟩⟩ := WebModel.flag_ne_temp M
  obtain ⟨o1, o3, o4⟩ := WebModel.tempOutputFile_ne M
  have hsc := WebModel.status_ne_cancel M
  have hout : (replaceWithText (m_status_flag_file M) "Status.CANCELLED".toList
      (cancel M model (helperBeforePoll M
        (filesAtLaunch M model filetoProcess files))).2) (tempOutputFile M) = none := by
    rw [WebModel.replaceWithText_other _ _ _ _ (fun h => s2 h.symm), WebModel.cancel_files,
      if_neg (fun h => c2 h.symm), helperBeforePoll,
      WebModel.replaceWithText_other _ _ _ _ (fun h => s2 h.symm)]
    exact WebModel.filesAtLaunch_output M model filetoProcess files
  have hproc : process (withHelper M model true result) model filetoProcess files
      = { thrown := none,
          m_ctrls := (saveCtrlsLoop (tempFile M) model.m_ctrls).m_ctrls,
          files := deleteFile (m_cancel_flag_file M) (deleteFile (tempCtrlsFile M)
            (deleteFile (tempOutputFile M) (deleteFile (tempFile M)
              (deleteFile (tempLogFile M)
                (replaceWithText (m_status_flag_file M) "Status.CANCELLED".toList
                  (cancel M model (helperBeforePoll M
                    (filesAtLaunch M model filetoProcess files))).2))))),
          commands := [processCommand M model] } := by
    rw [WebModel.process_launched (withHelper M model true result) model filetoProcess files
      hl hc hw, WebModel.withHelper_cancelled]
    rw [if_neg (fun hne => hne rfl)]
    congr 1
    exact WebModel.filesAfterRun_no_output M filetoProcess _ hout
  have hstatus : (process (withHelper M model true result) model filetoProcess files).files
      (m_status_flag_file M) = some "Status.CANCELLED".toList := by
    rw [hproc]
    simp only
    rw [WebModel.deleteFile_other _ _ _ hsc, WebModel.deleteFile_other _ _ _ s3,
      WebModel.deleteFile_other _ _ _ s2, WebModel.deleteFile_other _ _ _ s1,
      WebModel.deleteFile_other _ _ _ s4]
    exact WebModel.replaceWithText_same _ _ _
  have hget : getStatus M
      (process (withHelper M model true result) model filetoProcess files).files
      = "Status.CANCELLED".toList := by
    simp only [getStatus, hstatus]
  refine ⟨hget, ?_, ?_, ?_, ?_, ?_, ?_⟩
  · rw [hget]
    decide
  · rw [hproc]
  · rw [hproc]
  · rw [hproc]
    simp only
    rw [WebModel.deleteFile_other _ _ _ (fun h => c2 h.symm),
      WebModel.deleteFile_other _ _ _ o3]
    exact WebModel.deleteFile_same _ _
  · intro p p1 p2 p3 p4 p5 p6
    rw [hproc]
    simp only
    rw [WebModel.deleteFile_other _ _ _ p5, WebModel.deleteFile_other _ _ _ p3,
      WebModel.deleteFile_other _ _ _ p2, WebModel.deleteFile_other _ _ _ p1,
      WebModel.deleteFile_other _ _ _ p4, WebModel.replaceWithText_other _ _ _ _ p6,
      WebModel.cancel_files, if_neg p5, helperBeforePoll,
      WebModel.replaceWithText_other _ _ _ _ p6,
      WebModel.filesAtLaunch_other M model filetoProcess p files p1 p2 p3 p4]
    exact WebModel.deleteFile_other _ _ _ p5
  · intro hf
    have hd : (withHelper M model false result).system
        (processCommand (withHelper M model false result) model)
        (filesAtLaunch (withHelper M model false result) model filetoProcess files)
        = (0, replaceWithText (m_status_flag_file M) "Status.DONE".toList
            (replaceWithText (tempOutputFile M) result
              (helperBeforePoll M (filesAtLaunch M model filetoProcess files)))) :=
      WebModel.withHelper_done M model result _ _
        (WebModel.filesAtLaunch_cancel M model filetoProcess files)
    have hproc2 : (process (withHelper M model false result) model filetoProcess files).files
        = filesAfterRun M filetoProcess
            (replaceWithText (m_status_flag_file M) "Status.DONE".toList
              (replaceWithText (tempOutputFile M) result
                (helperBeforePoll M (filesAtLaunch M model filetoProcess files)))) := by
      rw [WebModel.process_launched (withHelper M model false result) model filetoProcess
        files hl hc hw, hd]
      rw [if_neg (fun hne => hne rfl)]
      rfl
    have hst : (process (withHelper M model false result) model filetoProcess files).files
        (m_status_flag_file M) = some "Status.DONE".toList := by
      rw [hproc2]
      simp only [filesAfterRun]
      rw [WebModel.deleteFile_other _ _ _ hsc, WebModel.deleteFile_other _ _ _ s3,
        WebModel.deleteFile_other _ _ _ s2, WebModel.deleteFile_other _ _ _ s1,
        WebModel.moveFileTo_other _ _ _ _ s2 (fun h => hf h.symm),
        WebModel.deleteFile_other _ _ _ s4]
      exact WebModel.replaceWithText_same _ _ _
    simp only [getStatus, hst]

set_option maxRecDepth 100000 in
/-- C23 on the example machine: a loaded session with one slider, a file to
process that holds `input`, and a call of `cancel` during the poll give the
status `Status.CANCELLED`, and the file to process still holds `input`. -/
theorem C23_cancel_while_running_witness :
    Spec.exampleSession.m_loaded = true
    ∧ (saveCtrlsLoop (tempFile Spec.exampleMachine) Spec.exampleSession.m_ctrls).completed = true
    ∧ Spec.exampleMachine.writeSucceeds = true
    ∧ getStatus Spec.exampleMachine
        (process (withHelper Spec.exampleMachine Spec.exampleSession true "output".toList)
          Spec.exampleSession "/home/in.mid".toList
          (replaceWithText "/home/in.mid".toList "input".toList Spec.loadedFiles)).files
        = "Status.CANCELLED".toList
    ∧ (process (withHelper Spec.exampleMachine Spec.exampleSession true "output".toList)
          Spec.exampleSession "/home/in.mid".toList
          (replaceWithText "/home/in.mid".toList "input".toList Spec.loadedFiles)).files
        "/home/in.mid".toList = some "input".toList :=
  have h := C23_cancel_while_running Spec.exampleMachine Spec.exampleSession
    "/home/in.mid".toList "output".toList
    (replaceWithText "/home/in.mid".toList "input".toList Spec.loadedFiles) rfl rfl rfl
  ⟨rfl, rfl, rfl, h.1,
    (h.2.2.2.2.2.1 "/home/in.mid".toList (by decide) (by decide) (by decide) (by decide)
      (by decide) (by decide)).trans (by decide)⟩
